import Mathlib

/-!
Farm simulator (`script.js`): a shallow embedding.

JavaScript numbers are modelled by an arbitrary linearly ordered field `K`
(exact arithmetic; IEEE rounding, NaN and infinities are outside the model).
`Math.sqrt` is a parameter `sqrt : K → K` of every operation that reaches
`Cell.updateMoisture`; theorems about distances instantiate it with
`Real.sqrt` over `ℝ`.

Objects are modelled by value (`Cell`, `Plant`).  The simulator keeps the
cell objects in an object store (`FarmSimulator.heap`) and its arrays hold
references into that store, because the source compares cells by identity
(`this.cells.indexOf(cell)`) and the click listeners capture the object that
was created in `initGrid`.  DOM rendering is not modelled; of the presentation
helpers, `Plant.getSizeClass` and `Cell.getColor` are embedded as functions.

Two results depend on the rounding of JavaScript numbers: the colour channels of
`Cell.getColor` and the growth stage after repeated calls of
`Plant.updateGrowth`.  For these the operations are embedded a second time in
namespace `Binary64`, over `ℚ`, with every arithmetic result rounded to binary64
(`Binary64.nearest`).
-/

set_option linter.unusedSectionVars false

namespace FarmSim

/-! ## Definitions -/

/-- Values of the `type` field of a cell: the strings 'land' and 'water'. -/
inductive CellType where
  | land
  | water
  deriving DecidableEq, Repr

/-- Fields of `class Plant`. -/
structure Plant (K : Type) where
  name : String
  minMoisture : K
  maxMoisture : K
  growthStage : K
  isAlive : Bool
  emoji : String

/-- Fields of `class Cell`; `plant = none` is the source's `null`. -/
structure Cell (K : Type) where
  type : CellType
  x : K
  y : K
  moisture : K
  plant : Option (Plant K)

section Model

variable {K : Type} [LinearOrderedField K]

/-- Constructor of `Cell`. -/
def Cell.new (type : CellType) (x y : K) : Cell K :=
  { type := type, x := x, y := y, moisture := 0, plant := none }

/-- Constructor of `LandCell`. -/
def LandCell.new (x y : K) : Cell K :=
  Cell.new CellType.land x y

/-- Constructor of `WaterCell`. -/
def WaterCell.new (x y : K) : Cell K :=
  { Cell.new CellType.water x y with moisture := 1 }

/-- Method `Cell.updateMoisture(waterCells)`; the result is `this` after the call. -/
def Cell.updateMoisture (sqrt : K → K) (self : Cell K) (waterCells : List (Cell K)) : Cell K :=
  if self.type = CellType.water then
    { self with moisture := 1 }
  else
    let maxMoisture := waterCells.foldl
      (fun maxMoisture waterCell =>
        let distance := sqrt ((self.x - waterCell.x) ^ 2 + (self.y - waterCell.y) ^ 2)
        let moistureFromThisWater := max 0 (1 - distance / 5)
        max maxMoisture moistureFromThisWater)
      0
    { self with moisture := maxMoisture }

/-- Constructor of `Plant`. -/
def Plant.new (name : String) (minMoisture maxMoisture : K) (emoji : String) : Plant K :=
  { name := name, minMoisture := minMoisture, maxMoisture := maxMoisture,
    growthStage := 0, isAlive := true, emoji := emoji }

/-- Method `Plant.updateGrowth(cellMoisture)`; the result is `this` after the call. -/
def Plant.updateGrowth (self : Plant K) (cellMoisture : K) : Plant K :=
  if !self.isAlive then
    self
  else if cellMoisture ≥ self.minMoisture ∧ cellMoisture ≤ self.maxMoisture then
    { self with growthStage := min 1 (self.growthStage + 0.05) }
  else
    { self with isAlive := false }

/-- Constructor of `MarshPlant`. -/
def MarshPlant.new : Plant K :=
  Plant.new "–ë–æ–ª–æ—Ç–Ω–∏–∫" 0.7 1.0 "üåø"

/-- Constructor of `Potato`. -/
def Potato.new : Plant K :=
  Plant.new "–ö–∞—Ä—Ç–æ—à–∫–∞" 0.3 0.8 "ü•î"

/-- Constructor of `Cactus`. -/
def Cactus.new : Plant K :=
  Plant.new "–ö–∞–∫—Ç—É—Å" 0.0 0.4 "üåµ"

/-- Method `Plant.getSizeClass`; the method assigns no field. -/
def Plant.getSizeClass (self : Plant K) : String :=
  if self.growthStage < 0.33 then
    "small"
  else if self.growthStage < 0.66 then
    "medium"
  else
    "large"

/-- Values returned by `Cell.getColor`: a fixed CSS colour string, or the
template string made of the three channels `r`, `g`, `b` in decimal. -/
inductive Color where
  | css (value : String)
  | rgb (r g b : Int)
  deriving DecidableEq, Repr

/-- Library function `Math.round`: the nearest integer, a tie going to the
larger one, that is `floor(x + 0.5)`. -/
def Math.round [FloorRing K] (x : K) : Int :=
  Int.floor (x + 0.5)

namespace Binary64

/-- Rounding of a rational to the nearest integer, a tie going to the even one. -/
def rne (q : ℚ) : Int :=
  if q - Int.floor q < 1 / 2 then Int.floor q
  else if 1 / 2 < q - Int.floor q then Int.floor q + 1
  else if Int.floor q % 2 = 0 then Int.floor q
  else Int.floor q + 1

/-- Result of an arithmetic operation of the source as a JavaScript number: the
exact value rounded to binary64, that is to 53 significant bits, to nearest,
ties to even.  The exponent range is not bounded (no overflow, no subnormal
numbers; neither arises for the values of this program). -/
def nearest (x : ℚ) : ℚ :=
  if x = 0 then 0
  else (rne (x / 2 ^ (Int.log 2 |x| - 52)) : ℚ) * 2 ^ (Int.log 2 |x| - 52)

/-- Method `Plant.updateGrowth(cellMoisture)` with the arithmetic of JavaScript
numbers: the literal `0.05` and the sum are rounded to binary64. -/
def Plant.updateGrowth (self : Plant ℚ) (cellMoisture : ℚ) : Plant ℚ :=
  if !self.isAlive then
    self
  else if cellMoisture ≥ self.minMoisture ∧ cellMoisture ≤ self.maxMoisture then
    { self with growthStage := min 1 (nearest (self.growthStage + nearest 0.05)) }
  else
    { self with isAlive := false }

/-- Method `Cell.getColor` with the arithmetic of JavaScript numbers: the
difference, the product and the sum of each channel are rounded to binary64
before `Math.round`. -/
def Cell.getColor (self : Cell ℚ) : Color :=
  if self.type = CellType.water then
    Color.css "#1e90ff"
  else
    let dryColor : ℚ × ℚ × ℚ := (245, 222, 179)
    let wetColor : ℚ × ℚ × ℚ := (60, 30, 10)
    let r := Math.round
      (nearest (dryColor.1 + nearest (nearest (wetColor.1 - dryColor.1) * self.moisture)))
    let g := Math.round
      (nearest (dryColor.2.1 + nearest (nearest (wetColor.2.1 - dryColor.2.1) * self.moisture)))
    let b := Math.round
      (nearest (dryColor.2.2 + nearest (nearest (wetColor.2.2 - dryColor.2.2) * self.moisture)))
    Color.rgb r g b

/-- Growth stages that `Binary64.Plant.updateGrowth` stores after 0, 1, ..., 19
calls with a moisture inside the band, starting from a new plant; each entry is
derived from the previous one in `growthAfter_succ`. -/
def growthTable : List ℚ :=
  [0,
   3602879701896397 / 72057594037927936,
   3602879701896397 / 36028797018963968,
   1351079888211149 / 9007199254740992,
   3602879701896397 / 18014398509481984,
   1 / 4,
   5404319552844595 / 18014398509481984,
   3152519739159347 / 9007199254740992,
   7205759403792793 / 18014398509481984,
   2026619832316723 / 4503599627370496,
   9007199254740991 / 18014398509481984,
   4953959590107545 / 9007199254740992,
   5404319552844595 / 9007199254740992,
   5854679515581645 / 9007199254740992,
   6305039478318695 / 9007199254740992,
   6755399441055745 / 9007199254740992,
   7205759403792795 / 9007199254740992,
   7656119366529845 / 9007199254740992,
   8106479329266895 / 9007199254740992,
   8556839292003945 / 9007199254740992]

/-- Growth stage stored after `n` calls inside the band: the table, then 1. -/
def growthAfter (n : Nat) : ℚ :=
  growthTable.getD n 1

end Binary64

/-- Contribution of one water cell to the moisture of `c`, in the words of the
specification: `max(0, 1 − euclideanDistance(self, waterCell) / 5)`. -/
def contribution (sqrt : K → K) (c w : Cell K) : K :=
  max 0 (1 - sqrt ((c.x - w.x) ^ 2 + (c.y - w.y) ^ 2) / 5)

/-- Distance-based moisture of a land cell `c`, in the words of the
specification: the maximum of the contributions of all water cells, or 0 if none
exist. -/
def distanceMoisture (sqrt : K → K) (c : Cell K) (waterCells : List (Cell K)) : K :=
  (waterCells.map (contribution sqrt c)).foldr max 0

/-- Tools bound in `setupEventListeners`: 'cursor', 'shovel', 'marsh-seeds',
'potato-seeds', 'cactus-seeds', 'bucket'. -/
inductive Tool where
  | cursor
  | shovel
  | marshSeeds
  | potatoSeeds
  | cactusSeeds
  | bucket
  deriving DecidableEq, Repr

/-- State of a `FarmSimulator` object.  `heap` is the object store of cell
objects and `next` the first unused reference; `cells`, `waterCells` hold
references.  `cellsNeg1` is the property "-1" of the array `this.cells`, which
an assignment `this.cells[-1] = v` creates without touching the elements.
`listeners` holds, for the i-th cell element of the page, the cell object that
its click listener captured in `initGrid`. -/
structure FarmSimulator (K : Type) where
  gridSize : Nat
  heap : Nat → Cell K
  next : Nat
  cells : List Nat
  cellsNeg1 : Option Nat
  selectedTool : Tool
  waterCells : List Nat
  listeners : List Nat

/-- Events the page delivers: a click on a tool button, a click on the i-th
cell element, and the timer callback of `startGrowthCycle`. -/
inductive Event where
  | selectTool (tool : Tool)
  | click (i : Nat)
  | tick

/-- `Array.prototype.findIndex`; `none` is the source's `-1`. -/
def findIndex {α : Type} (p : α → Bool) : List α → Option Nat
  | [] => none
  | a :: as => if p a then some 0 else (findIndex p as).map (· + 1)

/-- `Array.prototype.indexOf` on an array of references (identity comparison);
`none` is the source's `-1`. -/
def indexOf (l : List Nat) (a : Nat) : Option Nat :=
  findIndex (fun b => decide (b = a)) l

/-- Assignment `arr[index] = v` where `index` came from `indexOf`: an index in
range overwrites the element, `-1` leaves the elements alone. -/
def assignAt (l : List Nat) (index : Option Nat) (v : Nat) : List Nat :=
  match index with
  | some i => l.set i v
  | none => l

/-- Call `arr.splice(i, 1)`. -/
def splice1 (l : List Nat) (i : Nat) : List Nat :=
  l.eraseIdx i

namespace FarmSimulator

/-- Write the object `c` at reference `cell`. -/
def setCell (s : FarmSimulator K) (cell : Nat) (c : Cell K) : FarmSimulator K :=
  { s with heap := Function.update s.heap cell c }

/-- Body of the loop of `updateMoistureLevels` for one element `cell` of
`this.cells` (the colour update of the page is not modelled). -/
def updateMoistureCell (sqrt : K → K) (s : FarmSimulator K) (cell : Nat) : FarmSimulator K :=
  if (s.heap cell).type = CellType.land then
    s.setCell cell ((s.heap cell).updateMoisture sqrt (s.waterCells.map s.heap))
  else
    s

/-- Method `updateMoistureLevels`. -/
def updateMoistureLevels (sqrt : K → K) (s : FarmSimulator K) : FarmSimulator K :=
  s.cells.foldl (updateMoistureCell sqrt) s

/-- Body of the inner loop of `initGrid` for the iteration `(x, y)`;
`rand x y` is the value `Math.random()` returned there. -/
def initCell (rand : Nat → Nat → K) (y : Nat) (s : FarmSimulator K) (x : Nat) :
    FarmSimulator K :=
  let cellType := if rand x y < 0.9 then CellType.land else CellType.water
  let cell := s.next
  let s :=
    if cellType = CellType.land then
      { s with heap := Function.update s.heap cell (LandCell.new (x : K) (y : K)),
               next := s.next + 1 }
    else
      { s with heap := Function.update s.heap cell (WaterCell.new (x : K) (y : K)),
               next := s.next + 1,
               waterCells := s.waterCells ++ [cell] }
  { s with cells := s.cells ++ [cell], listeners := s.listeners ++ [cell] }

/-- Method `initGrid`. -/
def initGrid (rand : Nat → Nat → K) (s : FarmSimulator K) : FarmSimulator K :=
  (List.range s.gridSize).foldl
    (fun s y => (List.range s.gridSize).foldl (initCell rand y) s)
    { s with listeners := [] }

/-- Field initialisers of the constructor of `FarmSimulator`.  Unused references
of the object store hold a placeholder that no array refers to. -/
def empty (gridSize : Nat) : FarmSimulator K :=
  { gridSize := gridSize, heap := fun _ => Cell.new CellType.land 0 0, next := 0,
    cells := [], cellsNeg1 := none, selectedTool := Tool.cursor, waterCells := [],
    listeners := [] }

/-- Constructor of `FarmSimulator` (`setupEventListeners` and `startGrowthCycle`
register the handlers that `step` dispatches to). -/
def new (sqrt : K → K) (rand : Nat → Nat → K) (gridSize : Nat) : FarmSimulator K :=
  ((empty gridSize).initGrid rand).updateMoistureLevels sqrt

/-- Method `selectTool`. -/
def selectTool (s : FarmSimulator K) (tool : Tool) : FarmSimulator K :=
  { s with selectedTool := tool }

/-- Method `useShovel`. -/
def useShovel (s : FarmSimulator K) (cell : Nat) : FarmSimulator K :=
  if (s.heap cell).type = CellType.water then
    s
  else
    match (s.heap cell).plant with
    | some _ => s.setCell cell { s.heap cell with plant := none }
    | none =>
      s.setCell cell { s.heap cell with moisture := max 0 ((s.heap cell).moisture - 0.1) }

/-- Method `plantSeed`. -/
def plantSeed (s : FarmSimulator K) (cell : Nat) (plant : Plant K) : FarmSimulator K :=
  if (s.heap cell).type ≠ CellType.land ∨ (s.heap cell).plant.isSome then
    s
  else
    s.setCell cell { s.heap cell with plant := some plant }

/-- Branches of `useBucket`, before its final call of `updateMoistureLevels`.
The source pushes `this.cells[index]` right after assigning the new object to
it, so the pushed reference is the new object also when `index` is `-1`. -/
def replaceCell (s : FarmSimulator K) (cell : Nat) : FarmSimulator K :=
  let c := s.heap cell
  let index := indexOf s.cells cell
  let fresh := s.next
  if c.type = CellType.land then
    { s with heap := Function.update s.heap fresh (WaterCell.new c.x c.y),
             next := s.next + 1,
             cells := assignAt s.cells index fresh,
             cellsNeg1 := if index = none then some fresh else s.cellsNeg1,
             waterCells := s.waterCells ++ [fresh] }
  else
    let heap := Function.update s.heap fresh (LandCell.new c.x c.y)
    let waterIndex :=
      findIndex (fun wc => decide ((heap wc).x = c.x ∧ (heap wc).y = c.y)) s.waterCells
    { s with heap := heap,
             next := s.next + 1,
             cells := assignAt s.cells index fresh,
             cellsNeg1 := if index = none then some fresh else s.cellsNeg1,
             waterCells :=
               match waterIndex with
               | some i => splice1 s.waterCells i
               | none => s.waterCells }

/-- Method `useBucket`. -/
def useBucket (sqrt : K → K) (s : FarmSimulator K) (cell : Nat) : FarmSimulator K :=
  (s.replaceCell cell).updateMoistureLevels sqrt

/-- Method `handleCellClick` (the info panel is not modelled). -/
def handleCellClick (sqrt : K → K) (s : FarmSimulator K) (cell : Nat) : FarmSimulator K :=
  match s.selectedTool with
  | Tool.cursor => s
  | Tool.shovel => s.useShovel cell
  | Tool.marshSeeds => s.plantSeed cell MarshPlant.new
  | Tool.potatoSeeds => s.plantSeed cell Potato.new
  | Tool.cactusSeeds => s.plantSeed cell Cactus.new
  | Tool.bucket => s.useBucket sqrt cell

/-- Body of the growth loop of the timer callback in `startGrowthCycle` for one
element `cell` of `this.cells` (the update of the page is not modelled). -/
def growCell (s : FarmSimulator K) (cell : Nat) : FarmSimulator K :=
  match (s.heap cell).plant with
  | some plant =>
    if plant.isAlive then
      s.setCell cell
        { s.heap cell with plant := some (plant.updateGrowth (s.heap cell).moisture) }
    else
      s
  | none => s

/-- Growth loop of the timer callback in `startGrowthCycle`, before the call of
`updateMoistureLevels`. -/
def growAll (s : FarmSimulator K) : FarmSimulator K :=
  s.cells.foldl growCell s

/-- Timer callback registered by `startGrowthCycle`: one tick. -/
def growthCycle (sqrt : K → K) (s : FarmSimulator K) : FarmSimulator K :=
  s.growAll.updateMoistureLevels sqrt

/-- One event of the page applied to the simulator. -/
def step (sqrt : K → K) (s : FarmSimulator K) : Event → FarmSimulator K
  | Event.selectTool tool => s.selectTool tool
  | Event.click i =>
    match s.listeners[i]? with
    | some cell => s.handleCellClick sqrt cell
    | none => s
  | Event.tick => s.growthCycle sqrt

/-- State after construction followed by the events, in order. -/
def run (sqrt : K → K) (rand : Nat → Nat → K) (gridSize : Nat) (events : List Event) :
    FarmSimulator K :=
  events.foldl (step sqrt) (FarmSimulator.new sqrt rand gridSize)

end FarmSimulator

end Model

/-! ## Invariants used in the proofs -/

section Invariants

variable {K : Type} [LinearOrderedField K]

/-- Every stored water object has moisture 1. -/
def WaterOk (s : FarmSimulator K) : Prop :=
  ∀ r, (s.heap r).type = CellType.water → (s.heap r).moisture = 1

/-- The arrays, counters and selected tool of `t` are those of `s`; only the
object store may differ. -/
def SameArrays (s t : FarmSimulator K) : Prop :=
  t.gridSize = s.gridSize ∧ t.next = s.next ∧ t.cells = s.cells ∧
  t.cellsNeg1 = s.cellsNeg1 ∧ t.selectedTool = s.selectedTool ∧
  t.waterCells = s.waterCells ∧ t.listeners = s.listeners

/-- The object `d` is `c` up to its `moisture` field. -/
def SameButMoisture (c d : Cell K) : Prop :=
  d.type = c.type ∧ d.x = c.x ∧ d.y = c.y ∧ d.plant = c.plant

/-- Effect of `FarmSimulator.growCell` on the cell object it visits. -/
def Cell.grow (c : Cell K) : Cell K :=
  match c.plant with
  | some plant =>
    if plant.isAlive then { c with plant := some (plant.updateGrowth c.moisture) } else c
  | none => c

/-- Coordinates of the object stored at a reference. -/
def FarmSimulator.coordsAt (s : FarmSimulator K) (r : Nat) : K × K :=
  ((s.heap r).x, (s.heap r).y)

/-- Structural invariant of the simulator.  The grid holds distinct objects at
pairwise distinct coordinates; the object captured by the i-th listener has
the coordinates of the i-th grid cell and is either that cell or an object no
longer in the grid, of the other type; `waterCells` holds distinct objects
placed on grid coordinates, none on the coordinates of a land cell of the grid,
one on those of every water cell of the grid, and only the captured object
itself on the coordinates of a captured water object. -/
structure GridInv (s : FarmSimulator K) : Prop where
  cells_nodup : s.cells.Nodup
  water_nodup : s.waterCells.Nodup
  cells_lt : ∀ r ∈ s.cells, r < s.next
  listeners_lt : ∀ r ∈ s.listeners, r < s.next
  water_lt : ∀ r ∈ s.waterCells, r < s.next
  coords_eq : s.cells.map s.coordsAt = s.listeners.map s.coordsAt
  coords_nodup : (s.listeners.map s.coordsAt).Nodup
  link : ∀ (i c o : Nat), s.cells[i]? = some c → s.listeners[i]? = some o →
    c = o ∨ (o ∉ s.cells ∧ (s.heap c).type ≠ (s.heap o).type)
  water_on_grid : ∀ w ∈ s.waterCells, s.coordsAt w ∈ s.cells.map s.coordsAt
  water_original : ∀ w ∈ s.waterCells, ∀ o ∈ s.listeners,
    (s.heap o).type = CellType.water → s.coordsAt w = s.coordsAt o → w = o
  land_dry : ∀ c ∈ s.cells, (s.heap c).type = CellType.land →
    ∀ w ∈ s.waterCells, s.coordsAt w ≠ s.coordsAt c
  water_listed : ∀ c ∈ s.cells, (s.heap c).type = CellType.water →
    ∃ w ∈ s.waterCells, s.coordsAt w = s.coordsAt c

/-- The object `d` has the type and the coordinates of `c`. -/
def SamePlace (c d : Cell K) : Prop :=
  d.type = c.type ∧ d.x = c.x ∧ d.y = c.y

/-- Invariant of the loops of `initGrid` for a grid of side `n`: the grid and
the listeners hold the references `0, ..., next - 1` in order, the object at
reference `r` has coordinates `(r % n, r / n)` and the type drawn for them, and
`waterCells` holds exactly the water objects, once each. -/
structure InitInv (rand : Nat → Nat → K) (n : Nat) (s : FarmSimulator K) : Prop where
  cells_eq : s.cells = List.range s.next
  listeners_eq : s.listeners = List.range s.next
  water_nodup : s.waterCells.Nodup
  water_mem : ∀ w, w ∈ s.waterCells ↔ w < s.next ∧ (s.heap w).type = CellType.water
  coords : ∀ r < s.next, s.coordsAt r = (((r % n : Nat) : K), ((r / n : Nat) : K))
  types : ∀ r < s.next,
    (s.heap r).type = if rand (r % n) (r / n) < 0.9 then CellType.land else CellType.water

/-- Kind of the cell stored in the grid at index `i`. -/
def FarmSimulator.kindAt (s : FarmSimulator K) (i : Nat) : Option CellType :=
  (s.cells[i]?).map (fun cell => (s.heap cell).type)

end Invariants

/-! ## Lemmas on the moisture loop -/

section Lemmas

variable {K : Type} [LinearOrderedField K]

theorem foldl_max_init_le {α : Type} (f : α → K) (l : List α) (a : K) :
    a ≤ l.foldl (fun m w => max m (f w)) a := by
  induction l generalizing a with
  | nil => simp
  | cons w l ih =>
    simp only [List.foldl_cons]
    exact le_trans (le_max_left _ _) (ih _)

theorem foldl_max_mem_le {α : Type} (f : α → K) (l : List α) (a : K) :
    ∀ w ∈ l, f w ≤ l.foldl (fun m w => max m (f w)) a := by
  induction l generalizing a with
  | nil => simp
  | cons v l ih =>
    intro w hw
    simp only [List.foldl_cons]
    rcases List.mem_cons.mp hw with rfl | hw
    · exact le_trans (le_max_right _ _) (foldl_max_init_le f l _)
    · exact ih _ w hw

theorem foldl_max_eq_init_or {α : Type} (f : α → K) (l : List α) (a : K) :
    l.foldl (fun m w => max m (f w)) a = a ∨
      ∃ w ∈ l, l.foldl (fun m w => max m (f w)) a = f w := by
  induction l generalizing a with
  | nil => simp
  | cons v l ih =>
    simp only [List.foldl_cons]
    rcases ih (max a (f v)) with h | ⟨w, hw, h⟩
    · rcases max_choice a (f v) with h' | h'
      · left; rw [h, h']
      · right; exact ⟨v, List.mem_cons_self _ _, by rw [h, h']⟩
    · right; exact ⟨w, List.mem_cons_of_mem _ hw, h⟩

theorem foldl_max_le_of_forall_le {α : Type} (f : α → K) (l : List α) (a b : K)
    (ha : a ≤ b) (hf : ∀ w ∈ l, f w ≤ b) :
    l.foldl (fun m w => max m (f w)) a ≤ b := by
  rcases foldl_max_eq_init_or f l a with h | ⟨w, hw, h⟩
  · rw [h]; exact ha
  · rw [h]; exact hf w hw

/-- On a land cell the loop of `updateMoisture` is a running maximum of `contribution`. -/
theorem updateMoisture_land_moisture (sqrt : K → K) (c : Cell K) (ws : List (Cell K))
    (h : c.type = CellType.land) :
    (c.updateMoisture sqrt ws).moisture =
      ws.foldl (fun m w => max m (contribution sqrt c w)) 0 := by
  simp [Cell.updateMoisture, h, contribution]

theorem updateMoisture_water_moisture (sqrt : K → K) (c : Cell K) (ws : List (Cell K))
    (h : c.type = CellType.water) :
    (c.updateMoisture sqrt ws).moisture = 1 := by
  simp [Cell.updateMoisture, h]

theorem updateMoisture_type (sqrt : K → K) (c : Cell K) (ws : List (Cell K)) :
    (c.updateMoisture sqrt ws).type = c.type := by
  unfold Cell.updateMoisture; split <;> rfl

theorem updateMoisture_x (sqrt : K → K) (c : Cell K) (ws : List (Cell K)) :
    (c.updateMoisture sqrt ws).x = c.x := by
  unfold Cell.updateMoisture; split <;> rfl

theorem updateMoisture_y (sqrt : K → K) (c : Cell K) (ws : List (Cell K)) :
    (c.updateMoisture sqrt ws).y = c.y := by
  unfold Cell.updateMoisture; split <;> rfl

theorem updateMoisture_plant (sqrt : K → K) (c : Cell K) (ws : List (Cell K)) :
    (c.updateMoisture sqrt ws).plant = c.plant := by
  unfold Cell.updateMoisture; split <;> rfl

theorem contribution_nonneg (sqrt : K → K) (c w : Cell K) : 0 ≤ contribution sqrt c w :=
  le_max_left _ _

theorem contribution_le_one (c w : Cell ℝ) : contribution Real.sqrt c w ≤ 1 := by
  unfold contribution
  apply max_le zero_le_one
  have := Real.sqrt_nonneg ((c.x - w.x) ^ 2 + (c.y - w.y) ^ 2)
  linarith [div_nonneg this (by norm_num : (0 : ℝ) ≤ 5)]

theorem updateMoisture_moisture_nonneg (sqrt : K → K) (c : Cell K) (ws : List (Cell K)) :
    0 ≤ (c.updateMoisture sqrt ws).moisture := by
  cases h : c.type with
  | land =>
    rw [updateMoisture_land_moisture sqrt c ws h]
    exact foldl_max_init_le _ _ _
  | water =>
    rw [updateMoisture_water_moisture sqrt c ws h]
    exact zero_le_one

theorem updateMoisture_moisture_le_one (c : Cell ℝ) (ws : List (Cell ℝ)) :
    (c.updateMoisture Real.sqrt ws).moisture ≤ 1 := by
  cases h : c.type with
  | land =>
    rw [updateMoisture_land_moisture Real.sqrt c ws h]
    exact foldl_max_le_of_forall_le _ _ _ _ zero_le_one (fun w _ => contribution_le_one c w)
  | water =>
    rw [updateMoisture_water_moisture Real.sqrt c ws h]

end Lemmas

section PlantLemmas

variable {K : Type} [LinearOrderedField K]

theorem updateGrowth_of_dead (p : Plant K) (m : K) (h : p.isAlive = false) :
    p.updateGrowth m = p := by
  simp [Plant.updateGrowth, h]

theorem updateGrowth_in_band (p : Plant K) (m : K) (h : p.isAlive = true)
    (hb : p.minMoisture ≤ m ∧ m ≤ p.maxMoisture) :
    p.updateGrowth m = { p with growthStage := min 1 (p.growthStage + 0.05) } := by
  simp [Plant.updateGrowth, h, hb.1, hb.2]

theorem updateGrowth_out_of_band (p : Plant K) (m : K) (h : p.isAlive = true)
    (hb : ¬ (p.minMoisture ≤ m ∧ m ≤ p.maxMoisture)) :
    p.updateGrowth m = { p with isAlive := false } := by
  have hb' : ¬ (m ≥ p.minMoisture ∧ m ≤ p.maxMoisture) := hb
  simp only [Plant.updateGrowth, h, Bool.not_true, Bool.false_eq_true, if_false, hb']

theorem foldl_updateGrowth_of_dead (p : Plant K) (ms : List K) (h : p.isAlive = false) :
    ms.foldl Plant.updateGrowth p = p := by
  induction ms with
  | nil => rfl
  | cons m ms ih => rw [List.foldl_cons, updateGrowth_of_dead p m h, ih]

/-- The growth stage never exceeds 1 once it is at most 1. -/
theorem updateGrowth_growthStage_le_one (p : Plant K) (m : K) (h : p.growthStage ≤ 1) :
    (p.updateGrowth m).growthStage ≤ 1 := by
  unfold Plant.updateGrowth
  split
  · exact h
  · split
    · exact min_le_left _ _
    · exact h

theorem foldl_updateGrowth_growthStage_le_one (ms : List K) (p : Plant K)
    (h : p.growthStage ≤ 1) : (ms.foldl Plant.updateGrowth p).growthStage ≤ 1 := by
  induction ms generalizing p with
  | nil => exact h
  | cons m ms ih =>
    rw [List.foldl_cons]
    exact ih _ (updateGrowth_growthStage_le_one p m h)

theorem growthStage_le_updateGrowth (p : Plant K) (m : K) (h : p.growthStage ≤ 1) :
    p.growthStage ≤ (p.updateGrowth m).growthStage := by
  unfold Plant.updateGrowth
  split
  · exact le_refl _
  · split
    · apply le_min h
      have : (0 : K) ≤ 0.05 := by norm_num
      linarith
    · exact le_refl _

end PlantLemmas

/-! ## Claims about `Cell.updateMoisture` and `Plant.updateGrowth` -/

section MoistureClaims

variable {K : Type} [LinearOrderedField K]

/-- C1: on a land cell, `updateMoisture` sets the moisture to the maximum over
the listed water cells of `max(0, 1 - sqrt((x-wx)^2 + (y-wy)^2) / 5)`: it is 0
for the empty list, otherwise it is the contribution of some listed cell and
bounds the contribution of every listed cell; the value does not depend on the
moisture stored before the call. -/
theorem updateMoisture_land_is_max_contribution (c : Cell ℝ) (ws : List (Cell ℝ))
    (hland : c.type = CellType.land) :
    (ws = [] → (c.updateMoisture Real.sqrt ws).moisture = 0) ∧
    (ws ≠ [] →
      (∃ w ∈ ws, (c.updateMoisture Real.sqrt ws).moisture = contribution Real.sqrt c w) ∧
      ∀ w ∈ ws, contribution Real.sqrt c w ≤ (c.updateMoisture Real.sqrt ws).moisture) ∧
    (∀ prior : ℝ,
      (Cell.updateMoisture Real.sqrt { c with moisture := prior } ws).moisture =
        (c.updateMoisture Real.sqrt ws).moisture) := by
  refine ⟨?_, ?_, ?_⟩
  · intro h
    subst h
    simp [Cell.updateMoisture, hland]
  · intro hne
    rw [updateMoisture_land_moisture Real.sqrt c ws hland]
    refine ⟨?_, foldl_max_mem_le _ ws 0⟩
    rcases foldl_max_eq_init_or (contribution Real.sqrt c) ws 0 with h | h
    · obtain ⟨w, hw⟩ := List.exists_mem_of_ne_nil ws hne
      refine ⟨w, hw, ?_⟩
      rw [h]
      exact le_antisymm (contribution_nonneg _ _ _) (h ▸ foldl_max_mem_le _ ws 0 w hw)
    · exact h
  · intro prior
    simp [Cell.updateMoisture, hland]

/-- Witness of C1: one water cell at (0,0) and a land cell at (3,0) give moisture 2/5. -/
theorem updateMoisture_land_is_max_contribution_witness :
    (LandCell.new (3 : ℝ) 0).type = CellType.land ∧
    ((LandCell.new (3 : ℝ) 0).updateMoisture Real.sqrt [WaterCell.new 0 0]).moisture = 2 / 5 := by
  refine ⟨rfl, ?_⟩
  obtain ⟨w, hw, h⟩ :=
    ((updateMoisture_land_is_max_contribution (LandCell.new (3 : ℝ) 0) [WaterCell.new 0 0]
      rfl).2.1 (by simp)).1
  rw [h, List.mem_singleton.mp hw]
  have h3 : Real.sqrt ((3 : ℝ) ^ 2) = 3 := Real.sqrt_sq (by norm_num)
  simp only [contribution, LandCell.new, WaterCell.new, Cell.new, sub_zero, ne_eq,
    OfNat.ofNat_ne_zero, not_false_eq_true, zero_pow, add_zero, h3]
  norm_num

end MoistureClaims

section PlantClaims

variable {K : Type} [LinearOrderedField K]

/-- C4: falloff end points of `updateMoisture` on a land cell: when every listed
water cell is at Euclidean distance at least 5 the moisture becomes 0, and when
some listed water cell is at distance 0 the moisture becomes 1. -/
theorem updateMoisture_falloff_end_points (c : Cell ℝ) (ws : List (Cell ℝ))
    (hland : c.type = CellType.land) :
    ((∀ w ∈ ws, 5 ≤ Real.sqrt ((c.x - w.x) ^ 2 + (c.y - w.y) ^ 2)) →
      (c.updateMoisture Real.sqrt ws).moisture = 0) ∧
    ((∃ w ∈ ws, Real.sqrt ((c.x - w.x) ^ 2 + (c.y - w.y) ^ 2) = 0) →
      (c.updateMoisture Real.sqrt ws).moisture = 1) := by
  constructor
  · intro hfar
    apply le_antisymm _ (updateMoisture_moisture_nonneg Real.sqrt c ws)
    rw [updateMoisture_land_moisture Real.sqrt c ws hland]
    apply foldl_max_le_of_forall_le _ _ _ _ (le_refl _)
    intro w hw
    unfold contribution
    apply max_le (le_refl _)
    have := hfar w hw
    linarith [(le_div_iff₀ (by norm_num : (0 : ℝ) < 5)).mpr (by linarith :
      (1 : ℝ) * 5 ≤ Real.sqrt ((c.x - w.x) ^ 2 + (c.y - w.y) ^ 2))]
  · rintro ⟨w, hw, hd⟩
    apply le_antisymm (updateMoisture_moisture_le_one c ws)
    rw [updateMoisture_land_moisture Real.sqrt c ws hland]
    have h1 : contribution Real.sqrt c w = 1 := by
      unfold contribution
      rw [hd]
      norm_num
    exact h1 ▸ foldl_max_mem_le (contribution Real.sqrt c) ws 0 w hw

/-- Witness of C4: a land cell at (0,0) with one water cell at (3,4), at distance
5, has moisture 0; with one water cell at (0,0), at distance 0, it has moisture 1. -/
theorem updateMoisture_falloff_end_points_witness :
    (LandCell.new (0 : ℝ) 0).type = CellType.land ∧
    ((∀ w ∈ [WaterCell.new (3 : ℝ) 4],
      5 ≤ Real.sqrt (((LandCell.new (0 : ℝ) 0).x - w.x) ^ 2 +
        ((LandCell.new (0 : ℝ) 0).y - w.y) ^ 2)) ∧
      ((LandCell.new (0 : ℝ) 0).updateMoisture Real.sqrt [WaterCell.new 3 4]).moisture = 0) ∧
    ((∃ w ∈ [WaterCell.new (0 : ℝ) 0],
      Real.sqrt (((LandCell.new (0 : ℝ) 0).x - w.x) ^ 2 +
        ((LandCell.new (0 : ℝ) 0).y - w.y) ^ 2) = 0) ∧
      ((LandCell.new (0 : ℝ) 0).updateMoisture Real.sqrt [WaterCell.new 0 0]).moisture = 1) := by
  have hfar : ∀ w ∈ [WaterCell.new (3 : ℝ) 4],
      5 ≤ Real.sqrt (((LandCell.new (0 : ℝ) 0).x - w.x) ^ 2 +
        ((LandCell.new (0 : ℝ) 0).y - w.y) ^ 2) := by
    intro w hw
    rw [List.mem_singleton.mp hw]
    have h5 : Real.sqrt ((5 : ℝ) ^ 2) = 5 := Real.sqrt_sq (by norm_num)
    have e : ((LandCell.new (0 : ℝ) 0).x - (WaterCell.new (3 : ℝ) 4).x) ^ 2 +
        ((LandCell.new (0 : ℝ) 0).y - (WaterCell.new (3 : ℝ) 4).y) ^ 2 = (5 : ℝ) ^ 2 := by
      simp only [LandCell.new, WaterCell.new, Cell.new]
      norm_num
    rw [e, h5]
  have hnear : ∃ w ∈ [WaterCell.new (0 : ℝ) 0],
      Real.sqrt (((LandCell.new (0 : ℝ) 0).x - w.x) ^ 2 +
        ((LandCell.new (0 : ℝ) 0).y - w.y) ^ 2) = 0 := by
    refine ⟨WaterCell.new 0 0, List.mem_singleton.mpr rfl, ?_⟩
    simp only [LandCell.new, WaterCell.new, Cell.new]
    norm_num
  exact ⟨rfl,
    ⟨hfar, (updateMoisture_falloff_end_points (LandCell.new (0 : ℝ) 0) [WaterCell.new 3 4]
      rfl).1 hfar⟩,
    ⟨hnear, (updateMoisture_falloff_end_points (LandCell.new (0 : ℝ) 0) [WaterCell.new 0 0]
      rfl).2 hnear⟩⟩

/-- C5: `updateGrowth` on a living plant: inside the closed tolerance band the
growth stage becomes `min(1, growthStage + 0.05)` and the plant stays alive;
outside it the plant dies and the growth stage is kept.  Name, band and glyph
are unchanged in both cases. -/
theorem updateGrowth_alive_spec (p : Plant K) (m : K) (halive : p.isAlive = true) :
    (p.minMoisture ≤ m ∧ m ≤ p.maxMoisture →
      (p.updateGrowth m).growthStage = min 1 (p.growthStage + 0.05) ∧
      (p.updateGrowth m).isAlive = true) ∧
    (¬ (p.minMoisture ≤ m ∧ m ≤ p.maxMoisture) →
      (p.updateGrowth m).isAlive = false ∧
      (p.updateGrowth m).growthStage = p.growthStage) ∧
    (p.updateGrowth m).name = p.name ∧
    (p.updateGrowth m).minMoisture = p.minMoisture ∧
    (p.updateGrowth m).maxMoisture = p.maxMoisture ∧
    (p.updateGrowth m).emoji = p.emoji := by
  by_cases hb : p.minMoisture ≤ m ∧ m ≤ p.maxMoisture
  · rw [updateGrowth_in_band p m halive hb]
    exact ⟨fun _ => ⟨rfl, halive⟩, fun h => absurd hb h, rfl, rfl, rfl, rfl⟩
  · rw [updateGrowth_out_of_band p m halive hb]
    exact ⟨fun h => absurd h hb, fun _ => ⟨rfl, rfl⟩, rfl, rfl, rfl, rfl⟩

/-- Witness of C5: a new Potato at moisture 0.4 reaches growth stage 0.05 alive;
the same Potato then at moisture 0.9 is dead with growth stage still 0.05. -/
theorem updateGrowth_alive_spec_witness :
    (Potato.new : Plant ℚ).isAlive = true ∧
    (((Potato.new : Plant ℚ).updateGrowth 0.4).growthStage = 0.05 ∧
      ((Potato.new : Plant ℚ).updateGrowth 0.4).isAlive = true) ∧
    ((((Potato.new : Plant ℚ).updateGrowth 0.4).updateGrowth 0.9).isAlive = false ∧
      (((Potato.new : Plant ℚ).updateGrowth 0.4).updateGrowth 0.9).growthStage = 0.05) := by
  have h1 := (updateGrowth_alive_spec (Potato.new : Plant ℚ) 0.4 rfl).1
    (by simp only [Potato.new, Plant.new]; norm_num)
  have h2 := (updateGrowth_alive_spec ((Potato.new : Plant ℚ).updateGrowth 0.4) 0.9 h1.2).2.1
    (by
      rw [(updateGrowth_alive_spec (Potato.new : Plant ℚ) 0.4 rfl).2.2.2.2.1]
      simp only [Potato.new, Plant.new]; norm_num)
  have e : ((Potato.new : Plant ℚ).updateGrowth 0.4).growthStage = 0.05 := by
    rw [h1.1]; simp only [Potato.new, Plant.new]; norm_num
  exact ⟨rfl, ⟨e, h1.2⟩, h2.1, h2.2.trans e⟩

/-- C7: growth is monotone: for every plant obtained from a newly constructed
plant by any sequence of `updateGrowth` calls, one more call does not lower the
growth stage, and a growth stage of 1 stays 1. -/
theorem updateGrowth_monotone (name emoji : String) (lo hi : K) (ms : List K) (m : K) :
    (ms.foldl Plant.updateGrowth (Plant.new name lo hi emoji)).growthStage ≤
      ((ms.foldl Plant.updateGrowth (Plant.new name lo hi emoji)).updateGrowth m).growthStage ∧
    ((ms.foldl Plant.updateGrowth (Plant.new name lo hi emoji)).growthStage = 1 →
      ((ms.foldl Plant.updateGrowth (Plant.new name lo hi emoji)).updateGrowth m).growthStage
        = 1) := by
  have h1 : (ms.foldl Plant.updateGrowth (Plant.new name lo hi emoji)).growthStage ≤ 1 :=
    foldl_updateGrowth_growthStage_le_one ms _ (by simp [Plant.new])
  refine ⟨growthStage_le_updateGrowth _ m h1, fun h => ?_⟩
  apply le_antisymm (updateGrowth_growthStage_le_one _ m h1)
  rw [← h]
  exact h ▸ growthStage_le_updateGrowth _ m h1

/-- Witness of C7: a new Potato grown twenty times at moisture 0.5 is at growth
stage 1 and stays there on a further call. -/
theorem updateGrowth_monotone_witness :
    ((List.replicate 20 (0.5 : ℚ)).foldl Plant.updateGrowth
        (Plant.new "potato" 0.3 0.8 "p")).growthStage = 1 ∧
    (((List.replicate 20 (0.5 : ℚ)).foldl Plant.updateGrowth
        (Plant.new "potato" 0.3 0.8 "p")).updateGrowth 0.5).growthStage = 1 := by
  have h : ((List.replicate 20 (0.5 : ℚ)).foldl Plant.updateGrowth
      (Plant.new "potato" 0.3 0.8 "p")).growthStage = 1 := by
    simp only [List.replicate, List.foldl, Plant.updateGrowth, Plant.new]
    norm_num
  exact ⟨h, (updateGrowth_monotone "potato" "p" (0.3 : ℚ) 0.8 (List.replicate 20 0.5) 0.5).2 h⟩

end PlantClaims

/-! ## Lemmas on the simulator -/

section SimLemmas

variable {K : Type} [LinearOrderedField K]

open FarmSimulator

theorem foldl_preserves {σ α : Type} (P : σ → Prop) (f : σ → α → σ)
    (hstep : ∀ s a, P s → P (f s a)) (l : List α) (s : σ) (h : P s) : P (l.foldl f s) := by
  induction l generalizing s with
  | nil => exact h
  | cons a l ih => exact ih _ (hstep s a h)

theorem setCell_heap_same (s : FarmSimulator K) (r : Nat) (c : Cell K) :
    (s.setCell r c).heap r = c := by
  simp [FarmSimulator.setCell]

theorem setCell_heap_ne (s : FarmSimulator K) (r r' : Nat) (c : Cell K) (h : r' ≠ r) :
    (s.setCell r c).heap r' = s.heap r' := by
  simp [FarmSimulator.setCell, Function.update_noteq h]

theorem setCell_heap (s : FarmSimulator K) (r r' : Nat) (c : Cell K) :
    (s.setCell r c).heap r' = if r' = r then c else s.heap r' := by
  by_cases h : r' = r
  · subst h; rw [if_pos rfl]; exact setCell_heap_same s r' c
  · rw [if_neg h]; exact setCell_heap_ne s r r' c h

theorem waterOk_setCell (s : FarmSimulator K) (r : Nat) (c : Cell K) (h : WaterOk s)
    (hc : c.type = CellType.water → c.moisture = 1) : WaterOk (s.setCell r c) := by
  intro r' hr'
  rw [setCell_heap] at hr' ⊢
  split
  · rename_i e; rw [if_pos e] at hr'; exact hc hr'
  · rename_i e; rw [if_neg e] at hr'; exact h r' hr'

theorem waterOk_updateMoistureLevels (sqrt : K → K) (s : FarmSimulator K) (h : WaterOk s) :
    WaterOk (s.updateMoistureLevels sqrt) := by
  unfold FarmSimulator.updateMoistureLevels
  refine foldl_preserves WaterOk _ ?_ _ _ h
  intro t a ht
  unfold FarmSimulator.updateMoistureCell
  split
  · apply waterOk_setCell t a _ ht
    intro hw
    rw [updateMoisture_type] at hw
    exact updateMoisture_water_moisture sqrt _ _ hw
  · exact ht

theorem waterOk_growAll (s : FarmSimulator K) (h : WaterOk s) : WaterOk s.growAll := by
  unfold FarmSimulator.growAll
  refine foldl_preserves WaterOk _ ?_ _ _ h
  intro t a ht
  unfold FarmSimulator.growCell
  split
  · split
    · exact waterOk_setCell t a _ ht (fun hw => ht a hw)
    · exact ht
  · exact ht

theorem waterOk_useShovel (s : FarmSimulator K) (cell : Nat) (h : WaterOk s) :
    WaterOk (s.useShovel cell) := by
  unfold FarmSimulator.useShovel
  split
  · exact h
  · rename_i hw
    split
    · exact waterOk_setCell s cell _ h (fun hw' => absurd hw' hw)
    · exact waterOk_setCell s cell _ h (fun hw' => absurd hw' hw)

theorem waterOk_plantSeed (s : FarmSimulator K) (cell : Nat) (p : Plant K) (h : WaterOk s) :
    WaterOk (s.plantSeed cell p) := by
  unfold FarmSimulator.plantSeed
  split
  · exact h
  · exact waterOk_setCell s cell _ h (fun hw => h cell hw)

theorem waterOk_alloc (s : FarmSimulator K) (c : Cell K) (h : WaterOk s)
    (hc : c.type = CellType.water → c.moisture = 1) (t : FarmSimulator K)
    (ht : t.heap = Function.update s.heap s.next c) : WaterOk t := by
  intro r hr
  rw [ht] at hr ⊢
  by_cases e : r = s.next
  · subst e
    simp only [Function.update_same] at hr ⊢
    exact hc hr
  · simp only [Function.update_noteq e] at hr ⊢
    exact h r hr

theorem waterOk_useBucket (sqrt : K → K) (s : FarmSimulator K) (cell : Nat) (h : WaterOk s) :
    WaterOk (s.useBucket sqrt cell) := by
  unfold FarmSimulator.useBucket
  apply waterOk_updateMoistureLevels
  unfold FarmSimulator.replaceCell
  dsimp only
  split
  · exact waterOk_alloc s _ h (fun _ => rfl) _ rfl
  · exact waterOk_alloc s (LandCell.new _ _) h (fun hw => by cases hw) _ rfl

theorem waterOk_initCell (rand : Nat → Nat → K) (y : Nat) (s : FarmSimulator K) (x : Nat)
    (h : WaterOk s) : WaterOk (initCell rand y s x) := by
  unfold FarmSimulator.initCell
  dsimp only
  split
  · exact waterOk_alloc s (LandCell.new _ _) h (fun hw => by cases hw) _ rfl
  · exact waterOk_alloc s _ h (fun _ => rfl) _ rfl

theorem waterOk_new (sqrt : K → K) (rand : Nat → Nat → K) (n : Nat) :
    WaterOk (FarmSimulator.new sqrt rand n) := by
  unfold FarmSimulator.new
  apply waterOk_updateMoistureLevels
  unfold FarmSimulator.initGrid
  refine foldl_preserves WaterOk _ ?_ _ _ ?_
  · intro t y ht
    exact foldl_preserves WaterOk _ (fun u x hu => waterOk_initCell rand y u x hu) _ _ ht
  · intro r hr
    simp [FarmSimulator.empty, Cell.new] at hr

theorem waterOk_step (sqrt : K → K) (s : FarmSimulator K) (e : Event) (h : WaterOk s) :
    WaterOk (s.step sqrt e) := by
  cases e with
  | selectTool tool => exact h
  | click i =>
    simp only [FarmSimulator.step]
    split
    · rename_i cell _
      unfold FarmSimulator.handleCellClick
      split
      · exact h
      · exact waterOk_useShovel s cell h
      · exact waterOk_plantSeed s cell _ h
      · exact waterOk_plantSeed s cell _ h
      · exact waterOk_plantSeed s cell _ h
      · exact waterOk_useBucket sqrt s cell h
    · exact h
  | tick => exact waterOk_updateMoistureLevels sqrt _ (waterOk_growAll s h)

theorem waterOk_run (sqrt : K → K) (rand : Nat → Nat → K) (n : Nat) (events : List Event) :
    WaterOk (run sqrt rand n events) :=
  foldl_preserves WaterOk _ (fun s e h => waterOk_step sqrt s e h) _ _ (waterOk_new sqrt rand n)

end SimLemmas

section LoopLemmas

variable {K : Type} [LinearOrderedField K]

open FarmSimulator

theorem sameArrays_refl (s : FarmSimulator K) : SameArrays s s :=
  ⟨rfl, rfl, rfl, rfl, rfl, rfl, rfl⟩

theorem sameArrays_trans {s t u : FarmSimulator K} (h1 : SameArrays s t) (h2 : SameArrays t u) :
    SameArrays s u := by
  obtain ⟨a1, a2, a3, a4, a5, a6, a7⟩ := h1
  obtain ⟨b1, b2, b3, b4, b5, b6, b7⟩ := h2
  exact ⟨b1.trans a1, b2.trans a2, b3.trans a3, b4.trans a4, b5.trans a5, b6.trans a6,
    b7.trans a7⟩

theorem sameArrays_setCell (s : FarmSimulator K) (r : Nat) (c : Cell K) :
    SameArrays s (s.setCell r c) :=
  ⟨rfl, rfl, rfl, rfl, rfl, rfl, rfl⟩

theorem sameArrays_foldl (f : FarmSimulator K → Nat → FarmSimulator K)
    (hf : ∀ s a, SameArrays s (f s a)) (l : List Nat) (s : FarmSimulator K) :
    SameArrays s (l.foldl f s) :=
  foldl_preserves (fun t => SameArrays s t) f (fun t a ht => sameArrays_trans ht (hf t a)) l s
    (sameArrays_refl s)

theorem sameArrays_updateMoistureCell (sqrt : K → K) (s : FarmSimulator K) (a : Nat) :
    SameArrays s (updateMoistureCell sqrt s a) := by
  unfold FarmSimulator.updateMoistureCell
  split
  · exact sameArrays_setCell _ _ _
  · exact sameArrays_refl s

theorem sameArrays_updateMoistureLevels (sqrt : K → K) (s : FarmSimulator K) :
    SameArrays s (s.updateMoistureLevels sqrt) :=
  sameArrays_foldl _ (sameArrays_updateMoistureCell sqrt) _ _

theorem sameArrays_growCell (s : FarmSimulator K) (a : Nat) : SameArrays s (growCell s a) := by
  unfold FarmSimulator.growCell
  split
  · split
    · exact sameArrays_setCell _ _ _
    · exact sameArrays_refl s
  · exact sameArrays_refl s

theorem sameArrays_growAll (s : FarmSimulator K) : SameArrays s s.growAll :=
  sameArrays_foldl _ sameArrays_growCell _ _

theorem sameButMoisture_refl (c : Cell K) : SameButMoisture c c :=
  ⟨rfl, rfl, rfl, rfl⟩

theorem sameButMoisture_trans {c d e : Cell K} (h1 : SameButMoisture c d)
    (h2 : SameButMoisture d e) : SameButMoisture c e :=
  ⟨h2.1.trans h1.1, h2.2.1.trans h1.2.1, h2.2.2.1.trans h1.2.2.1, h2.2.2.2.trans h1.2.2.2⟩

theorem sameButMoisture_updateMoisture (sqrt : K → K) (c : Cell K) (ws : List (Cell K)) :
    SameButMoisture c (c.updateMoisture sqrt ws) :=
  ⟨updateMoisture_type sqrt c ws, updateMoisture_x sqrt c ws, updateMoisture_y sqrt c ws,
    updateMoisture_plant sqrt c ws⟩

/-- The moisture computed by `updateMoisture` depends only on the type and
coordinates of the cell and on the coordinates of the listed cells. -/
theorem updateMoisture_congr (sqrt : K → K) (c d : Cell K) (ws vs : List (Cell K))
    (hcd : SameButMoisture c d)
    (hws : ws.map (fun w => (w.x, w.y)) = vs.map (fun w => (w.x, w.y))) :
    d.updateMoisture sqrt vs = c.updateMoisture sqrt ws := by
  obtain ⟨ht, hx, hy, hp⟩ := hcd
  have key : ∀ l : List (Cell K),
      l.foldl (fun m w => max m (max 0 (1 - sqrt ((c.x - w.x) ^ 2 + (c.y - w.y) ^ 2) / 5))) 0 =
        (l.map (fun w => (w.x, w.y))).foldl
          (fun m q => max m (max 0 (1 - sqrt ((c.x - q.1) ^ 2 + (c.y - q.2) ^ 2) / 5))) 0 := by
    intro l
    rw [List.foldl_map]
  cases c with
  | mk ct cx cy cm cp =>
    cases d with
    | mk dt dx dy dm dp =>
      simp only at ht hx hy hp key
      subst ht hx hy hp
      simp only [Cell.updateMoisture]
      split
      · rfl
      · simp only [Cell.mk.injEq, true_and, and_true]
        rw [key vs, key ws, hws]

/-- Heap after the loop of `updateMoistureLevels` over a list of references:
exactly the land cells of the list are recomputed, against the water list of
the start state. -/
theorem foldl_updateMoistureCell_heap (sqrt : K → K) (s0 : FarmSimulator K) (l : List Nat)
    (s : FarmSimulator K) (hw : s.waterCells = s0.waterCells)
    (hh : ∀ r, SameButMoisture (s0.heap r) (s.heap r)) (r : Nat) :
    (l.foldl (updateMoistureCell sqrt) s).heap r =
      if r ∈ l ∧ (s0.heap r).type = CellType.land then
        (s0.heap r).updateMoisture sqrt (s0.waterCells.map s0.heap)
      else s.heap r := by
  induction l generalizing s with
  | nil => simp
  | cons a l ih =>
    have hmap : (s0.waterCells.map s0.heap).map (fun w => (w.x, w.y)) =
        (s.waterCells.map s.heap).map (fun w => (w.x, w.y)) := by
      rw [hw, List.map_map, List.map_map]
      apply List.map_congr_left
      intro w _
      simp only [Function.comp]
      rw [(hh w).2.1, (hh w).2.2.1]
    have hstep : ∀ q, (updateMoistureCell sqrt s a).heap q =
        if q = a ∧ (s0.heap q).type = CellType.land then
          (s0.heap q).updateMoisture sqrt (s0.waterCells.map s0.heap)
        else s.heap q := by
      intro q
      unfold FarmSimulator.updateMoistureCell
      by_cases hl : (s.heap a).type = CellType.land
      · rw [if_pos hl, setCell_heap]
        by_cases hq : q = a
        · subst hq
          rw [if_pos rfl, if_pos ⟨rfl, (hh q).1 ▸ hl⟩]
          exact updateMoisture_congr sqrt _ _ _ _ (hh q) hmap
        · rw [if_neg hq, if_neg (fun h => hq h.1)]
      · rw [if_neg hl]
        by_cases hq : q = a
        · subst hq
          rw [if_neg (fun h => hl ((hh q).1 ▸ h.2))]
        · rw [if_neg (fun h => hq h.1)]
    have hw' : (updateMoistureCell sqrt s a).waterCells = s0.waterCells :=
      (sameArrays_updateMoistureCell sqrt s a).2.2.2.2.2.1.trans hw
    have hh' : ∀ q, SameButMoisture (s0.heap q) ((updateMoistureCell sqrt s a).heap q) := by
      intro q
      rw [hstep q]
      split
      · exact sameButMoisture_updateMoisture sqrt _ _
      · exact hh q
    rw [List.foldl_cons, ih _ hw' hh', hstep r]
    by_cases hl : (s0.heap r).type = CellType.land
    · by_cases hr : r ∈ l
      · rw [if_pos ⟨hr, hl⟩, if_pos ⟨List.mem_cons_of_mem _ hr, hl⟩]
      · rw [if_neg (fun h => hr h.1)]
        by_cases hra : r = a
        · rw [if_pos ⟨hra, hl⟩, if_pos ⟨hra ▸ List.mem_cons_self _ _, hl⟩]
        · rw [if_neg (fun h => hra h.1), if_neg]
          rintro ⟨h, -⟩
          rcases List.mem_cons.mp h with h | h
          · exact hra h
          · exact hr h
    · rw [if_neg (fun h => hl h.2), if_neg (fun h => hl h.2), if_neg (fun h => hl h.2)]

/-- Heap after `updateMoistureLevels`. -/
theorem updateMoistureLevels_heap (sqrt : K → K) (s : FarmSimulator K) (r : Nat) :
    (s.updateMoistureLevels sqrt).heap r =
      if r ∈ s.cells ∧ (s.heap r).type = CellType.land then
        (s.heap r).updateMoisture sqrt (s.waterCells.map s.heap)
      else s.heap r :=
  foldl_updateMoistureCell_heap sqrt s s.cells s rfl (fun _ => sameButMoisture_refl _) r

theorem sameButMoisture_updateMoistureLevels (sqrt : K → K) (s : FarmSimulator K) (r : Nat) :
    SameButMoisture (s.heap r) ((s.updateMoistureLevels sqrt).heap r) := by
  rw [updateMoistureLevels_heap]
  split
  · exact sameButMoisture_updateMoisture sqrt _ _
  · exact sameButMoisture_refl _

theorem growCell_heap (s : FarmSimulator K) (a r : Nat) :
    (growCell s a).heap r = if r = a then (s.heap a).grow else s.heap r := by
  unfold FarmSimulator.growCell Cell.grow
  by_cases hr : r = a
  · subst hr
    rw [if_pos rfl]
    split
    · split
      · exact setCell_heap_same _ _ _
      · rfl
    · rfl
  · rw [if_neg hr]
    split
    · split
      · exact setCell_heap_ne _ _ _ _ hr
      · rfl
    · rfl

/-- Heap after the growth loop over a list of distinct references. -/
theorem foldl_growCell_heap (l : List Nat) (hnd : l.Nodup) (s : FarmSimulator K) (r : Nat) :
    (l.foldl growCell s).heap r = if r ∈ l then (s.heap r).grow else s.heap r := by
  induction l generalizing s with
  | nil => simp
  | cons a l ih =>
    rw [List.nodup_cons] at hnd
    rw [List.foldl_cons, ih hnd.2, growCell_heap]
    by_cases hr : r ∈ l
    · have hra : r ≠ a := fun h => hnd.1 (h ▸ hr)
      rw [if_pos hr, if_neg hra, if_pos (List.mem_cons_of_mem _ hr)]
    · rw [if_neg hr]
      by_cases hra : r = a
      · rw [if_pos hra, if_pos (hra ▸ List.mem_cons_self _ _), hra]
      · rw [if_neg hra, if_neg]
        intro h
        rcases List.mem_cons.mp h with h | h
        · exact hra h
        · exact hr h

theorem growAll_heap (s : FarmSimulator K) (hnd : s.cells.Nodup) (r : Nat) :
    s.growAll.heap r = if r ∈ s.cells then (s.heap r).grow else s.heap r :=
  foldl_growCell_heap s.cells hnd s r

theorem grow_of_dead (c : Cell K) (p : Plant K) (hp : c.plant = some p)
    (hd : p.isAlive = false) : c.grow = c := by
  unfold Cell.grow
  rw [hp]
  simp [hd]

/-- A dead plant stored in any object survives the growth loop unchanged. -/
theorem growAll_dead_plant (s : FarmSimulator K) (r : Nat) (p : Plant K)
    (hp : (s.heap r).plant = some p) (hd : p.isAlive = false) :
    (s.growAll.heap r).plant = some p := by
  unfold FarmSimulator.growAll
  refine foldl_preserves (fun t : FarmSimulator K => (t.heap r).plant = some p) _ ?_ _ _ hp
  intro t a ht
  rw [growCell_heap]
  split
  · rename_i h
    rw [← h, grow_of_dead _ p ht hd]
    exact ht
  · exact ht

theorem growthCycle_dead_plant (sqrt : K → K) (s : FarmSimulator K) (r : Nat) (p : Plant K)
    (hp : (s.heap r).plant = some p) (hd : p.isAlive = false) :
    ((s.growthCycle sqrt).heap r).plant = some p := by
  unfold FarmSimulator.growthCycle
  rw [(sameButMoisture_updateMoistureLevels sqrt s.growAll r).2.2.2]
  exact growAll_dead_plant s r p hp hd

end LoopLemmas

section ListLemmas

theorem nodup_getElem?_inj {α : Type} {l : List α} (h : l.Nodup) {i j : Nat} {a : α}
    (hi : l[i]? = some a) (hj : l[j]? = some a) : i = j := by
  obtain ⟨hi', ei⟩ := List.getElem?_eq_some.mp hi
  obtain ⟨hj', ej⟩ := List.getElem?_eq_some.mp hj
  exact (List.Nodup.getElem_inj_iff h).mp (ei.trans ej.symm)

theorem findIndex_eq_none_iff {α : Type} (p : α → Bool) (l : List α) :
    findIndex p l = none ↔ ∀ a ∈ l, p a = false := by
  induction l with
  | nil => simp [findIndex]
  | cons b l ih =>
    unfold findIndex
    by_cases hb : p b = true
    · simp [hb]
    · simp only [hb, Bool.false_eq_true, if_false, Option.map_eq_none', ih, List.mem_cons,
        forall_eq_or_imp]
      simp only [Bool.not_eq_true] at hb
      simp [hb]

theorem findIndex_eq_some {α : Type} (p : α → Bool) (l : List α) (k : Nat)
    (h : findIndex p l = some k) : ∃ a, l[k]? = some a ∧ p a = true := by
  induction l generalizing k with
  | nil => simp [findIndex] at h
  | cons b l ih =>
    unfold findIndex at h
    by_cases hb : p b = true
    · rw [if_pos hb] at h
      cases h
      exact ⟨b, by simp, hb⟩
    · rw [if_neg hb] at h
      obtain ⟨k', hk', rfl⟩ := Option.map_eq_some'.mp h
      obtain ⟨a, ha, hpa⟩ := ih k' hk'
      exact ⟨a, by simpa using ha, hpa⟩

theorem indexOf_of_not_mem (l : List Nat) (a : Nat) (h : a ∉ l) : indexOf l a = none := by
  unfold indexOf
  rw [findIndex_eq_none_iff]
  intro b hb
  simp only [decide_eq_false_iff_not]
  rintro rfl
  exact h hb

theorem indexOf_of_getElem? (l : List Nat) (a i : Nat) (hnd : l.Nodup) (hi : l[i]? = some a) :
    indexOf l a = some i := by
  cases hk : indexOf l a with
  | none =>
    unfold indexOf at hk
    rw [findIndex_eq_none_iff] at hk
    have := hk a (List.mem_iff_getElem?.mpr ⟨i, hi⟩)
    simp at this
  | some k =>
    unfold indexOf at hk
    obtain ⟨b, hb, hpb⟩ := findIndex_eq_some _ _ _ hk
    simp only [decide_eq_true_eq] at hpb
    subst hpb
    rw [nodup_getElem?_inj hnd hb hi]

theorem mem_eraseIdx_of_ne {α : Type} (l : List α) (k : Nat) (a b : α) (hk : l[k]? = some a)
    (hb : b ∈ l) (hne : b ≠ a) : b ∈ l.eraseIdx k := by
  rw [List.mem_eraseIdx_iff_getElem?]
  obtain ⟨j, hj⟩ := List.mem_iff_getElem?.mp hb
  refine ⟨j, ?_, hj⟩
  rintro rfl
  rw [hk] at hj
  exact hne (Option.some.inj hj).symm

theorem not_mem_eraseIdx_of_nodup {α : Type} (l : List α) (k : Nat) (a : α) (hnd : l.Nodup)
    (hk : l[k]? = some a) : a ∉ l.eraseIdx k := by
  rw [List.mem_eraseIdx_iff_getElem?]
  rintro ⟨j, hjk, hj⟩
  exact hjk (nodup_getElem?_inj hnd hj hk)

theorem mem_set_iff_of_nodup (l : List Nat) (i a b c : Nat) (hnd : l.Nodup)
    (hi : l[i]? = some a) (hb : b ∉ l) :
    c ∈ l.set i b ↔ c = b ∨ (c ∈ l ∧ c ≠ a) := by
  have hlt : i < l.length := (List.getElem?_eq_some.mp hi).1
  constructor
  · intro hc
    obtain ⟨j, hj⟩ := List.mem_iff_getElem?.mp hc
    by_cases hij : i = j
    · subst hij
      rw [List.getElem?_set_self hlt] at hj
      exact Or.inl (Option.some.inj hj).symm
    · rw [List.getElem?_set_ne hij] at hj
      refine Or.inr ⟨List.mem_iff_getElem?.mpr ⟨j, hj⟩, ?_⟩
      rintro rfl
      exact hij (nodup_getElem?_inj hnd hi hj)
  · rintro (rfl | ⟨hc, hca⟩)
    · exact List.mem_iff_getElem?.mpr ⟨i, by rw [List.getElem?_set_self hlt]⟩
    · obtain ⟨j, hj⟩ := List.mem_iff_getElem?.mp hc
      have hij : i ≠ j := by
        rintro rfl
        rw [hi] at hj
        exact hca (Option.some.inj hj).symm
      exact List.mem_iff_getElem?.mpr ⟨j, by rw [List.getElem?_set_ne hij]; exact hj⟩

end ListLemmas

section GridInvLemmas

variable {K : Type} [LinearOrderedField K]

open FarmSimulator

theorem set_eq_self_of_getElem? {α : Type} (l : List α) (i : Nat) (a : α)
    (h : l[i]? = some a) : l.set i a = l := by
  apply List.ext_getElem?
  intro j
  by_cases hij : i = j
  · subst hij
    rw [List.getElem?_set_self (List.getElem?_eq_some.mp h).1, h]
  · rw [List.getElem?_set_ne hij]

theorem GridInv.coords_inj_cells {s : FarmSimulator K} (h : GridInv s) :
    ∀ a ∈ s.cells, ∀ b ∈ s.cells, s.coordsAt a = s.coordsAt b → a = b := by
  have hnd : (s.cells.map s.coordsAt).Nodup := h.coords_eq ▸ h.coords_nodup
  intro a ha b hb hab
  exact List.inj_on_of_nodup_map hnd ha hb hab

theorem GridInv.coords_inj_listeners {s : FarmSimulator K} (h : GridInv s) :
    ∀ a ∈ s.listeners, ∀ b ∈ s.listeners, s.coordsAt a = s.coordsAt b → a = b := by
  intro a ha b hb hab
  exact List.inj_on_of_nodup_map h.coords_nodup ha hb hab

theorem GridInv.coords_index {s : FarmSimulator K} (h : GridInv s) (i c o : Nat)
    (hc : s.cells[i]? = some c) (ho : s.listeners[i]? = some o) :
    s.coordsAt c = s.coordsAt o := by
  have e := congrArg (fun l => l[i]?) h.coords_eq
  simp only [List.getElem?_map, hc, ho, Option.map_some'] at e
  exact Option.some.inj e

theorem GridInv.cell_of_listener {s : FarmSimulator K} (h : GridInv s) (i o : Nat)
    (ho : s.listeners[i]? = some o) : ∃ c, s.cells[i]? = some c := by
  have e := congrArg List.length h.coords_eq
  simp only [List.length_map] at e
  have hi : i < s.cells.length := e ▸ (List.getElem?_eq_some.mp ho).1
  exact ⟨s.cells[i], List.getElem?_eq_getElem hi⟩

/-- The invariant only reads the type and the coordinates of allocated objects. -/
theorem gridInv_of_frame (s t : FarmSimulator K) (h : GridInv s)
    (hn : s.next ≤ t.next) (hc : t.cells = s.cells) (hl : t.listeners = s.listeners)
    (hw : t.waterCells = s.waterCells)
    (hty : ∀ r < s.next, (t.heap r).type = (s.heap r).type)
    (hco : ∀ r < s.next, t.coordsAt r = s.coordsAt r) : GridInv t := by
  have hmc : t.cells.map t.coordsAt = s.cells.map s.coordsAt := by
    rw [hc]
    exact List.map_congr_left (fun r hr => hco r (h.cells_lt r hr))
  have hml : t.listeners.map t.coordsAt = s.listeners.map s.coordsAt := by
    rw [hl]
    exact List.map_congr_left (fun r hr => hco r (h.listeners_lt r hr))
  refine ⟨hc ▸ h.cells_nodup, hw ▸ h.water_nodup, ?_, ?_, ?_, ?_, ?_, ?_, ?_, ?_, ?_, ?_⟩
  · intro r hr
    rw [hc] at hr
    exact lt_of_lt_of_le (h.cells_lt r hr) hn
  · intro r hr
    rw [hl] at hr
    exact lt_of_lt_of_le (h.listeners_lt r hr) hn
  · intro r hr
    rw [hw] at hr
    exact lt_of_lt_of_le (h.water_lt r hr) hn
  · rw [hmc, hml]
    exact h.coords_eq
  · rw [hml]
    exact h.coords_nodup
  · intro i c o hic hio
    rw [hc] at hic ⊢
    rw [hl] at hio
    have hcm : c ∈ s.cells := List.mem_iff_getElem?.mpr ⟨i, hic⟩
    have hom : o ∈ s.listeners := List.mem_iff_getElem?.mpr ⟨i, hio⟩
    rw [hty c (h.cells_lt c hcm), hty o (h.listeners_lt o hom)]
    exact h.link i c o hic hio
  · intro w hwm
    rw [hw] at hwm
    rw [hmc, hco w (h.water_lt w hwm)]
    exact h.water_on_grid w hwm
  · intro w hwm o hom hto hwo
    rw [hw] at hwm
    rw [hl] at hom
    rw [hty o (h.listeners_lt o hom)] at hto
    rw [hco w (h.water_lt w hwm), hco o (h.listeners_lt o hom)] at hwo
    exact h.water_original w hwm o hom hto hwo
  · intro c hcm htc w hwm
    rw [hc] at hcm
    rw [hw] at hwm
    rw [hty c (h.cells_lt c hcm)] at htc
    rw [hco w (h.water_lt w hwm), hco c (h.cells_lt c hcm)]
    exact h.land_dry c hcm htc w hwm
  · intro c hcm htc
    rw [hc] at hcm
    rw [hty c (h.cells_lt c hcm)] at htc
    obtain ⟨w, hwm, hwc⟩ := h.water_listed c hcm htc
    refine ⟨w, hw ▸ hwm, ?_⟩
    rw [hco w (h.water_lt w hwm), hco c (h.cells_lt c hcm)]
    exact hwc

end GridInvLemmas

section BucketLemmas

variable {K : Type} [LinearOrderedField K]

open FarmSimulator

theorem coordsAt_congr (s t : FarmSimulator K) (h : t.heap = s.heap) :
    t.coordsAt = s.coordsAt := by
  funext r
  simp only [FarmSimulator.coordsAt, h]

/-- Bucket on a captured land object that is still in the grid at index `i`:
the grid cell is replaced by the new water object, which is pushed. -/
theorem gridInv_flood_live (s t : FarmSimulator K) (h : GridInv s) (i o fresh : Nat)
    (hf : fresh < s.next) (hfc : fresh ∉ s.cells) (hfl : fresh ∉ s.listeners)
    (hfw : fresh ∉ s.waterCells)
    (hio : s.listeners[i]? = some o) (hic : s.cells[i]? = some o)
    (hto : (s.heap o).type = CellType.land) (htf : (s.heap fresh).type = CellType.water)
    (hcf : s.coordsAt fresh = s.coordsAt o)
    (hh : t.heap = s.heap) (hn : t.next = s.next) (hl : t.listeners = s.listeners)
    (hc : t.cells = s.cells.set i fresh) (hw : t.waterCells = s.waterCells ++ [fresh]) :
    GridInv t := by
  have hco : t.coordsAt = s.coordsAt := coordsAt_congr s t hh
  have hom : o ∈ s.listeners := List.mem_iff_getElem?.mpr ⟨i, hio⟩
  have hocm : o ∈ s.cells := List.mem_iff_getElem?.mpr ⟨i, hic⟩
  have hmem : ∀ r, r ∈ t.cells ↔ r = fresh ∨ (r ∈ s.cells ∧ r ≠ o) := by
    intro r
    rw [hc]
    exact mem_set_iff_of_nodup s.cells i o fresh r h.cells_nodup hic hfc
  have hmap : t.cells.map t.coordsAt = s.cells.map s.coordsAt := by
    rw [hc, hco, List.map_set, hcf]
    apply set_eq_self_of_getElem?
    rw [List.getElem?_map, hic]
    rfl
  have hwm : ∀ w, w ∈ t.waterCells ↔ w ∈ s.waterCells ∨ w = fresh := by
    intro w
    rw [hw, List.mem_append, List.mem_singleton]
  refine ⟨?_, ?_, ?_, ?_, ?_, ?_, ?_, ?_, ?_, ?_, ?_, ?_⟩
  · rw [hc]
    exact List.Nodup.set h.cells_nodup hfc
  · rw [hw, ← List.concat_eq_append]
    exact List.Nodup.concat hfw h.water_nodup
  · intro r hr
    rw [hn]
    rcases (hmem r).mp hr with rfl | ⟨hr', -⟩
    · exact hf
    · exact h.cells_lt r hr'
  · intro r hr
    rw [hn]
    exact h.listeners_lt r (hl ▸ hr)
  · intro r hr
    rw [hn]
    rcases (hwm r).mp hr with hr' | rfl
    · exact h.water_lt r hr'
    · exact hf
  · rw [hmap, hl, hco]
    exact h.coords_eq
  · rw [hl, hco]
    exact h.coords_nodup
  · intro j c' o' hjc hjo
    rw [hl] at hjo
    rw [hh]
    have ho'm : o' ∈ s.listeners := List.mem_iff_getElem?.mpr ⟨j, hjo⟩
    have ho'f : o' ≠ fresh := fun e => hfl (e ▸ ho'm)
    by_cases hij : i = j
    · subst hij
      rw [hc, List.getElem?_set_self (List.getElem?_eq_some.mp hic).1] at hjc
      have e1 : fresh = c' := Option.some.inj hjc
      have e2 : o = o' := Option.some.inj (hio.symm.trans hjo)
      subst e1 e2
      right
      refine ⟨?_, ?_⟩
      · rw [hmem]
        rintro (e | ⟨-, e⟩)
        · exact ho'f e
        · exact e rfl
      · rw [htf, hto]
        exact fun e => by cases e
    · rw [hc, List.getElem?_set_ne hij] at hjc
      rcases h.link j c' o' hjc hjo with e | ⟨hnm, hne⟩
      · exact Or.inl e
      · right
        refine ⟨?_, hne⟩
        rw [hmem]
        rintro (e | ⟨e, -⟩)
        · exact ho'f e
        · exact hnm e
  · intro w hwt
    rw [hmap, hco]
    rcases (hwm w).mp hwt with hw' | rfl
    · exact h.water_on_grid w hw'
    · rw [hcf]
      exact List.mem_map_of_mem _ hocm
  · intro w hwt o' ho'm hto' hwo'
    rw [hl] at ho'm
    rw [hh] at hto'
    rw [hco] at hwo'
    rcases (hwm w).mp hwt with hw' | rfl
    · exact h.water_original w hw' o' ho'm hto' hwo'
    · exfalso
      have e : o = o' := h.coords_inj_listeners o hom o' ho'm (hcf.symm.trans hwo')
      rw [← e, hto] at hto'
      cases hto'
  · intro c' hc't htc' w hwt
    rw [hh] at htc'
    rw [hco]
    rcases (hmem c').mp hc't with rfl | ⟨hc's, hc'o⟩
    · rw [htf] at htc'
      cases htc'
    · rcases (hwm w).mp hwt with hw' | rfl
      · exact h.land_dry c' hc's htc' w hw'
      · rw [hcf]
        exact fun e => hc'o (h.coords_inj_cells o hocm c' hc's e).symm
  · intro c' hc't htc'
    rw [hh] at htc'
    rw [hco]
    rcases (hmem c').mp hc't with rfl | ⟨hc's, -⟩
    · exact ⟨c', (hwm c').mpr (Or.inr rfl), rfl⟩
    · obtain ⟨w, hw', hwc⟩ := h.water_listed c' hc's htc'
      exact ⟨w, (hwm w).mpr (Or.inl hw'), hwc⟩

/-- Bucket on a captured land object that left the grid: only the new water
object is pushed; the grid cell at its coordinates is water already. -/
theorem gridInv_flood_stale (s t : FarmSimulator K) (h : GridInv s) (i o fresh : Nat)
    (hf : fresh < s.next) (hfw : fresh ∉ s.waterCells)
    (hio : s.listeners[i]? = some o) (hoc : o ∉ s.cells)
    (hto : (s.heap o).type = CellType.land)
    (hcf : s.coordsAt fresh = s.coordsAt o)
    (hh : t.heap = s.heap) (hn : t.next = s.next) (hl : t.listeners = s.listeners)
    (hc : t.cells = s.cells) (hw : t.waterCells = s.waterCells ++ [fresh]) :
    GridInv t := by
  have hco : t.coordsAt = s.coordsAt := coordsAt_congr s t hh
  have hom : o ∈ s.listeners := List.mem_iff_getElem?.mpr ⟨i, hio⟩
  obtain ⟨c, hic⟩ := h.cell_of_listener i o hio
  have hcm : c ∈ s.cells := List.mem_iff_getElem?.mpr ⟨i, hic⟩
  have hcco : s.coordsAt c = s.coordsAt o := h.coords_index i c o hic hio
  have htc : (s.heap c).type = CellType.water := by
    rcases h.link i c o hic hio with e | ⟨-, hne⟩
    · exact absurd (e ▸ hcm) hoc
    · rw [hto] at hne
      cases hc' : (s.heap c).type with
      | land => exact absurd hc' hne
      | water => rfl
  have hwm : ∀ w, w ∈ t.waterCells ↔ w ∈ s.waterCells ∨ w = fresh := by
    intro w
    rw [hw, List.mem_append, List.mem_singleton]
  refine ⟨hc ▸ h.cells_nodup, ?_, ?_, ?_, ?_, ?_, ?_, ?_, ?_, ?_, ?_, ?_⟩
  · rw [hw, ← List.concat_eq_append]
    exact List.Nodup.concat hfw h.water_nodup
  · intro r hr
    rw [hn]
    exact h.cells_lt r (hc ▸ hr)
  · intro r hr
    rw [hn]
    exact h.listeners_lt r (hl ▸ hr)
  · intro r hr
    rw [hn]
    rcases (hwm r).mp hr with hr' | rfl
    · exact h.water_lt r hr'
    · exact hf
  · rw [hc, hl, hco]
    exact h.coords_eq
  · rw [hl, hco]
    exact h.coords_nodup
  · intro j c' o' hjc hjo
    rw [hc] at hjc ⊢
    rw [hl] at hjo
    rw [hh]
    exact h.link j c' o' hjc hjo
  · intro w hwt
    rw [hc, hco]
    rcases (hwm w).mp hwt with hw' | rfl
    · exact h.water_on_grid w hw'
    · rw [hcf, ← hcco]
      exact List.mem_map_of_mem _ hcm
  · intro w hwt o' ho'm hto' hwo'
    rw [hl] at ho'm
    rw [hh] at hto'
    rw [hco] at hwo'
    rcases (hwm w).mp hwt with hw' | rfl
    · exact h.water_original w hw' o' ho'm hto' hwo'
    · exfalso
      have e : o = o' := h.coords_inj_listeners o hom o' ho'm (hcf.symm.trans hwo')
      rw [← e, hto] at hto'
      cases hto'
  · intro c' hc't htc' w hwt
    rw [hc] at hc't
    rw [hh] at htc'
    rw [hco]
    rcases (hwm w).mp hwt with hw' | rfl
    · exact h.land_dry c' hc't htc' w hw'
    · rw [hcf, ← hcco]
      intro e
      have e' : c = c' := h.coords_inj_cells c hcm c' hc't e
      rw [← e', htc] at htc'
      cases htc'
  · intro c' hc't htc'
    rw [hc] at hc't
    rw [hh] at htc'
    rw [hco]
    obtain ⟨w, hw', hwc⟩ := h.water_listed c' hc't htc'
    exact ⟨w, (hwm w).mpr (Or.inl hw'), hwc⟩

end BucketLemmas

section DrainLemmas

variable {K : Type} [LinearOrderedField K]

open FarmSimulator

/-- Bucket on a captured water object that is still in the grid at index `i`:
the grid cell is replaced by the new land object and the entries of
`waterCells` on its coordinates are gone. -/
theorem gridInv_drain_live (s t : FarmSimulator K) (h : GridInv s) (i o fresh : Nat)
    (hf : fresh < s.next) (hfc : fresh ∉ s.cells) (hfl : fresh ∉ s.listeners)
    (hio : s.listeners[i]? = some o) (hic : s.cells[i]? = some o)
    (hto : (s.heap o).type = CellType.water) (htf : (s.heap fresh).type = CellType.land)
    (hcf : s.coordsAt fresh = s.coordsAt o)
    (hh : t.heap = s.heap) (hn : t.next = s.next) (hl : t.listeners = s.listeners)
    (hc : t.cells = s.cells.set i fresh)
    (hsub : ∀ w ∈ t.waterCells, w ∈ s.waterCells) (hnd : t.waterCells.Nodup)
    (hgone : ∀ w ∈ t.waterCells, s.coordsAt w ≠ s.coordsAt o)
    (hkept : ∀ w ∈ s.waterCells, s.coordsAt w ≠ s.coordsAt o → w ∈ t.waterCells) :
    GridInv t := by
  have hco : t.coordsAt = s.coordsAt := coordsAt_congr s t hh
  have hocm : o ∈ s.cells := List.mem_iff_getElem?.mpr ⟨i, hic⟩
  have hmem : ∀ r, r ∈ t.cells ↔ r = fresh ∨ (r ∈ s.cells ∧ r ≠ o) := by
    intro r
    rw [hc]
    exact mem_set_iff_of_nodup s.cells i o fresh r h.cells_nodup hic hfc
  have hmap : t.cells.map t.coordsAt = s.cells.map s.coordsAt := by
    rw [hc, hco, List.map_set, hcf]
    apply set_eq_self_of_getElem?
    rw [List.getElem?_map, hic]
    rfl
  refine ⟨?_, hnd, ?_, ?_, ?_, ?_, ?_, ?_, ?_, ?_, ?_, ?_⟩
  · rw [hc]
    exact List.Nodup.set h.cells_nodup hfc
  · intro r hr
    rw [hn]
    rcases (hmem r).mp hr with rfl | ⟨hr', -⟩
    · exact hf
    · exact h.cells_lt r hr'
  · intro r hr
    rw [hn]
    exact h.listeners_lt r (hl ▸ hr)
  · intro r hr
    rw [hn]
    exact h.water_lt r (hsub r hr)
  · rw [hmap, hl, hco]
    exact h.coords_eq
  · rw [hl, hco]
    exact h.coords_nodup
  · intro j c' o' hjc hjo
    rw [hl] at hjo
    rw [hh]
    have ho'm : o' ∈ s.listeners := List.mem_iff_getElem?.mpr ⟨j, hjo⟩
    have ho'f : o' ≠ fresh := fun e => hfl (e ▸ ho'm)
    by_cases hij : i = j
    · subst hij
      rw [hc, List.getElem?_set_self (List.getElem?_eq_some.mp hic).1] at hjc
      have e1 : fresh = c' := Option.some.inj hjc
      have e2 : o = o' := Option.some.inj (hio.symm.trans hjo)
      subst e1 e2
      right
      refine ⟨?_, ?_⟩
      · rw [hmem]
        rintro (e | ⟨-, e⟩)
        · exact ho'f e
        · exact e rfl
      · rw [htf, hto]
        exact fun e => by cases e
    · rw [hc, List.getElem?_set_ne hij] at hjc
      rcases h.link j c' o' hjc hjo with e | ⟨hnm, hne⟩
      · exact Or.inl e
      · right
        refine ⟨?_, hne⟩
        rw [hmem]
        rintro (e | ⟨e, -⟩)
        · exact ho'f e
        · exact hnm e
  · intro w hwt
    rw [hmap, hco]
    exact h.water_on_grid w (hsub w hwt)
  · intro w hwt o' ho'm hto' hwo'
    rw [hl] at ho'm
    rw [hh] at hto'
    rw [hco] at hwo'
    exact h.water_original w (hsub w hwt) o' ho'm hto' hwo'
  · intro c' hc't htc' w hwt
    rw [hh] at htc'
    rw [hco]
    rcases (hmem c').mp hc't with rfl | ⟨hc's, -⟩
    · rw [hcf]
      exact hgone w hwt
    · exact h.land_dry c' hc's htc' w (hsub w hwt)
  · intro c' hc't htc'
    rw [hh] at htc'
    rw [hco]
    rcases (hmem c').mp hc't with rfl | ⟨hc's, hc'o⟩
    · rw [htf] at htc'
      cases htc'
    · obtain ⟨w, hw', hwc⟩ := h.water_listed c' hc's htc'
      refine ⟨w, hkept w hw' ?_, hwc⟩
      rw [hwc]
      exact fun e => hc'o (h.coords_inj_cells c' hc's o hocm e)

/-- What the `findIndex`/`splice` pair of `useBucket` leaves in `waterCells`
when the clicked object is a captured water object. -/
theorem drain_waterCells (s : FarmSimulator K) (h : GridInv s) (o : Nat) (p : Nat → Bool)
    (hom : o ∈ s.listeners) (hto : (s.heap o).type = CellType.water)
    (hp : ∀ w ∈ s.waterCells, p w = true ↔ s.coordsAt w = s.coordsAt o) (l : List Nat)
    (hl : l = match findIndex p s.waterCells with
      | some k => splice1 s.waterCells k
      | none => s.waterCells) :
    (∀ w ∈ l, w ∈ s.waterCells) ∧ l.Nodup ∧
    (∀ w ∈ l, s.coordsAt w ≠ s.coordsAt o) ∧
    (∀ w ∈ s.waterCells, s.coordsAt w ≠ s.coordsAt o → w ∈ l) := by
  cases hk : findIndex p s.waterCells with
  | none =>
    rw [hk] at hl
    subst hl
    rw [findIndex_eq_none_iff] at hk
    refine ⟨fun w hw => hw, h.water_nodup, ?_, fun w hw _ => hw⟩
    intro w hw e
    have := (hp w hw).mpr e
    rw [hk w hw] at this
    cases this
  | some k =>
    rw [hk] at hl
    subst hl
    obtain ⟨a, hka, hpa⟩ := findIndex_eq_some p _ k hk
    have ham : a ∈ s.waterCells := List.mem_iff_getElem?.mpr ⟨k, hka⟩
    have hao : a = o := h.water_original a ham o hom hto ((hp a ham).mp hpa)
    subst hao
    refine ⟨fun w hw => List.mem_of_mem_eraseIdx hw,
      List.Nodup.sublist (List.eraseIdx_sublist _ _) h.water_nodup, ?_, ?_⟩
    · intro w hw e
      have hwm : w ∈ s.waterCells := List.mem_of_mem_eraseIdx hw
      have hwa : w = a := h.water_original w hwm a hom hto e
      subst hwa
      exact not_mem_eraseIdx_of_nodup _ k w h.water_nodup hka hw
    · intro w hw hne
      apply mem_eraseIdx_of_ne _ k a w hka hw
      rintro rfl
      exact hne rfl

end DrainLemmas

section ReplaceCellLemmas

variable {K : Type} [LinearOrderedField K]

open FarmSimulator

theorem gridInv_alloc (s : FarmSimulator K) (h : GridInv s) (obj : Cell K) :
    GridInv { s with heap := Function.update s.heap s.next obj, next := s.next + 1 } := by
  refine gridInv_of_frame s _ h (Nat.le_succ _) rfl rfl rfl ?_ ?_
  · intro r hr
    simp only [Function.update_noteq (ne_of_lt hr)]
  · intro r hr
    simp only [FarmSimulator.coordsAt, Function.update_noteq (ne_of_lt hr)]

theorem cellType_eq_water_of_ne_land (c : CellType) (h : c ≠ CellType.land) :
    c = CellType.water := by
  cases c with
  | land => exact absurd rfl h
  | water => rfl

/-- The branches of `useBucket` keep the structural invariant when the clicked
object is the one captured by a listener. -/
theorem gridInv_replaceCell (s : FarmSimulator K) (h : GridInv s) (i o : Nat)
    (hio : s.listeners[i]? = some o) : GridInv (s.replaceCell o) := by
  have hom : o ∈ s.listeners := List.mem_iff_getElem?.mpr ⟨i, hio⟩
  have hol : o ≠ s.next := ne_of_lt (h.listeners_lt o hom)
  have hfc : s.next ∉ s.cells := fun e => lt_irrefl _ (h.cells_lt _ e)
  have hfl : s.next ∉ s.listeners := fun e => lt_irrefl _ (h.listeners_lt _ e)
  have hfw : s.next ∉ s.waterCells := fun e => lt_irrefl _ (h.water_lt _ e)
  obtain ⟨c, hic⟩ := h.cell_of_listener i o hio
  have hcm : c ∈ s.cells := List.mem_iff_getElem?.mpr ⟨i, hic⟩
  by_cases hto : (s.heap o).type = CellType.land
  · have h1 := gridInv_alloc s h (WaterCell.new (s.heap o).x (s.heap o).y)
    by_cases hlive : c = o
    · subst hlive
      have hidx : indexOf s.cells c = some i := indexOf_of_getElem? _ _ _ h.cells_nodup hic
      refine gridInv_flood_live _ (s.replaceCell c) h1 i c s.next (Nat.lt_succ_self _) hfc hfl
        hfw hio hic ?_ ?_ ?_ ?_ ?_ ?_ ?_ ?_
      · simp only [Function.update_noteq hol, hto]
      · simp only [Function.update_same, WaterCell.new, Cell.new]
      · simp only [FarmSimulator.coordsAt, Function.update_same, Function.update_noteq hol,
          WaterCell.new, Cell.new]
      · simp only [FarmSimulator.replaceCell, hto, if_true]
      · simp only [FarmSimulator.replaceCell, hto, if_true]
      · simp only [FarmSimulator.replaceCell, hto, if_true]
      · simp only [FarmSimulator.replaceCell, hto, if_true, hidx, assignAt]
      · simp only [FarmSimulator.replaceCell, hto, if_true]
    · have hoc : o ∉ s.cells := by
        rcases h.link i c o hic hio with e | ⟨hnm, -⟩
        · exact absurd e hlive
        · exact hnm
      have hidx : indexOf s.cells o = none := indexOf_of_not_mem _ _ hoc
      refine gridInv_flood_stale _ (s.replaceCell o) h1 i o s.next (Nat.lt_succ_self _) hfw hio
        hoc ?_ ?_ ?_ ?_ ?_ ?_ ?_
      · simp only [Function.update_noteq hol, hto]
      · simp only [FarmSimulator.coordsAt, Function.update_same, Function.update_noteq hol,
          WaterCell.new, Cell.new]
      · simp only [FarmSimulator.replaceCell, hto, if_true]
      · simp only [FarmSimulator.replaceCell, hto, if_true]
      · simp only [FarmSimulator.replaceCell, hto, if_true]
      · simp only [FarmSimulator.replaceCell, hto, if_true, hidx, assignAt]
      · simp only [FarmSimulator.replaceCell, hto, if_true]
  · have htw : (s.heap o).type = CellType.water := cellType_eq_water_of_ne_land _ hto
    have h1 := gridInv_alloc s h (LandCell.new (s.heap o).x (s.heap o).y)
    have hp : ∀ w ∈ s.waterCells,
        decide ((Function.update s.heap s.next (LandCell.new (s.heap o).x (s.heap o).y) w).x =
            (s.heap o).x ∧
          (Function.update s.heap s.next (LandCell.new (s.heap o).x (s.heap o).y) w).y =
            (s.heap o).y) = true ↔ s.coordsAt w = s.coordsAt o := by
      intro w hw
      have hwn : w ≠ s.next := ne_of_lt (h.water_lt w hw)
      simp only [Function.update_noteq hwn, decide_eq_true_eq, FarmSimulator.coordsAt,
        Prod.mk.injEq]
    by_cases hlive : c = o
    · subst hlive
      have hidx : indexOf s.cells c = some i := indexOf_of_getElem? _ _ _ h.cells_nodup hic
      obtain ⟨d1, d2, d3, d4⟩ := drain_waterCells s h c _ hom htw hp (s.replaceCell c).waterCells
        (by simp only [FarmSimulator.replaceCell, hto, if_false])
      have hco1 : ∀ w, w ≠ s.next →
          FarmSimulator.coordsAt { s with
            heap := Function.update s.heap s.next (LandCell.new (s.heap c).x (s.heap c).y),
            next := s.next + 1 } w = s.coordsAt w := by
        intro w hw
        simp only [FarmSimulator.coordsAt, Function.update_noteq hw]
      refine gridInv_drain_live _ (s.replaceCell c) h1 i c s.next (Nat.lt_succ_self _) hfc hfl
        hio hic ?_ ?_ ?_ ?_ ?_ ?_ ?_ d1 d2 ?_ ?_
      · simp only [Function.update_noteq hol, htw]
      · simp only [Function.update_same, LandCell.new, Cell.new]
      · simp only [FarmSimulator.coordsAt, Function.update_same, Function.update_noteq hol,
          LandCell.new, Cell.new]
      · simp only [FarmSimulator.replaceCell, hto, if_false]
      · simp only [FarmSimulator.replaceCell, hto, if_false]
      · simp only [FarmSimulator.replaceCell, hto, if_false]
      · simp only [FarmSimulator.replaceCell, hto, if_false, hidx, assignAt]
      · intro w hw
        rw [hco1 w (ne_of_lt (h.water_lt w (d1 w hw))), hco1 c hol]
        exact d3 w hw
      · intro w hw hne
        rw [hco1 w (ne_of_lt (h.water_lt w hw)), hco1 c hol] at hne
        exact d4 w hw hne
    · have hoc : o ∉ s.cells := by
        rcases h.link i c o hic hio with e | ⟨hnm, -⟩
        · exact absurd e hlive
        · exact hnm
      have hidx : indexOf s.cells o = none := indexOf_of_not_mem _ _ hoc
      have htc : (s.heap c).type = CellType.land := by
        rcases h.link i c o hic hio with e | ⟨-, hne⟩
        · exact absurd e hlive
        · rw [htw] at hne
          cases hc' : (s.heap c).type with
          | land => rfl
          | water => exact absurd hc' hne
      have hnone : findIndex (fun wc => decide
          ((Function.update s.heap s.next (LandCell.new (s.heap o).x (s.heap o).y) wc).x =
              (s.heap o).x ∧
            (Function.update s.heap s.next (LandCell.new (s.heap o).x (s.heap o).y) wc).y =
              (s.heap o).y)) s.waterCells = none := by
        rw [findIndex_eq_none_iff]
        intro w hw
        rw [Bool.eq_false_iff]
        intro e
        have e' := (hp w hw).mp e
        rw [← h.coords_index i c o hic hio] at e'
        exact h.land_dry c hcm htc w hw e'
      apply gridInv_of_frame _ (s.replaceCell o) h1
      · simp only [FarmSimulator.replaceCell, hto, if_false]
        exact le_refl _
      · simp only [FarmSimulator.replaceCell, hto, if_false, hidx, assignAt]
      · simp only [FarmSimulator.replaceCell, hto, if_false]
      · simp only [FarmSimulator.replaceCell, hto, if_false, hnone]
      · intro r _
        simp only [FarmSimulator.replaceCell, hto, if_false]
      · intro r _
        simp only [FarmSimulator.coordsAt, FarmSimulator.replaceCell, hto, if_false]

end ReplaceCellLemmas

section InitLemmas

variable {K : Type} [LinearOrderedField K]

open FarmSimulator

theorem initInv_coords_inj (rand : Nat → Nat → K) (n : Nat) (s : FarmSimulator K)
    (h : InitInv rand n s) (a b : Nat)
    (ha : a < s.next) (hb : b < s.next) (hab : s.coordsAt a = s.coordsAt b) : a = b := by
  rw [h.coords a ha, h.coords b hb, Prod.mk.injEq, Nat.cast_inj, Nat.cast_inj] at hab
  rw [← Nat.div_add_mod a n, ← Nat.div_add_mod b n, hab.1, hab.2]

/-- At the end of the loops of `initGrid` the structural invariant holds. -/
theorem gridInv_of_initInv (rand : Nat → Nat → K) (n : Nat) (s : FarmSimulator K)
    (h : InitInv rand n s) : GridInv s := by
  have hc : ∀ r, r ∈ s.cells ↔ r < s.next := by
    intro r
    rw [h.cells_eq, List.mem_range]
  have hl : ∀ r, r ∈ s.listeners ↔ r < s.next := by
    intro r
    rw [h.listeners_eq, List.mem_range]
  refine ⟨?_, h.water_nodup, fun r hr => (hc r).mp hr, fun r hr => (hl r).mp hr,
    fun r hr => ((h.water_mem r).mp hr).1, ?_, ?_, ?_, ?_, ?_, ?_, ?_⟩
  · rw [h.cells_eq]
    exact List.nodup_range _
  · rw [h.cells_eq, h.listeners_eq]
  · rw [h.listeners_eq]
    apply List.Nodup.map_on _ (List.nodup_range _)
    intro a ha b hb hab
    exact initInv_coords_inj rand n s h a b (List.mem_range.mp ha) (List.mem_range.mp hb) hab
  · intro i c o hic hio
    rw [h.cells_eq] at hic
    rw [h.listeners_eq] at hio
    exact Or.inl (Option.some.inj (hic.symm.trans hio))
  · intro w hw
    exact List.mem_map_of_mem _ ((hc w).mpr ((h.water_mem w).mp hw).1)
  · intro w hw o ho _ hwo
    exact initInv_coords_inj rand n s h w o ((h.water_mem w).mp hw).1 ((hl o).mp ho) hwo
  · intro c hcm htc w hw hwc
    have e := initInv_coords_inj rand n s h w c ((h.water_mem w).mp hw).1 ((hc c).mp hcm) hwc
    rw [← e, ((h.water_mem w).mp hw).2] at htc
    cases htc
  · intro c hcm htc
    exact ⟨c, (h.water_mem c).mpr ⟨(hc c).mp hcm, htc⟩, rfl⟩

theorem initInv_initCell (rand : Nat → Nat → K) (n x y : Nat) (s : FarmSimulator K)
    (h : InitInv rand n s) (hx : x < n) (hn : s.next = y * n + x) :
    InitInv rand n (initCell rand y s x) ∧ (initCell rand y s x).next = s.next + 1 ∧
      (initCell rand y s x).gridSize = s.gridSize := by
  have hmod : s.next % n = x := by
    rw [hn, Nat.mul_comm, Nat.mul_add_mod, Nat.mod_eq_of_lt hx]
  have hdiv : s.next / n = y := by
    rw [hn, Nat.mul_comm, Nat.mul_add_div (lt_of_le_of_lt (Nat.zero_le _) hx),
      Nat.div_eq_of_lt hx, Nat.add_zero]
  have hfw : s.next ∉ s.waterCells := fun e => lt_irrefl _ ((h.water_mem _).mp e).1
  by_cases hr : rand x y < 0.9
  · refine ⟨⟨?_, ?_, ?_, ?_, ?_, ?_⟩, ?_, ?_⟩
    · simp only [FarmSimulator.initCell, hr, if_true, h.cells_eq, List.range_succ]
    · simp only [FarmSimulator.initCell, hr, if_true, h.listeners_eq, List.range_succ]
    · simp only [FarmSimulator.initCell, hr, if_true]
      exact h.water_nodup
    · intro w
      simp only [FarmSimulator.initCell, hr, if_true]
      by_cases hw : w = s.next
      · subst hw
        simp only [Function.update_same, LandCell.new, Cell.new, hfw, false_iff, not_and]
        exact fun _ e => by cases e
      · rw [Function.update_noteq hw, h.water_mem w]
        constructor
        · exact fun ⟨a, b⟩ => ⟨Nat.lt_succ_of_lt a, b⟩
        · exact fun ⟨a, b⟩ => ⟨lt_of_le_of_ne (Nat.lt_succ_iff.mp a) hw, b⟩
    · intro r hlt
      simp only [FarmSimulator.initCell, hr, if_true] at hlt ⊢
      by_cases hw : r = s.next
      · subst hw
        simp only [FarmSimulator.coordsAt, Function.update_same, LandCell.new, Cell.new, hmod,
          hdiv]
      · have := h.coords r (lt_of_le_of_ne (Nat.lt_succ_iff.mp hlt) hw)
        simpa only [FarmSimulator.coordsAt, Function.update_noteq hw] using this
    · intro r hlt
      simp only [FarmSimulator.initCell, hr, if_true] at hlt ⊢
      by_cases hw : r = s.next
      · subst hw
        simp only [Function.update_same, LandCell.new, Cell.new, hmod, hdiv, hr, if_true]
      · rw [Function.update_noteq hw]
        exact h.types r (lt_of_le_of_ne (Nat.lt_succ_iff.mp hlt) hw)
    · simp only [FarmSimulator.initCell, hr, if_true]
    · simp only [FarmSimulator.initCell, hr, if_true]
  · have hne : ¬ ((if rand x y < 0.9 then CellType.land else CellType.water) = CellType.land) := by
      rw [if_neg hr]
      exact fun e => by cases e
    refine ⟨⟨?_, ?_, ?_, ?_, ?_, ?_⟩, ?_, ?_⟩
    · simp only [FarmSimulator.initCell, hne, if_false, h.cells_eq, List.range_succ]
    · simp only [FarmSimulator.initCell, hne, if_false, h.listeners_eq, List.range_succ]
    · simp only [FarmSimulator.initCell, hne, if_false]
      rw [← List.concat_eq_append]
      exact List.Nodup.concat hfw h.water_nodup
    · intro w
      simp only [FarmSimulator.initCell, hne, if_false, List.mem_append, List.mem_singleton]
      by_cases hw : w = s.next
      · subst hw
        simp only [Function.update_same, WaterCell.new, Cell.new, or_true, Nat.lt_succ_self,
          and_self]
      · rw [Function.update_noteq hw, h.water_mem w]
        constructor
        · rintro (⟨a, b⟩ | e)
          · exact ⟨Nat.lt_succ_of_lt a, b⟩
          · exact absurd e hw
        · exact fun ⟨a, b⟩ => Or.inl ⟨lt_of_le_of_ne (Nat.lt_succ_iff.mp a) hw, b⟩
    · intro r hlt
      simp only [FarmSimulator.initCell, hne, if_false] at hlt ⊢
      by_cases hw : r = s.next
      · subst hw
        simp only [FarmSimulator.coordsAt, Function.update_same, WaterCell.new, Cell.new, hmod,
          hdiv]
      · have := h.coords r (lt_of_le_of_ne (Nat.lt_succ_iff.mp hlt) hw)
        simpa only [FarmSimulator.coordsAt, Function.update_noteq hw] using this
    · intro r hlt
      simp only [FarmSimulator.initCell, hne, if_false] at hlt ⊢
      by_cases hw : r = s.next
      · subst hw
        simp only [Function.update_same, WaterCell.new, Cell.new, hmod, hdiv, hr, if_false]
      · rw [Function.update_noteq hw]
        exact h.types r (lt_of_le_of_ne (Nat.lt_succ_iff.mp hlt) hw)
    · simp only [FarmSimulator.initCell, hne, if_false]
    · simp only [FarmSimulator.initCell, hne, if_false]

theorem initInv_row (rand : Nat → Nat → K) (n y : Nat) (s : FarmSimulator K)
    (h : InitInv rand n s) (hn : s.next = y * n) (k : Nat) (hk : k ≤ n) :
    InitInv rand n ((List.range k).foldl (initCell rand y) s) ∧
      ((List.range k).foldl (initCell rand y) s).next = y * n + k ∧
      ((List.range k).foldl (initCell rand y) s).gridSize = s.gridSize := by
  induction k with
  | zero => exact ⟨h, hn, rfl⟩
  | succ k ih =>
    obtain ⟨i1, i2, i3⟩ := ih (Nat.le_of_succ_le hk)
    rw [List.range_succ, List.foldl_append, List.foldl_cons, List.foldl_nil]
    obtain ⟨j1, j2, j3⟩ := initInv_initCell rand n k y _ i1 (Nat.lt_of_succ_le hk) i2
    exact ⟨j1, by rw [j2, i2]; rfl, j3.trans i3⟩

theorem initInv_rows (rand : Nat → Nat → K) (n : Nat) (s : FarmSimulator K)
    (h : InitInv rand n s) (hn : s.next = 0) (hg : s.gridSize = n) (k : Nat) :
    InitInv rand n ((List.range k).foldl
        (fun s y => (List.range s.gridSize).foldl (initCell rand y) s) s) ∧
      ((List.range k).foldl
        (fun s y => (List.range s.gridSize).foldl (initCell rand y) s) s).next = k * n ∧
      ((List.range k).foldl
        (fun s y => (List.range s.gridSize).foldl (initCell rand y) s) s).gridSize = n := by
  induction k with
  | zero => exact ⟨h, hn.trans (Nat.zero_mul n).symm, hg⟩
  | succ k ih =>
    obtain ⟨i1, i2, i3⟩ := ih
    rw [List.range_succ, List.foldl_append, List.foldl_cons, List.foldl_nil]
    simp only [i3]
    obtain ⟨j1, j2, j3⟩ := initInv_row rand n k _ i1 i2 n (le_refl n)
    exact ⟨j1, by rw [j2, Nat.succ_mul], j3.trans i3⟩

theorem initInv_initGrid (rand : Nat → Nat → K) (n : Nat) (s : FarmSimulator K)
    (hn : s.next = 0) (hc : s.cells = []) (hw : s.waterCells = []) (hg : s.gridSize = n) :
    InitInv rand n (s.initGrid rand) ∧ (s.initGrid rand).next = n * n := by
  unfold FarmSimulator.initGrid
  have h0 : InitInv rand n ({ s with listeners := [] } : FarmSimulator K) := by
    refine ⟨?_, ?_, ?_, ?_, ?_, ?_⟩
    · simp only [hc, hn, List.range_zero]
    · simp only [hn, List.range_zero]
    · simp only [hw, List.nodup_nil]
    · intro w
      simp only [hw, hn, List.not_mem_nil, Nat.not_lt_zero, false_and]
    · intro r hr
      simp only [hn, Nat.not_lt_zero] at hr
    · intro r hr
      simp only [hn, Nat.not_lt_zero] at hr
  subst hg
  have := initInv_rows rand s.gridSize _ h0 hn rfl s.gridSize
  exact ⟨this.1, this.2.1⟩

end InitLemmas

section RunLemmas

variable {K : Type} [LinearOrderedField K]

open FarmSimulator

theorem gridInv_setCell (s : FarmSimulator K) (h : GridInv s) (r : Nat) (c : Cell K)
    (hc : SamePlace (s.heap r) c) : GridInv (s.setCell r c) := by
  refine gridInv_of_frame s _ h (le_refl _) rfl rfl rfl ?_ ?_
  · intro q _
    rw [setCell_heap]
    split
    · rename_i e
      rw [e, hc.1]
    · rfl
  · intro q _
    simp only [FarmSimulator.coordsAt]
    rw [setCell_heap]
    split
    · rename_i e
      rw [e, hc.2.1, hc.2.2]
    · rfl

theorem gridInv_updateMoistureLevels (sqrt : K → K) (s : FarmSimulator K) (h : GridInv s) :
    GridInv (s.updateMoistureLevels sqrt) := by
  unfold FarmSimulator.updateMoistureLevels
  refine foldl_preserves GridInv _ ?_ _ _ h
  intro t a ht
  unfold FarmSimulator.updateMoistureCell
  split
  · exact gridInv_setCell t ht a _
      ⟨updateMoisture_type sqrt _ _, updateMoisture_x sqrt _ _, updateMoisture_y sqrt _ _⟩
  · exact ht

theorem gridInv_growAll (s : FarmSimulator K) (h : GridInv s) : GridInv s.growAll := by
  unfold FarmSimulator.growAll
  refine foldl_preserves GridInv _ ?_ _ _ h
  intro t a ht
  unfold FarmSimulator.growCell
  split
  · split
    · exact gridInv_setCell t ht a _ ⟨rfl, rfl, rfl⟩
    · exact ht
  · exact ht

theorem gridInv_useShovel (s : FarmSimulator K) (cell : Nat) (h : GridInv s) :
    GridInv (s.useShovel cell) := by
  unfold FarmSimulator.useShovel
  split
  · exact h
  · split
    · exact gridInv_setCell s h cell _ ⟨rfl, rfl, rfl⟩
    · exact gridInv_setCell s h cell _ ⟨rfl, rfl, rfl⟩

theorem gridInv_plantSeed (s : FarmSimulator K) (cell : Nat) (p : Plant K) (h : GridInv s) :
    GridInv (s.plantSeed cell p) := by
  unfold FarmSimulator.plantSeed
  split
  · exact h
  · exact gridInv_setCell s h cell _ ⟨rfl, rfl, rfl⟩

theorem gridInv_new (sqrt : K → K) (rand : Nat → Nat → K) (n : Nat) :
    GridInv (FarmSimulator.new sqrt rand n) := by
  unfold FarmSimulator.new
  apply gridInv_updateMoistureLevels
  exact gridInv_of_initInv rand n _
    (initInv_initGrid rand n (FarmSimulator.empty n : FarmSimulator K) rfl rfl rfl rfl).1

theorem gridInv_step (sqrt : K → K) (s : FarmSimulator K) (e : Event) (h : GridInv s) :
    GridInv (s.step sqrt e) := by
  cases e with
  | selectTool tool =>
    exact gridInv_of_frame s (s.selectTool tool) h (le_refl _) rfl rfl rfl (fun _ _ => rfl)
      (fun _ _ => rfl)
  | click i =>
    simp only [FarmSimulator.step]
    split
    · rename_i cell hcell
      unfold FarmSimulator.handleCellClick
      split
      · exact h
      · exact gridInv_useShovel s cell h
      · exact gridInv_plantSeed s cell _ h
      · exact gridInv_plantSeed s cell _ h
      · exact gridInv_plantSeed s cell _ h
      · exact gridInv_updateMoistureLevels sqrt _ (gridInv_replaceCell s h i cell hcell)
    · exact h
  | tick => exact gridInv_updateMoistureLevels sqrt _ (gridInv_growAll s h)

theorem gridInv_run (sqrt : K → K) (rand : Nat → Nat → K) (n : Nat) (events : List Event) :
    GridInv (run sqrt rand n events) :=
  foldl_preserves GridInv _ (fun s e h => gridInv_step sqrt s e h) _ _ (gridInv_new sqrt rand n)

/-- Consistency of `waterCells` with the grid, from the structural invariant. -/
theorem waterCells_consistent_of_gridInv (s : FarmSimulator K) (h : GridInv s) (x y : K) :
    (∃ w ∈ s.waterCells, (s.heap w).x = x ∧ (s.heap w).y = y) ↔
    (∃ c ∈ s.cells, (s.heap c).x = x ∧ (s.heap c).y = y ∧ (s.heap c).type = CellType.water) := by
  constructor
  · rintro ⟨w, hw, hx, hy⟩
    obtain ⟨c, hc, hcw⟩ := List.mem_map.mp (h.water_on_grid w hw)
    have hxy : s.coordsAt c = (x, y) := by
      rw [hcw]
      simp only [FarmSimulator.coordsAt, hx, hy]
    simp only [FarmSimulator.coordsAt, Prod.mk.injEq] at hxy
    refine ⟨c, hc, hxy.1, hxy.2, ?_⟩
    cases htc : (s.heap c).type with
    | land => exact absurd hcw.symm (h.land_dry c hc htc w hw)
    | water => rfl
  · rintro ⟨c, hc, hx, hy, htc⟩
    obtain ⟨w, hw, hwc⟩ := h.water_listed c hc htc
    simp only [FarmSimulator.coordsAt, Prod.mk.injEq] at hwc
    exact ⟨w, hw, hwc.1.trans hx, hwc.2.trans hy⟩

end RunLemmas

section ClickLemmas

variable {K : Type} [LinearOrderedField K]

open FarmSimulator

/-- Arrays and types right after construction. -/
theorem new_spec (sqrt : K → K) (rand : Nat → Nat → K) (n : Nat) :
    (FarmSimulator.new sqrt rand n).cells = List.range (n * n) ∧
    (FarmSimulator.new sqrt rand n).listeners = List.range (n * n) ∧
    (FarmSimulator.new sqrt rand n).selectedTool = Tool.cursor ∧
    (∀ r < n * n, ((FarmSimulator.new sqrt rand n).heap r).type =
      if rand (r % n) (r / n) < 0.9 then CellType.land else CellType.water) := by
  unfold FarmSimulator.new
  obtain ⟨hi, hnext⟩ := initInv_initGrid rand n (FarmSimulator.empty n : FarmSimulator K)
    rfl rfl rfl rfl
  obtain ⟨-, -, a3, -, a5, -, a7⟩ := sameArrays_updateMoistureLevels sqrt
    (FarmSimulator.initGrid rand (FarmSimulator.empty n : FarmSimulator K))
  refine ⟨?_, ?_, ?_, ?_⟩
  · rw [a3, hi.cells_eq, hnext]
  · rw [a7, hi.listeners_eq, hnext]
  · rw [a5]
    have hsel : ∀ (l : List Nat) (t : FarmSimulator K) (y : Nat),
        (l.foldl (initCell rand y) t).selectedTool = t.selectedTool := by
      intro l t y
      refine foldl_preserves (fun u : FarmSimulator K => u.selectedTool = t.selectedTool) _ ?_ l t
        rfl
      intro u a hu
      rw [← hu]
      unfold FarmSimulator.initCell
      dsimp only
      split <;> rfl
    unfold FarmSimulator.initGrid
    refine foldl_preserves (fun u : FarmSimulator K => u.selectedTool = Tool.cursor) _ ?_ _ _ rfl
    intro u y hu
    rw [hsel]
    exact hu
  · intro r hr
    rw [(sameButMoisture_updateMoistureLevels sqrt _ r).1]
    exact hi.types r (hnext ▸ hr)

theorem replaceCell_listeners (s : FarmSimulator K) (o : Nat) :
    (s.replaceCell o).listeners = s.listeners := by
  unfold FarmSimulator.replaceCell
  dsimp only
  split <;> rfl

theorem replaceCell_selectedTool (s : FarmSimulator K) (o : Nat) :
    (s.replaceCell o).selectedTool = s.selectedTool := by
  unfold FarmSimulator.replaceCell
  dsimp only
  split <;> rfl

theorem replaceCell_cells (s : FarmSimulator K) (o : Nat) :
    (s.replaceCell o).cells = assignAt s.cells (indexOf s.cells o) s.next := by
  unfold FarmSimulator.replaceCell
  dsimp only
  split <;> rfl

theorem replaceCell_heap_of_ne (s : FarmSimulator K) (o r : Nat) (h : r ≠ s.next) :
    (s.replaceCell o).heap r = s.heap r := by
  unfold FarmSimulator.replaceCell
  dsimp only
  split
  · exact Function.update_noteq h _ _
  · exact Function.update_noteq h _ _

theorem replaceCell_heap_next_type (s : FarmSimulator K) (o : Nat) :
    ((s.replaceCell o).heap s.next).type ≠ (s.heap o).type := by
  unfold FarmSimulator.replaceCell
  dsimp only
  split
  · rename_i h
    rw [h]
    simp only [Function.update_same, WaterCell.new, Cell.new]
    exact fun e => by cases e
  · rename_i h
    simp only [Function.update_same, LandCell.new, Cell.new]
    exact fun e => h e.symm

theorem useBucket_fields (sqrt : K → K) (s : FarmSimulator K) (o : Nat) :
    (s.useBucket sqrt o).listeners = s.listeners ∧
    (s.useBucket sqrt o).selectedTool = s.selectedTool ∧
    (s.useBucket sqrt o).cells = assignAt s.cells (indexOf s.cells o) s.next ∧
    (∀ r, ((s.useBucket sqrt o).heap r).type = ((s.replaceCell o).heap r).type) := by
  unfold FarmSimulator.useBucket
  obtain ⟨-, -, a3, -, a5, -, a7⟩ := sameArrays_updateMoistureLevels sqrt (s.replaceCell o)
  refine ⟨a7.trans (replaceCell_listeners s o), a5.trans (replaceCell_selectedTool s o),
    a3.trans (replaceCell_cells s o), ?_⟩
  intro r
  exact (sameButMoisture_updateMoistureLevels sqrt _ r).1

/-- A bucket click on the i-th cell element flips the kind stored at index `i`
when the captured object is still the one in the grid, and leaves the grid
cell at index `i` as it is when the captured object has left the grid. -/
theorem bucket_click_kind (sqrt : K → K) (s : FarmSimulator K) (h : GridInv s) (i o c : Nat)
    (hio : s.listeners[i]? = some o) (hic : s.cells[i]? = some c)
    (htool : s.selectedTool = Tool.bucket) :
    (c = o → ∃ d, (s.step sqrt (Event.click i)).cells[i]? = some d ∧ d ≠ o ∧
      ((s.step sqrt (Event.click i)).heap d).type ≠ (s.heap c).type) ∧
    (c ≠ o → (s.step sqrt (Event.click i)).cells[i]? = some c ∧
      ((s.step sqrt (Event.click i)).heap c).type = (s.heap c).type) := by
  have hstep : s.step sqrt (Event.click i) = s.useBucket sqrt o := by
    simp only [FarmSimulator.step, hio, FarmSimulator.handleCellClick, htool]
  rw [hstep]
  obtain ⟨-, -, f3, f4⟩ := useBucket_fields sqrt s o
  have hom : o ∈ s.listeners := List.mem_iff_getElem?.mpr ⟨i, hio⟩
  have hcm : c ∈ s.cells := List.mem_iff_getElem?.mpr ⟨i, hic⟩
  constructor
  · intro hco
    subst hco
    have hidx : indexOf s.cells c = some i := indexOf_of_getElem? _ _ _ h.cells_nodup hic
    refine ⟨s.next, ?_, ?_, ?_⟩
    · rw [f3, hidx]
      simp only [assignAt]
      exact List.getElem?_set_self (List.getElem?_eq_some.mp hic).1
    · exact fun e => lt_irrefl _ (e ▸ h.cells_lt c hcm)
    · rw [f4]
      exact replaceCell_heap_next_type s c
  · intro hco
    have hoc : o ∉ s.cells := by
      rcases h.link i c o hic hio with e | ⟨hnm, -⟩
      · exact absurd e hco
      · exact hnm
    have hidx : indexOf s.cells o = none := indexOf_of_not_mem _ _ hoc
    refine ⟨?_, ?_⟩
    · rw [f3, hidx]
      exact hic
    · rw [f4, replaceCell_heap_of_ne s o c (ne_of_lt (h.cells_lt c hcm))]

/-- Two consecutive bucket clicks on a cell element that was never bucketed
before: the kind stored at its index changes with the first click and is kept
by the second. -/
theorem bucket_twice_from_new (sqrt : K → K) (rand : Nat → Nat → K) (n i : Nat)
    (hi : i < n * n) :
    (run sqrt rand n []).kindAt i =
      some (if rand (i % n) (i / n) < 0.9 then CellType.land else CellType.water) ∧
    (run sqrt rand n [Event.selectTool Tool.bucket, Event.click i]).kindAt i =
      some (if rand (i % n) (i / n) < 0.9 then CellType.water else CellType.land) ∧
    (run sqrt rand n [Event.selectTool Tool.bucket, Event.click i, Event.click i]).kindAt i =
      some (if rand (i % n) (i / n) < 0.9 then CellType.water else CellType.land) := by
  obtain ⟨n1, n2, -, n4⟩ := new_spec sqrt rand n
  have hc0 : (FarmSimulator.new sqrt rand n).cells[i]? = some i := by
    rw [n1]
    exact List.getElem?_range hi
  have hl0 : (FarmSimulator.new sqrt rand n).listeners[i]? = some i := by
    rw [n2]
    exact List.getElem?_range hi
  have hg0 := gridInv_new sqrt rand n
  -- the state after the tool selection
  have hg1 := gridInv_step sqrt _ (Event.selectTool Tool.bucket) hg0
  have hflip : ∀ a b : CellType, a ≠ (if rand (i % n) (i / n) < 0.9 then CellType.land
      else CellType.water) → a = (if rand (i % n) (i / n) < 0.9 then CellType.water
      else CellType.land) := by
    intro a _ ha
    by_cases hr : rand (i % n) (i / n) < 0.9
    · rw [if_pos hr] at ha ⊢
      exact cellType_eq_water_of_ne_land a ha
    · rw [if_neg hr] at ha ⊢
      cases a with
      | land => rfl
      | water => exact absurd rfl ha
  obtain ⟨d, hd1, hd2, hd3⟩ := (bucket_click_kind sqrt
    ((FarmSimulator.new sqrt rand n).step sqrt (Event.selectTool Tool.bucket)) hg1 i i i hl0 hc0
    rfl).1 rfl
  have hg2 := gridInv_step sqrt _ (Event.click i) hg1
  have hl2 : (((FarmSimulator.new sqrt rand n).step sqrt (Event.selectTool Tool.bucket)).step
      sqrt (Event.click i)).listeners[i]? = some i := by
    have hst : ((FarmSimulator.new sqrt rand n).step sqrt (Event.selectTool Tool.bucket)).step
        sqrt (Event.click i) = ((FarmSimulator.new sqrt rand n).step sqrt
          (Event.selectTool Tool.bucket)).useBucket sqrt i := by
      simp only [FarmSimulator.step, FarmSimulator.selectTool, hl0,
        FarmSimulator.handleCellClick]
    rw [hst, (useBucket_fields sqrt _ i).1]
    exact hl0
  have ht2 : (((FarmSimulator.new sqrt rand n).step sqrt (Event.selectTool Tool.bucket)).step
      sqrt (Event.click i)).selectedTool = Tool.bucket := by
    have hst : ((FarmSimulator.new sqrt rand n).step sqrt (Event.selectTool Tool.bucket)).step
        sqrt (Event.click i) = ((FarmSimulator.new sqrt rand n).step sqrt
          (Event.selectTool Tool.bucket)).useBucket sqrt i := by
      simp only [FarmSimulator.step, FarmSimulator.selectTool, hl0,
        FarmSimulator.handleCellClick]
    rw [hst, (useBucket_fields sqrt _ i).2.1]
    rfl
  obtain ⟨he1, he2⟩ := (bucket_click_kind sqrt _ hg2 i i d hl2 hd1 ht2).2 hd2
  have hty1 : ((((FarmSimulator.new sqrt rand n).step sqrt (Event.selectTool Tool.bucket)).step
      sqrt (Event.click i)).heap d).type =
        (if rand (i % n) (i / n) < 0.9 then CellType.water else CellType.land) := by
    apply hflip _ CellType.land
    have : (((FarmSimulator.new sqrt rand n).step sqrt (Event.selectTool Tool.bucket)).heap
        i).type = ((FarmSimulator.new sqrt rand n).heap i).type := rfl
    rw [← n4 i hi, ← this]
    exact hd3
  have hr0 : run sqrt rand n [] = FarmSimulator.new sqrt rand n := rfl
  have hr1 : run sqrt rand n [Event.selectTool Tool.bucket, Event.click i] =
      ((FarmSimulator.new sqrt rand n).step sqrt (Event.selectTool Tool.bucket)).step sqrt
        (Event.click i) := rfl
  have hr2 : run sqrt rand n [Event.selectTool Tool.bucket, Event.click i, Event.click i] =
      (((FarmSimulator.new sqrt rand n).step sqrt (Event.selectTool Tool.bucket)).step sqrt
        (Event.click i)).step sqrt (Event.click i) := rfl
  rw [hr0, hr1, hr2]
  unfold FarmSimulator.kindAt
  refine ⟨?_, ?_, ?_⟩
  · rw [hc0, Option.map_some', n4 i hi]
  · rw [hd1, Option.map_some', hty1]
  · rw [he1, Option.map_some', he2, hty1]

end ClickLemmas

section TickLemmas

variable {K : Type} [LinearOrderedField K]

open FarmSimulator

theorem grow_frame (c : Cell K) :
    c.grow.type = c.type ∧ c.grow.x = c.x ∧ c.grow.y = c.y ∧ c.grow.moisture = c.moisture := by
  unfold Cell.grow
  split
  · split
    · exact ⟨rfl, rfl, rfl, rfl⟩
    · exact ⟨rfl, rfl, rfl, rfl⟩
  · exact ⟨rfl, rfl, rfl, rfl⟩

/-- The growth loop changes no type, coordinate or moisture. -/
theorem growAll_frame (s : FarmSimulator K) (r : Nat) :
    (s.growAll.heap r).type = (s.heap r).type ∧ (s.growAll.heap r).x = (s.heap r).x ∧
    (s.growAll.heap r).y = (s.heap r).y ∧ (s.growAll.heap r).moisture = (s.heap r).moisture := by
  unfold FarmSimulator.growAll
  refine foldl_preserves (fun t : FarmSimulator K =>
    (t.heap r).type = (s.heap r).type ∧ (t.heap r).x = (s.heap r).x ∧
    (t.heap r).y = (s.heap r).y ∧ (t.heap r).moisture = (s.heap r).moisture) _ ?_ _ _
    ⟨rfl, rfl, rfl, rfl⟩
  intro t a ht
  rw [growCell_heap]
  split
  · rename_i e
    subst e
    obtain ⟨g1, g2, g3, g4⟩ := grow_frame (t.heap r)
    exact ⟨g1.trans ht.1, g2.trans ht.2.1, g3.trans ht.2.2.1, g4.trans ht.2.2.2⟩
  · exact ht

theorem updateMoisture_moisture_congr (sqrt : K → K) (c d : Cell K) (ws vs : List (Cell K))
    (hcd : SamePlace c d)
    (hws : ws.map (fun w => (w.x, w.y)) = vs.map (fun w => (w.x, w.y))) :
    (d.updateMoisture sqrt vs).moisture = (c.updateMoisture sqrt ws).moisture := by
  have h1 : (d.updateMoisture sqrt vs).moisture =
      (Cell.updateMoisture sqrt { d with plant := c.plant } vs).moisture := by
    unfold Cell.updateMoisture
    split <;> rfl
  rw [h1, updateMoisture_congr sqrt c { d with plant := c.plant } ws vs
    ⟨hcd.1, hcd.2.1, hcd.2.2, rfl⟩ hws]

/-- Moisture of a land cell of the grid after one tick: the value recomputed
from the water list, whatever was stored before. -/
theorem growthCycle_moisture (sqrt : K → K) (s : FarmSimulator K) (cell : Nat)
    (hm : cell ∈ s.cells) (hl : (s.heap cell).type = CellType.land) :
    ((s.growthCycle sqrt).heap cell).moisture =
      ((s.heap cell).updateMoisture sqrt (s.waterCells.map s.heap)).moisture := by
  unfold FarmSimulator.growthCycle
  obtain ⟨-, -, a3, -, -, a6, -⟩ := sameArrays_growAll s
  rw [updateMoistureLevels_heap, if_pos ⟨a3 ▸ hm, (growAll_frame s cell).1.trans hl⟩, a6]
  apply updateMoisture_moisture_congr
  · exact ⟨(growAll_frame s cell).1, (growAll_frame s cell).2.1, (growAll_frame s cell).2.2.1⟩
  · rw [List.map_map, List.map_map]
    apply List.map_congr_left
    intro w _
    simp only [Function.comp]
    rw [(growAll_frame s w).2.1, (growAll_frame s w).2.2.1]

/-- Plant of a grid cell after one tick, when the grid holds distinct objects:
`updateGrowth` applied to the moisture stored before the tick. -/
theorem growthCycle_plant (sqrt : K → K) (s : FarmSimulator K) (cell : Nat) (p : Plant K)
    (hnd : s.cells.Nodup) (hm : cell ∈ s.cells) (hp : (s.heap cell).plant = some p)
    (ha : p.isAlive = true) :
    ((s.growthCycle sqrt).heap cell).plant = some (p.updateGrowth (s.heap cell).moisture) := by
  unfold FarmSimulator.growthCycle
  rw [(sameButMoisture_updateMoistureLevels sqrt s.growAll cell).2.2.2, growAll_heap s hnd,
    if_pos hm]
  unfold Cell.grow
  rw [hp]
  simp only [ha, if_true]

end TickLemmas

section Scenario

open FarmSimulator

set_option maxHeartbeats 1000000

/-- Grid cells of the scenario used to illustrate the one-tick lag. -/
theorem lag_scenario_cells :
    1 ∈ (run Real.sqrt (fun x y => if x = 1 ∧ y = 1 then (1 : ℝ) else 0) 2
      [Event.selectTool Tool.shovel, Event.click 1, Event.click 1,
       Event.selectTool Tool.marshSeeds, Event.click 1]).cells := by
  have h9 : ¬ ((1 : ℝ) < 0.9) := by norm_num
  have h0 : (0 : ℝ) < 0.9 := by norm_num
  simp [run, FarmSimulator.new, FarmSimulator.empty, initGrid, initCell, updateMoistureLevels,
    updateMoistureCell, List.range, List.range.loop, setCell, WaterCell.new, LandCell.new,
    Cell.new, h9, h0, step, selectTool, handleCellClick, useShovel, plantSeed,
    Cell.updateMoisture, Function.update]

/-- Water objects of the scenario used to illustrate the one-tick lag. -/
theorem lag_scenario_water :
    (run Real.sqrt (fun x y => if x = 1 ∧ y = 1 then (1 : ℝ) else 0) 2
      [Event.selectTool Tool.shovel, Event.click 1, Event.click 1,
       Event.selectTool Tool.marshSeeds, Event.click 1]).waterCells.map
      (run Real.sqrt (fun x y => if x = 1 ∧ y = 1 then (1 : ℝ) else 0) 2
      [Event.selectTool Tool.shovel, Event.click 1, Event.click 1,
       Event.selectTool Tool.marshSeeds, Event.click 1]).heap = [WaterCell.new 1 1] := by
  have h9 : ¬ ((1 : ℝ) < 0.9) := by norm_num
  have h0 : (0 : ℝ) < 0.9 := by norm_num
  simp [run, FarmSimulator.new, FarmSimulator.empty, initGrid, initCell, updateMoistureLevels,
    updateMoistureCell, List.range, List.range.loop, setCell, WaterCell.new, LandCell.new,
    Cell.new, h9, h0, step, selectTool, handleCellClick, useShovel, plantSeed,
    Cell.updateMoisture, Function.update]

/-- The shovelled and planted cell of the scenario used to illustrate the
one-tick lag. -/
theorem lag_scenario_heap :
    (run Real.sqrt (fun x y => if x = 1 ∧ y = 1 then (1 : ℝ) else 0) 2
      [Event.selectTool Tool.shovel, Event.click 1, Event.click 1,
       Event.selectTool Tool.marshSeeds, Event.click 1]).heap 1 =
      { type := CellType.land, x := 1, y := 0, moisture := 0.6,
        plant := some MarshPlant.new } := by
  have h9 : ¬ ((1 : ℝ) < 0.9) := by norm_num
  have h0 : (0 : ℝ) < 0.9 := by norm_num
  simp [run, FarmSimulator.new, FarmSimulator.empty, initGrid, initCell, updateMoistureLevels,
    updateMoistureCell, List.range, List.range.loop, setCell, WaterCell.new, LandCell.new,
    Cell.new, h9, h0, step, selectTool, handleCellClick, useShovel, plantSeed,
    Cell.updateMoisture, Function.update]
  norm_num

/-- The grid of the scenario with one bucket click: index 0 holds a water cell
at (0,0). -/
theorem bucket_scenario_grid :
    ∃ cell ∈ (run Real.sqrt (fun x y => if x = 1 ∧ y = 1 then (1 : ℝ) else 0) 2
        [Event.selectTool Tool.bucket, Event.click 0]).cells,
      ((run Real.sqrt (fun x y => if x = 1 ∧ y = 1 then (1 : ℝ) else 0) 2
        [Event.selectTool Tool.bucket, Event.click 0]).heap cell).x = 0 ∧
      ((run Real.sqrt (fun x y => if x = 1 ∧ y = 1 then (1 : ℝ) else 0) 2
        [Event.selectTool Tool.bucket, Event.click 0]).heap cell).y = 0 ∧
      ((run Real.sqrt (fun x y => if x = 1 ∧ y = 1 then (1 : ℝ) else 0) 2
        [Event.selectTool Tool.bucket, Event.click 0]).heap cell).type = CellType.water := by
  have h9 : ¬ ((1 : ℝ) < 0.9) := by norm_num
  have h0 : (0 : ℝ) < 0.9 := by norm_num
  refine ⟨4, ?_, ?_, ?_, ?_⟩ <;>
  simp [run, FarmSimulator.new, FarmSimulator.empty, initGrid, initCell, updateMoistureLevels,
    updateMoistureCell, List.range, List.range.loop, setCell, WaterCell.new, LandCell.new,
    Cell.new, h9, h0, step, selectTool, handleCellClick, useBucket, replaceCell, indexOf,
    findIndex, assignAt, Cell.updateMoisture, Function.update]

end Scenario

/-! ## Claims about the simulator -/

section WaterInvariantClaims

variable {K : Type} [LinearOrderedField K]

open FarmSimulator

/-- C2: in every state reached from construction by tool selections, cell
clicks and ticks, every cell stored in the grid whose type is 'water' has
moisture exactly 1. -/
theorem water_cells_have_moisture_one (sqrt : K → K) (rand : Nat → Nat → K) (gridSize : Nat)
    (events : List Event) :
    ∀ cell ∈ (run sqrt rand gridSize events).cells,
      ((run sqrt rand gridSize events).heap cell).type = CellType.water →
      ((run sqrt rand gridSize events).heap cell).moisture = 1 :=
  fun cell _ hw => waterOk_run sqrt rand gridSize events cell hw

/-- Witness of C2: a grid of one cell whose random draw 1 makes it water. -/
theorem water_cells_have_moisture_one_witness :
    0 ∈ (run Real.sqrt (fun _ _ => (1 : ℝ)) 1 []).cells ∧
    ((run Real.sqrt (fun _ _ => (1 : ℝ)) 1 []).heap 0).type = CellType.water ∧
    ((run Real.sqrt (fun _ _ => (1 : ℝ)) 1 []).heap 0).moisture = 1 := by
  have h9 : ¬ ((1 : ℝ) < 0.9) := by norm_num
  have hrun : run Real.sqrt (fun _ _ => (1 : ℝ)) 1 [] =
      FarmSimulator.new Real.sqrt (fun _ _ => (1 : ℝ)) 1 := rfl
  obtain ⟨n1, -, -, n4⟩ := new_spec Real.sqrt (fun _ _ => (1 : ℝ)) 1
  have hmem : 0 ∈ (run Real.sqrt (fun _ _ => (1 : ℝ)) 1 []).cells := by
    rw [hrun, n1]
    exact List.mem_range.mpr (by norm_num)
  have hty : ((run Real.sqrt (fun _ _ => (1 : ℝ)) 1 []).heap 0).type = CellType.water := by
    rw [hrun, n4 0 (by norm_num), if_neg h9]
  exact ⟨hmem, hty,
    water_cells_have_moisture_one Real.sqrt (fun _ _ => (1 : ℝ)) 1 [] 0 hmem hty⟩

end WaterInvariantClaims

section TickClaims

variable {K : Type} [LinearOrderedField K]

open FarmSimulator

/-- C3: the moisture that `updateMoisture` sets on a land cell lies in [0,1]
for every list of water cells; consequently after `updateMoistureLevels` every
land cell of the grid has moisture in [0,1]. -/
theorem moisture_in_unit_interval (c : Cell ℝ) (ws : List (Cell ℝ)) (s : FarmSimulator ℝ) :
    (c.type = CellType.land →
      0 ≤ (c.updateMoisture Real.sqrt ws).moisture ∧
      (c.updateMoisture Real.sqrt ws).moisture ≤ 1) ∧
    (∀ cell ∈ (s.updateMoistureLevels Real.sqrt).cells,
      ((s.updateMoistureLevels Real.sqrt).heap cell).type = CellType.land →
      0 ≤ ((s.updateMoistureLevels Real.sqrt).heap cell).moisture ∧
      ((s.updateMoistureLevels Real.sqrt).heap cell).moisture ≤ 1) := by
  refine ⟨fun _ => ⟨updateMoisture_moisture_nonneg _ c ws, updateMoisture_moisture_le_one c ws⟩,
    ?_⟩
  intro cell hmem hland
  rw [(sameArrays_updateMoistureLevels Real.sqrt s).2.2.1] at hmem
  rw [(sameButMoisture_updateMoistureLevels Real.sqrt s cell).1] at hland
  rw [updateMoistureLevels_heap, if_pos ⟨hmem, hland⟩]
  exact ⟨updateMoisture_moisture_nonneg _ _ _, updateMoisture_moisture_le_one _ _⟩

/-- Witness of C3: a land cell at (3,0) with a water cell at (0,0), and the land
cell of a grid of one cell after a manual moisture of 7. -/
theorem moisture_in_unit_interval_witness :
    ((LandCell.new (3 : ℝ) 0).type = CellType.land ∧
      0 ≤ ((LandCell.new (3 : ℝ) 0).updateMoisture Real.sqrt [WaterCell.new 0 0]).moisture ∧
      ((LandCell.new (3 : ℝ) 0).updateMoisture Real.sqrt [WaterCell.new 0 0]).moisture ≤ 1) ∧
    (0 ∈ (((FarmSimulator.new Real.sqrt (fun _ _ => (0 : ℝ)) 1).setCell 0
        { LandCell.new (0 : ℝ) 0 with moisture := 7 }).updateMoistureLevels Real.sqrt).cells ∧
      ((((FarmSimulator.new Real.sqrt (fun _ _ => (0 : ℝ)) 1).setCell 0
        { LandCell.new (0 : ℝ) 0 with moisture := 7 }).updateMoistureLevels Real.sqrt).heap
          0).type = CellType.land ∧
      0 ≤ ((((FarmSimulator.new Real.sqrt (fun _ _ => (0 : ℝ)) 1).setCell 0
        { LandCell.new (0 : ℝ) 0 with moisture := 7 }).updateMoistureLevels Real.sqrt).heap
          0).moisture ∧
      ((((FarmSimulator.new Real.sqrt (fun _ _ => (0 : ℝ)) 1).setCell 0
        { LandCell.new (0 : ℝ) 0 with moisture := 7 }).updateMoistureLevels Real.sqrt).heap
          0).moisture ≤ 1) := by
  obtain ⟨n1, -, -, -⟩ := new_spec Real.sqrt (fun _ _ => (0 : ℝ)) 1
  have hmem : 0 ∈ (((FarmSimulator.new Real.sqrt (fun _ _ => (0 : ℝ)) 1).setCell 0
      { LandCell.new (0 : ℝ) 0 with moisture := 7 }).updateMoistureLevels Real.sqrt).cells := by
    rw [(sameArrays_updateMoistureLevels Real.sqrt _).2.2.1]
    show 0 ∈ (FarmSimulator.new Real.sqrt (fun _ _ => (0 : ℝ)) 1).cells
    rw [n1]
    exact List.mem_range.mpr (by norm_num)
  have hty : ((((FarmSimulator.new Real.sqrt (fun _ _ => (0 : ℝ)) 1).setCell 0
      { LandCell.new (0 : ℝ) 0 with moisture := 7 }).updateMoistureLevels Real.sqrt).heap
        0).type = CellType.land := by
    rw [(sameButMoisture_updateMoistureLevels Real.sqrt _ 0).1, setCell_heap_same]
    rfl
  have h := moisture_in_unit_interval (LandCell.new (3 : ℝ) 0) [WaterCell.new 0 0]
    ((FarmSimulator.new Real.sqrt (fun _ _ => (0 : ℝ)) 1).setCell 0
      { LandCell.new (0 : ℝ) 0 with moisture := 7 })
  exact ⟨⟨rfl, h.1 rfl⟩, hmem, hty, h.2 0 hmem hty⟩

/-- C6: dead is absorbing: `updateGrowth` returns a dead plant unchanged for
every moisture, hence so does every sequence of `updateGrowth` calls, and a dead
plant held by a cell object is still that cell's plant, unchanged, after any
number of ticks. -/
theorem dead_is_absorbing (p : Plant K) (hdead : p.isAlive = false) :
    (∀ m : K, p.updateGrowth m = p) ∧
    (∀ ms : List K, ms.foldl Plant.updateGrowth p = p) ∧
    (∀ (sqrt : K → K) (s : FarmSimulator K) (cell n : Nat),
      (s.heap cell).plant = some p →
      (((FarmSimulator.growthCycle sqrt)^[n] s).heap cell).plant = some p) := by
  refine ⟨fun m => updateGrowth_of_dead p m hdead,
    fun ms => foldl_updateGrowth_of_dead p ms hdead, ?_⟩
  intro sqrt s cell n hp
  induction n with
  | zero => exact hp
  | succ n ih =>
    rw [Function.iterate_succ_apply']
    exact growthCycle_dead_plant sqrt _ cell p ih hdead

/-- Witness of C6: a Potato that died at growth stage 0.05, held by the cell of a
grid of one cell, through three ticks. -/
theorem dead_is_absorbing_witness :
    ((Potato.new : Plant ℝ).updateGrowth 0.4).updateGrowth 0.9 =
      { (Potato.new : Plant ℝ).updateGrowth 0.4 with isAlive := false } ∧
    (({ (Potato.new : Plant ℝ).updateGrowth 0.4 with isAlive := false } : Plant ℝ).updateGrowth
        0.5 = { (Potato.new : Plant ℝ).updateGrowth 0.4 with isAlive := false }) ∧
    ((((FarmSimulator.growthCycle Real.sqrt)^[3]
        ((FarmSimulator.new Real.sqrt (fun _ _ => (0 : ℝ)) 1).setCell 0
          { LandCell.new (0 : ℝ) 0 with
            plant := some { (Potato.new : Plant ℝ).updateGrowth 0.4 with isAlive := false } })).heap
        0).plant = some { (Potato.new : Plant ℝ).updateGrowth 0.4 with isAlive := false }) := by
  have h := dead_is_absorbing
    ({ (Potato.new : Plant ℝ).updateGrowth 0.4 with isAlive := false } : Plant ℝ) rfl
  refine ⟨?_, h.1 0.5, h.2.2 Real.sqrt _ 0 3 ?_⟩
  · have ha : ((Potato.new : Plant ℝ).updateGrowth 0.4).isAlive = true := by
      rw [updateGrowth_in_band _ _ rfl (by simp only [Potato.new, Plant.new]; norm_num)]
      rfl
    apply updateGrowth_out_of_band _ _ ha
    rw [updateGrowth_in_band _ _ rfl (by simp only [Potato.new, Plant.new]; norm_num)]
    simp only [Potato.new, Plant.new]
    norm_num
  · rw [setCell_heap_same]

end TickClaims

section GridClaims

variable {K : Type} [LinearOrderedField K]

open FarmSimulator

/-- C8: tick order (one-tick lag).  In every state reached from construction,
one tick gives each grid cell that holds a living plant the plant obtained by
`updateGrowth` at the moisture the cell stored before the tick, and gives each
land cell of the grid the moisture recomputed from the water list; so a living
plant on a land cell whose stored moisture is outside its tolerance band is
dead after the tick, with its growth stage kept, whatever the recomputed
moisture is. -/
theorem tick_grows_on_stored_moisture (sqrt : K → K) (rand : Nat → Nat → K) (gridSize : Nat)
    (events : List Event) (cell : Nat) (p : Plant K)
    (hcell : cell ∈ (run sqrt rand gridSize events).cells)
    (hplant : ((run sqrt rand gridSize events).heap cell).plant = some p)
    (halive : p.isAlive = true) :
    (((run sqrt rand gridSize events).growthCycle sqrt).heap cell).plant =
      some (p.updateGrowth ((run sqrt rand gridSize events).heap cell).moisture) ∧
    (((run sqrt rand gridSize events).heap cell).type = CellType.land →
      (((run sqrt rand gridSize events).growthCycle sqrt).heap cell).moisture =
        (((run sqrt rand gridSize events).heap cell).updateMoisture sqrt
          ((run sqrt rand gridSize events).waterCells.map
            (run sqrt rand gridSize events).heap)).moisture) ∧
    (¬ (p.minMoisture ≤ ((run sqrt rand gridSize events).heap cell).moisture ∧
        ((run sqrt rand gridSize events).heap cell).moisture ≤ p.maxMoisture) →
      (((run sqrt rand gridSize events).growthCycle sqrt).heap cell).plant =
        some { p with isAlive := false }) := by
  have hnd := (gridInv_run sqrt rand gridSize events).cells_nodup
  have h1 := growthCycle_plant sqrt _ cell p hnd hcell hplant halive
  refine ⟨h1, fun hl => growthCycle_moisture sqrt _ cell hcell hl, fun hb => ?_⟩
  rw [h1, updateGrowth_out_of_band p _ halive hb]

/-- Witness of C8: a grid of side 2 with water at (1,1).  The land cell (1,0) has
distance-based moisture 0.8; two shovel clicks lower its stored moisture to 0.6
and a Marsh Plant, band [0.7, 1.0], is planted.  The next tick kills the plant
and restores the moisture 0.8, which is inside the band. -/
theorem tick_grows_on_stored_moisture_witness :
    1 ∈ (run Real.sqrt (fun x y => if x = 1 ∧ y = 1 then (1 : ℝ) else 0) 2
      [Event.selectTool Tool.shovel, Event.click 1, Event.click 1,
       Event.selectTool Tool.marshSeeds, Event.click 1]).cells ∧
    (run Real.sqrt (fun x y => if x = 1 ∧ y = 1 then (1 : ℝ) else 0) 2
      [Event.selectTool Tool.shovel, Event.click 1, Event.click 1,
       Event.selectTool Tool.marshSeeds, Event.click 1]).heap 1 =
      { type := CellType.land, x := 1, y := 0, moisture := 0.6,
        plant := some MarshPlant.new } ∧
    (((run Real.sqrt (fun x y => if x = 1 ∧ y = 1 then (1 : ℝ) else 0) 2
      [Event.selectTool Tool.shovel, Event.click 1, Event.click 1,
       Event.selectTool Tool.marshSeeds, Event.click 1]).growthCycle Real.sqrt).heap 1).plant =
      some { (MarshPlant.new : Plant ℝ) with isAlive := false } ∧
    (((run Real.sqrt (fun x y => if x = 1 ∧ y = 1 then (1 : ℝ) else 0) 2
      [Event.selectTool Tool.shovel, Event.click 1, Event.click 1,
       Event.selectTool Tool.marshSeeds, Event.click 1]).growthCycle Real.sqrt).heap 1).moisture =
      0.8 := by
  have hmem := lag_scenario_cells
  have hwater := lag_scenario_water
  have hheap := lag_scenario_heap
  have h := tick_grows_on_stored_moisture Real.sqrt
    (fun x y => if x = 1 ∧ y = 1 then (1 : ℝ) else 0) 2
    [Event.selectTool Tool.shovel, Event.click 1, Event.click 1,
     Event.selectTool Tool.marshSeeds, Event.click 1] 1 MarshPlant.new hmem
    (by rw [hheap]) rfl
  refine ⟨hmem, hheap, ?_, ?_⟩
  · apply h.2.2
    rw [hheap]
    simp only [MarshPlant.new, Plant.new]
    norm_num
  · rw [h.2.1 (by rw [hheap]), hheap, hwater, updateMoisture_land_moisture _ _ _ rfl]
    simp only [contribution, WaterCell.new, Cell.new, List.foldl]
    norm_num

/-- C9 (defect of the code): bucket is not a toggle at the click level.  On the
default grid of side 10 with every cell drawn as land, the cell stored at index
0 is land after construction, water after one bucket click on cell element 0,
and still water after a second bucket click on it. -/
theorem bucket_click_twice_stays_water :
    (run Real.sqrt (fun _ _ => (0 : ℝ)) 10 []).kindAt 0 = some CellType.land ∧
    (run Real.sqrt (fun _ _ => (0 : ℝ)) 10
      [Event.selectTool Tool.bucket, Event.click 0]).kindAt 0 = some CellType.water ∧
    (run Real.sqrt (fun _ _ => (0 : ℝ)) 10
      [Event.selectTool Tool.bucket, Event.click 0, Event.click 0]).kindAt 0 =
        some CellType.water := by
  have h0 : (0 : ℝ) < 0.9 := by norm_num
  have h := bucket_twice_from_new Real.sqrt (fun _ _ => (0 : ℝ)) 10 0 (by norm_num)
  simp only [h0, if_true] at h
  exact h

/-- C10: in every state reached from construction by tool selections, cell
clicks and ticks, a coordinate (x, y) occurs among the entries of `waterCells`
if and only if the grid stores a cell with these coordinates whose type is
'water'; and the grid stores at most one cell with given coordinates. -/
theorem waterCells_consistent_with_grid (sqrt : K → K) (rand : Nat → Nat → K)
    (gridSize : Nat) (events : List Event) (x y : K) :
    ((∃ w ∈ (run sqrt rand gridSize events).waterCells,
        ((run sqrt rand gridSize events).heap w).x = x ∧
        ((run sqrt rand gridSize events).heap w).y = y) ↔
      (∃ cell ∈ (run sqrt rand gridSize events).cells,
        ((run sqrt rand gridSize events).heap cell).x = x ∧
        ((run sqrt rand gridSize events).heap cell).y = y ∧
        ((run sqrt rand gridSize events).heap cell).type = CellType.water)) ∧
    (∀ c ∈ (run sqrt rand gridSize events).cells, ∀ d ∈ (run sqrt rand gridSize events).cells,
      ((run sqrt rand gridSize events).heap c).x = ((run sqrt rand gridSize events).heap d).x →
      ((run sqrt rand gridSize events).heap c).y = ((run sqrt rand gridSize events).heap d).y →
      c = d) := by
  have h := gridInv_run sqrt rand gridSize events
  refine ⟨waterCells_consistent_of_gridInv _ h x y, ?_⟩
  intro c hc d hd hx hy
  apply h.coords_inj_cells c hc d hd
  simp only [FarmSimulator.coordsAt, hx, hy]

/-- Witness of C10: in the grid of side 2 whose cell (1,1) was drawn as water,
after a bucket click on cell element 0, the coordinate (0,0) is in `waterCells`. -/
theorem waterCells_consistent_with_grid_witness :
    (∃ cell ∈ (run Real.sqrt (fun x y => if x = 1 ∧ y = 1 then (1 : ℝ) else 0) 2
        [Event.selectTool Tool.bucket, Event.click 0]).cells,
      ((run Real.sqrt (fun x y => if x = 1 ∧ y = 1 then (1 : ℝ) else 0) 2
        [Event.selectTool Tool.bucket, Event.click 0]).heap cell).x = 0 ∧
      ((run Real.sqrt (fun x y => if x = 1 ∧ y = 1 then (1 : ℝ) else 0) 2
        [Event.selectTool Tool.bucket, Event.click 0]).heap cell).y = 0 ∧
      ((run Real.sqrt (fun x y => if x = 1 ∧ y = 1 then (1 : ℝ) else 0) 2
        [Event.selectTool Tool.bucket, Event.click 0]).heap cell).type = CellType.water) ∧
    (∃ w ∈ (run Real.sqrt (fun x y => if x = 1 ∧ y = 1 then (1 : ℝ) else 0) 2
        [Event.selectTool Tool.bucket, Event.click 0]).waterCells,
      ((run Real.sqrt (fun x y => if x = 1 ∧ y = 1 then (1 : ℝ) else 0) 2
        [Event.selectTool Tool.bucket, Event.click 0]).heap w).x = 0 ∧
      ((run Real.sqrt (fun x y => if x = 1 ∧ y = 1 then (1 : ℝ) else 0) 2
        [Event.selectTool Tool.bucket, Event.click 0]).heap w).y = 0) :=
  ⟨bucket_scenario_grid,
    (waterCells_consistent_with_grid Real.sqrt
      (fun x y => if x = 1 ∧ y = 1 then (1 : ℝ) else 0) 2
      [Event.selectTool Tool.bucket, Event.click 0] 0 0).1.mpr bucket_scenario_grid⟩

end GridClaims

/-! ## Claims about the tools -/

section ToolClaims

variable {K : Type} [LinearOrderedField K]

open FarmSimulator

/-- C13: `useShovel` on a land cell removes the occupant and keeps the moisture
when the cell has a plant, living or dead; when it has none the moisture becomes
`max(0, moisture - 0.1)` and the cell stays unoccupied.  In both cases the kind
and the coordinates of the cell, every other cell object, the grid, `waterCells`
and the selected tool are unchanged. -/
theorem useShovel_on_land (s : FarmSimulator K) (cell : Nat)
    (hland : (s.heap cell).type = CellType.land) :
    (∀ p, (s.heap cell).plant = some p →
      (s.useShovel cell).heap cell = { s.heap cell with plant := none }) ∧
    ((s.heap cell).plant = none →
      (s.useShovel cell).heap cell =
        { s.heap cell with moisture := max 0 ((s.heap cell).moisture - 0.1) }) ∧
    (∀ r, r ≠ cell → (s.useShovel cell).heap r = s.heap r) ∧
    (s.useShovel cell).cells = s.cells ∧
    (s.useShovel cell).waterCells = s.waterCells ∧
    (s.useShovel cell).listeners = s.listeners ∧
    (s.useShovel cell).selectedTool = s.selectedTool ∧
    (s.useShovel cell).gridSize = s.gridSize := by
  have hnw : ¬ (s.heap cell).type = CellType.water := by
    rw [hland]
    exact fun e => by cases e
  refine ⟨?_, ?_, ?_, ?_, ?_, ?_, ?_, ?_⟩
  · intro p hp
    simp only [FarmSimulator.useShovel, hnw, if_false, hp, setCell_heap_same]
  · intro hp
    simp only [FarmSimulator.useShovel, hnw, if_false, hp, setCell_heap_same]
  · intro r hr
    unfold FarmSimulator.useShovel
    rw [if_neg hnw]
    split
    · exact setCell_heap_ne _ _ _ _ hr
    · exact setCell_heap_ne _ _ _ _ hr
  all_goals
    unfold FarmSimulator.useShovel
    rw [if_neg hnw]
    split <;> rfl

/-- Witness of C13: an unoccupied land cell with moisture 0.5 ends at 0.4, one
with moisture 0.05 ends at 0, and a land cell holding a Potato loses it and
keeps its moisture 0.5. -/
theorem useShovel_on_land_witness :
    ((((FarmSimulator.empty 1 : FarmSimulator ℚ).setCell 0
        { LandCell.new (0 : ℚ) 0 with moisture := 0.5 }).useShovel 0).heap 0 =
      { LandCell.new (0 : ℚ) 0 with moisture := 0.4 }) ∧
    ((((FarmSimulator.empty 1 : FarmSimulator ℚ).setCell 0
        { LandCell.new (0 : ℚ) 0 with moisture := 0.05 }).useShovel 0).heap 0 =
      { LandCell.new (0 : ℚ) 0 with moisture := 0 }) ∧
    ((((FarmSimulator.empty 1 : FarmSimulator ℚ).setCell 0
        { LandCell.new (0 : ℚ) 0 with moisture := 0.5, plant := some Potato.new }).useShovel
          0).heap 0 =
      { LandCell.new (0 : ℚ) 0 with moisture := 0.5 }) := by
  refine ⟨?_, ?_, ?_⟩
  · rw [(useShovel_on_land ((FarmSimulator.empty 1 : FarmSimulator ℚ).setCell 0
      { LandCell.new (0 : ℚ) 0 with moisture := 0.5 }) 0
      (by rw [setCell_heap_same]; rfl)).2.1 (by rw [setCell_heap_same]; rfl)]
    simp only [setCell_heap_same, LandCell.new, Cell.new, Cell.mk.injEq, true_and, and_true]
    norm_num
  · rw [(useShovel_on_land ((FarmSimulator.empty 1 : FarmSimulator ℚ).setCell 0
      { LandCell.new (0 : ℚ) 0 with moisture := 0.05 }) 0
      (by rw [setCell_heap_same]; rfl)).2.1 (by rw [setCell_heap_same]; rfl)]
    simp only [setCell_heap_same, LandCell.new, Cell.new, Cell.mk.injEq, true_and, and_true]
    norm_num
  · rw [(useShovel_on_land ((FarmSimulator.empty 1 : FarmSimulator ℚ).setCell 0
      { LandCell.new (0 : ℚ) 0 with moisture := 0.5, plant := some Potato.new }) 0
      (by rw [setCell_heap_same]; rfl)).1 Potato.new (by rw [setCell_heap_same])]
    simp only [setCell_heap_same, LandCell.new, Cell.new]

/-- C14: `plantSeed` on a land cell with no occupant attaches the given plant and
changes nothing else; each seed tool passes a new plant of its species, which
has growth stage 0, is alive and has the tolerance band of the species: Marsh
Plant [0.7, 1.0], Potato [0.3, 0.8], Cactus [0.0, 0.4]. -/
theorem plantSeed_on_empty_land (sqrt : K → K) (s : FarmSimulator K) (cell : Nat)
    (hland : (s.heap cell).type = CellType.land) (hempty : (s.heap cell).plant = none) :
    (∀ plant : Plant K,
      (s.plantSeed cell plant).heap cell = { s.heap cell with plant := some plant } ∧
      (∀ r, r ≠ cell → (s.plantSeed cell plant).heap r = s.heap r) ∧
      (s.plantSeed cell plant).cells = s.cells ∧
      (s.plantSeed cell plant).waterCells = s.waterCells ∧
      (s.plantSeed cell plant).listeners = s.listeners ∧
      (s.plantSeed cell plant).selectedTool = s.selectedTool ∧
      (s.plantSeed cell plant).gridSize = s.gridSize) ∧
    (s.selectedTool = Tool.marshSeeds →
      s.handleCellClick sqrt cell = s.plantSeed cell MarshPlant.new) ∧
    (s.selectedTool = Tool.potatoSeeds →
      s.handleCellClick sqrt cell = s.plantSeed cell Potato.new) ∧
    (s.selectedTool = Tool.cactusSeeds →
      s.handleCellClick sqrt cell = s.plantSeed cell Cactus.new) ∧
    ((MarshPlant.new : Plant K).growthStage = 0 ∧ (MarshPlant.new : Plant K).isAlive = true ∧
      (MarshPlant.new : Plant K).minMoisture = 0.7 ∧
      (MarshPlant.new : Plant K).maxMoisture = 1.0) ∧
    ((Potato.new : Plant K).growthStage = 0 ∧ (Potato.new : Plant K).isAlive = true ∧
      (Potato.new : Plant K).minMoisture = 0.3 ∧ (Potato.new : Plant K).maxMoisture = 0.8) ∧
    ((Cactus.new : Plant K).growthStage = 0 ∧ (Cactus.new : Plant K).isAlive = true ∧
      (Cactus.new : Plant K).minMoisture = 0.0 ∧ (Cactus.new : Plant K).maxMoisture = 0.4) := by
  have hcond : ¬ ((s.heap cell).type ≠ CellType.land ∨ (s.heap cell).plant.isSome = true) := by
    rw [hland, hempty]
    simp
  refine ⟨?_, ?_, ?_, ?_, ⟨rfl, rfl, rfl, rfl⟩, ⟨rfl, rfl, rfl, rfl⟩, ⟨rfl, rfl, rfl, rfl⟩⟩
  · intro plant
    unfold FarmSimulator.plantSeed
    rw [if_neg hcond]
    exact ⟨setCell_heap_same _ _ _, fun r hr => setCell_heap_ne _ _ _ _ hr, rfl, rfl, rfl, rfl,
      rfl⟩
  · intro ht
    simp only [FarmSimulator.handleCellClick, ht]
  · intro ht
    simp only [FarmSimulator.handleCellClick, ht]
  · intro ht
    simp only [FarmSimulator.handleCellClick, ht]

/-- Witness of C14: the Potato seed tool on an empty land cell with moisture 0.5. -/
theorem plantSeed_on_empty_land_witness :
    (({ (FarmSimulator.empty 1 : FarmSimulator ℝ) with
        selectedTool := Tool.potatoSeeds }.setCell 0
        { LandCell.new (0 : ℝ) 0 with moisture := 0.5 }).handleCellClick Real.sqrt 0).heap 0 =
      { LandCell.new (0 : ℝ) 0 with moisture := 0.5, plant := some Potato.new } := by
  have h := plantSeed_on_empty_land Real.sqrt
    ({ (FarmSimulator.empty 1 : FarmSimulator ℝ) with
        selectedTool := Tool.potatoSeeds }.setCell 0
        { LandCell.new (0 : ℝ) 0 with moisture := 0.5 }) 0
    (by rw [setCell_heap_same]; rfl) (by rw [setCell_heap_same]; rfl)
  rw [h.2.2.1 rfl, (h.1 Potato.new).1, setCell_heap_same]

/-- C15: inapplicable actions are no-ops: a click with the Cursor tool, on any
cell element or cell object, `useShovel` on a water cell, `plantSeed` of any
plant on a water cell and `plantSeed` on a land cell that already has an
occupant, living or dead, each return the state unchanged. -/
theorem inapplicable_actions_are_noops (sqrt : K → K) (s : FarmSimulator K) (cell : Nat)
    (plant : Plant K) :
    (s.selectedTool = Tool.cursor →
      s.handleCellClick sqrt cell = s ∧ ∀ i, s.step sqrt (Event.click i) = s) ∧
    ((s.heap cell).type = CellType.water → s.useShovel cell = s) ∧
    ((s.heap cell).type = CellType.water → s.plantSeed cell plant = s) ∧
    ((s.heap cell).type = CellType.land → ∀ p, (s.heap cell).plant = some p →
      s.plantSeed cell plant = s) := by
  refine ⟨?_, ?_, ?_, ?_⟩
  · intro ht
    have h1 : ∀ c, s.handleCellClick sqrt c = s := by
      intro c
      simp only [FarmSimulator.handleCellClick, ht]
    refine ⟨h1 cell, fun i => ?_⟩
    simp only [FarmSimulator.step]
    split
    · exact h1 _
    · rfl
  · intro hw
    simp only [FarmSimulator.useShovel, hw, if_true]
  · intro hw
    unfold FarmSimulator.plantSeed
    rw [if_pos]
    left
    rw [hw]
    exact fun e => by cases e
  · intro _ p hp
    unfold FarmSimulator.plantSeed
    rw [if_pos]
    right
    rw [hp]
    rfl

/-- Witness of C15: in the one-cell grid whose cell was drawn as water, the
shovel and a Potato seed leave the state unchanged; so does the cursor. -/
theorem inapplicable_actions_are_noops_witness :
    (FarmSimulator.new Real.sqrt (fun _ _ => (1 : ℝ)) 1).selectedTool = Tool.cursor ∧
    ((FarmSimulator.new Real.sqrt (fun _ _ => (1 : ℝ)) 1).heap 0).type = CellType.water ∧
    (FarmSimulator.new Real.sqrt (fun _ _ => (1 : ℝ)) 1).step Real.sqrt (Event.click 0) =
      FarmSimulator.new Real.sqrt (fun _ _ => (1 : ℝ)) 1 ∧
    (FarmSimulator.new Real.sqrt (fun _ _ => (1 : ℝ)) 1).useShovel 0 =
      FarmSimulator.new Real.sqrt (fun _ _ => (1 : ℝ)) 1 ∧
    (FarmSimulator.new Real.sqrt (fun _ _ => (1 : ℝ)) 1).plantSeed 0 Potato.new =
      FarmSimulator.new Real.sqrt (fun _ _ => (1 : ℝ)) 1 := by
  have h9 : ¬ ((1 : ℝ) < 0.9) := by norm_num
  obtain ⟨-, -, n3, n4⟩ := new_spec Real.sqrt (fun _ _ => (1 : ℝ)) 1
  have hw : ((FarmSimulator.new Real.sqrt (fun _ _ => (1 : ℝ)) 1).heap 0).type =
      CellType.water := by
    rw [n4 0 (by norm_num), if_neg h9]
  have h := inapplicable_actions_are_noops Real.sqrt
    (FarmSimulator.new Real.sqrt (fun _ _ => (1 : ℝ)) 1) 0 Potato.new
  exact ⟨n3, hw, (h.1 n3).2 0, h.2.1 hw, h.2.2.1 hw⟩

end ToolClaims

/-! ## Claims about the presentation helpers -/

section PresentationClaims

variable {K : Type} [LinearOrderedField K]

/-- C17: `getSizeClass` depends on the growth stage only: it returns 'small'
exactly when `growthStage < 0.33`, 'medium' exactly when
`0.33 <= growthStage < 0.66` and 'large' exactly when `growthStage >= 0.66`. -/
theorem getSizeClass_spec (p : Plant K) :
    (p.getSizeClass = "small" ↔ p.growthStage < 0.33) ∧
    (p.getSizeClass = "medium" ↔ 0.33 ≤ p.growthStage ∧ p.growthStage < 0.66) ∧
    (p.getSizeClass = "large" ↔ 0.66 ≤ p.growthStage) := by
  have h12 : (0.33 : K) < 0.66 := by norm_num
  have e1 : ("medium" : String) ≠ "small" := by decide
  have e2 : ("large" : String) ≠ "small" := by decide
  have e3 : ("small" : String) ≠ "medium" := by decide
  have e4 : ("large" : String) ≠ "medium" := by decide
  have e5 : ("small" : String) ≠ "large" := by decide
  have e6 : ("medium" : String) ≠ "large" := by decide
  unfold Plant.getSizeClass
  by_cases h1 : p.growthStage < 0.33
  · rw [if_pos h1]
    refine ⟨⟨fun _ => h1, fun _ => rfl⟩, ⟨fun e => absurd e e3, fun h => absurd h1 (not_lt.mpr h.1)⟩,
      ⟨fun e => absurd e e5, fun h => absurd (lt_trans h1 h12) (not_lt.mpr h)⟩⟩
  · rw [if_neg h1]
    by_cases h2 : p.growthStage < 0.66
    · rw [if_pos h2]
      exact ⟨⟨fun e => absurd e e1, fun h => absurd h h1⟩,
        ⟨fun _ => ⟨not_lt.mp h1, h2⟩, fun _ => rfl⟩,
        ⟨fun e => absurd e e6, fun h => absurd h2 (not_lt.mpr h)⟩⟩
    · rw [if_neg h2]
      exact ⟨⟨fun e => absurd e e2, fun h => absurd h h1⟩,
        ⟨fun e => absurd e e4, fun h => absurd h.2 h2⟩,
        ⟨fun _ => not_lt.mp h2, fun _ => rfl⟩⟩

theorem mathRound_near [FloorRing K] (x : K) :
    x - 1 / 2 < ((Math.round x : Int) : K) ∧ ((Math.round x : Int) : K) ≤ x + 1 / 2 := by
  unfold Math.round
  have h : (0.5 : K) = 1 / 2 := by norm_num
  rw [h]
  constructor
  · have := Int.lt_floor_add_one (x + 1 / 2)
    linarith
  · exact Int.floor_le (x + 1 / 2)

theorem mathRound_bounds [FloorRing K] (x : K) (lo hi : Int)
    (h1 : (lo : K) ≤ x + 1 / 2) (h2 : x + 1 / 2 < (hi : K) + 1) :
    lo ≤ Math.round x ∧ Math.round x ≤ hi := by
  unfold Math.round
  have h : (0.5 : K) = 1 / 2 := by norm_num
  rw [h]
  constructor
  · exact Int.le_floor.mpr h1
  · have : Int.floor (x + 1 / 2) < hi + 1 := by
      rw [Int.floor_lt]
      push_cast
      exact h2
    omega

theorem mathRound_intCast [FloorRing K] (z : Int) : Math.round (z : K) = z := by
  have h := mathRound_bounds (z : K) z z (by linarith) (by linarith)
  omega

end PresentationClaims

/-! ## Claims about the moisture as a function of the water set -/

section WaterSetClaims

variable {K : Type} [LinearOrderedField K]

theorem contribution_congr (sqrt : K → K) (c d w v : Cell K) (hx : d.x = c.x) (hy : d.y = c.y)
    (hwx : v.x = w.x) (hwy : v.y = w.y) : contribution sqrt d v = contribution sqrt c w := by
  unfold contribution
  rw [hx, hy, hwx, hwy]

theorem updateMoisture_le_of_coords_subset (sqrt : K → K) (c : Cell K) (ws vs : List (Cell K))
    (hland : c.type = CellType.land)
    (hsub : ∀ w ∈ ws, ∃ v ∈ vs, v.x = w.x ∧ v.y = w.y) :
    (c.updateMoisture sqrt ws).moisture ≤ (c.updateMoisture sqrt vs).moisture := by
  rw [updateMoisture_land_moisture sqrt c ws hland, updateMoisture_land_moisture sqrt c vs hland]
  apply foldl_max_le_of_forall_le _ _ _ _ (foldl_max_init_le _ _ _)
  intro w hw
  obtain ⟨v, hv, hx, hy⟩ := hsub w hw
  rw [← contribution_congr sqrt c c w v rfl rfl hx hy]
  exact foldl_max_mem_le _ vs 0 v hv

/-- C19: the moisture set by `updateMoisture` on a land cell is monotone in the
set of water coordinates and depends on the list only through that set: if every
coordinate of `ws` occurs in `vs` the moisture against `vs` is at least the one
against `ws`; lists with the same coordinates give the same moisture, so do a
reordering of the list and the list with its entries repeated. -/
theorem updateMoisture_depends_on_coordinate_set (sqrt : K → K) (c : Cell K)
    (ws vs : List (Cell K)) (hland : c.type = CellType.land) :
    ((∀ w ∈ ws, ∃ v ∈ vs, v.x = w.x ∧ v.y = w.y) →
      (c.updateMoisture sqrt ws).moisture ≤ (c.updateMoisture sqrt vs).moisture) ∧
    ((∀ w ∈ ws, ∃ v ∈ vs, v.x = w.x ∧ v.y = w.y) →
      (∀ v ∈ vs, ∃ w ∈ ws, w.x = v.x ∧ w.y = v.y) →
      (c.updateMoisture sqrt ws).moisture = (c.updateMoisture sqrt vs).moisture) ∧
    (ws.Perm vs →
      (c.updateMoisture sqrt ws).moisture = (c.updateMoisture sqrt vs).moisture) ∧
    ((c.updateMoisture sqrt (ws ++ ws)).moisture = (c.updateMoisture sqrt ws).moisture) := by
  refine ⟨updateMoisture_le_of_coords_subset sqrt c ws vs hland, ?_, ?_, ?_⟩
  · intro h1 h2
    exact le_antisymm (updateMoisture_le_of_coords_subset sqrt c ws vs hland h1)
      (updateMoisture_le_of_coords_subset sqrt c vs ws hland h2)
  · intro hp
    exact le_antisymm
      (updateMoisture_le_of_coords_subset sqrt c ws vs hland
        (fun w hw => ⟨w, hp.subset hw, rfl, rfl⟩))
      (updateMoisture_le_of_coords_subset sqrt c vs ws hland
        (fun v hv => ⟨v, hp.symm.subset hv, rfl, rfl⟩))
  · exact le_antisymm
      (updateMoisture_le_of_coords_subset sqrt c (ws ++ ws) ws hland
        (fun w hw => ⟨w, (List.mem_append.mp hw).elim id id, rfl, rfl⟩))
      (updateMoisture_le_of_coords_subset sqrt c ws (ws ++ ws) hland
        (fun w hw => ⟨w, List.mem_append_left _ hw, rfl, rfl⟩))

/-- Witness of C19: for the land cell (3,0), adding the water cell (0,0) to the
list that holds the water cell (7,0) raises the moisture from 1/5 to 2/5. -/
theorem updateMoisture_depends_on_coordinate_set_witness :
    (LandCell.new (3 : ℝ) 0).type = CellType.land ∧
    (∀ w ∈ [WaterCell.new (7 : ℝ) 0],
      ∃ v ∈ [WaterCell.new (7 : ℝ) 0, WaterCell.new 0 0], v.x = w.x ∧ v.y = w.y) ∧
    ((LandCell.new (3 : ℝ) 0).updateMoisture Real.sqrt [WaterCell.new 7 0]).moisture ≤
      ((LandCell.new (3 : ℝ) 0).updateMoisture Real.sqrt
        [WaterCell.new 7 0, WaterCell.new 0 0]).moisture ∧
    ((LandCell.new (3 : ℝ) 0).updateMoisture Real.sqrt [WaterCell.new 7 0]).moisture = 1 / 5 ∧
    ((LandCell.new (3 : ℝ) 0).updateMoisture Real.sqrt
      [WaterCell.new 7 0, WaterCell.new 0 0]).moisture = 2 / 5 := by
  have hsub : ∀ w ∈ [WaterCell.new (7 : ℝ) 0],
      ∃ v ∈ [WaterCell.new (7 : ℝ) 0, WaterCell.new 0 0], v.x = w.x ∧ v.y = w.y :=
    fun w hw => ⟨w, by rw [List.mem_singleton.mp hw]; exact List.mem_cons_self _ _, rfl, rfl⟩
  have h3 : Real.sqrt ((3 : ℝ) ^ 2) = 3 := Real.sqrt_sq (by norm_num)
  have h4 : Real.sqrt ((4 : ℝ) ^ 2) = 4 := Real.sqrt_sq (by norm_num)
  have e4 : ((3 : ℝ) - 7) ^ 2 = 4 ^ 2 := by norm_num
  refine ⟨rfl, hsub,
    (updateMoisture_depends_on_coordinate_set Real.sqrt (LandCell.new (3 : ℝ) 0)
      [WaterCell.new 7 0] [WaterCell.new 7 0, WaterCell.new 0 0] rfl).1 hsub, ?_, ?_⟩
  · rw [updateMoisture_land_moisture _ _ _ rfl]
    simp only [contribution, LandCell.new, WaterCell.new, Cell.new, List.foldl, sub_zero, ne_eq,
      OfNat.ofNat_ne_zero, not_false_eq_true, zero_pow, add_zero, e4, h4]
    norm_num
  · rw [updateMoisture_land_moisture _ _ _ rfl]
    simp only [contribution, LandCell.new, WaterCell.new, Cell.new, List.foldl, sub_zero, ne_eq,
      OfNat.ofNat_ne_zero, not_false_eq_true, zero_pow, add_zero, e4, h4, h3]
    norm_num

end WaterSetClaims

/-! ## Lemmas on the recomputed moisture -/

section RecomputeLemmas

variable {K : Type} [LinearOrderedField K]

open FarmSimulator

theorem foldr_max_zero_nonneg (l : List K) : 0 ≤ l.foldr max 0 := by
  induction l with
  | nil => exact le_refl _
  | cons a l ih => exact le_trans ih (le_max_right _ _)

theorem foldl_max_eq_foldr {α : Type} (f : α → K) (l : List α) (a : K) (ha : 0 ≤ a) :
    l.foldl (fun m w => max m (f w)) a = max a ((l.map f).foldr max 0) := by
  induction l generalizing a with
  | nil => simp only [List.foldl_nil, List.map_nil, List.foldr_nil, max_eq_left ha]
  | cons w l ih =>
    rw [List.foldl_cons, ih _ (le_trans ha (le_max_left _ _)), List.map_cons, List.foldr_cons,
      max_assoc]

/-- The loop of `updateMoisture` computes the distance-based moisture of the
specification. -/
theorem updateMoisture_land_eq_distanceMoisture (sqrt : K → K) (c : Cell K)
    (ws : List (Cell K)) (h : c.type = CellType.land) :
    (c.updateMoisture sqrt ws).moisture = distanceMoisture sqrt c ws := by
  rw [updateMoisture_land_moisture sqrt c ws h, foldl_max_eq_foldr _ _ _ (le_refl _)]
  exact max_eq_right (foldr_max_zero_nonneg _)

theorem distanceMoisture_congr (sqrt : K → K) (c d : Cell K) (refs : List Nat)
    (h1 h2 : Nat → Cell K) (hx : d.x = c.x) (hy : d.y = c.y)
    (hh : ∀ r, (h2 r).x = (h1 r).x ∧ (h2 r).y = (h1 r).y) :
    distanceMoisture sqrt d (refs.map h2) = distanceMoisture sqrt c (refs.map h1) := by
  unfold distanceMoisture
  rw [List.map_map, List.map_map]
  congr 1
  apply List.map_congr_left
  intro r _
  exact contribution_congr sqrt c d (h1 r) (h2 r) hx hy (hh r).1 (hh r).2

/-- After `updateMoistureLevels`, from any state, every land cell of the grid
holds the distance-based moisture against the water list. -/
theorem updateMoistureLevels_recomputed (sqrt : K → K) (s : FarmSimulator K) (cell : Nat)
    (hm : cell ∈ (s.updateMoistureLevels sqrt).cells)
    (hl : ((s.updateMoistureLevels sqrt).heap cell).type = CellType.land) :
    ((s.updateMoistureLevels sqrt).heap cell).moisture =
      distanceMoisture sqrt ((s.updateMoistureLevels sqrt).heap cell)
        ((s.updateMoistureLevels sqrt).waterCells.map (s.updateMoistureLevels sqrt).heap) := by
  obtain ⟨-, -, a3, -, -, a6, -⟩ := sameArrays_updateMoistureLevels sqrt s
  have hsb := sameButMoisture_updateMoistureLevels sqrt s
  rw [a3] at hm
  rw [(hsb cell).1] at hl
  rw [a6, distanceMoisture_congr sqrt (s.heap cell) _ s.waterCells s.heap _ (hsb cell).2.1
    (hsb cell).2.2.1 (fun r => ⟨(hsb r).2.1, (hsb r).2.2.1⟩)]
  rw [updateMoistureLevels_heap, if_pos ⟨hm, hl⟩]
  exact updateMoisture_land_eq_distanceMoisture sqrt _ _ hl

theorem replaceCell_land (s : FarmSimulator K) (o : Nat)
    (h : (s.heap o).type = CellType.land) :
    (s.replaceCell o).heap s.next = WaterCell.new (s.heap o).x (s.heap o).y ∧
    (s.replaceCell o).waterCells = s.waterCells ++ [s.next] := by
  simp only [FarmSimulator.replaceCell, h, if_true, Function.update_same, and_self]

theorem grow_plant (c : Cell K) :
    c.grow.plant = c.plant.map (fun p => p.updateGrowth c.moisture) := by
  cases c with
  | mk ct cx cy cm cp =>
    cases cp with
    | none => rfl
    | some p =>
      cases ha : p.isAlive with
      | true => simp [Cell.grow, ha]
      | false => simp [Cell.grow, ha, updateGrowth_of_dead p cm ha]

/-- Plant of every cell object after one tick, when the grid holds distinct
objects. -/
theorem growthCycle_plant_map (sqrt : K → K) (s : FarmSimulator K) (hnd : s.cells.Nodup)
    (r : Nat) :
    ((s.growthCycle sqrt).heap r).plant =
      if r ∈ s.cells then (s.heap r).plant.map (fun p => p.updateGrowth (s.heap r).moisture)
      else (s.heap r).plant := by
  unfold FarmSimulator.growthCycle
  rw [(sameButMoisture_updateMoistureLevels sqrt s.growAll r).2.2.2, growAll_heap s hnd]
  split
  · exact grow_plant _
  · rfl

end RecomputeLemmas

/-! ## Claims about recomputation, the bucket on land, and dead plants -/

section RecomputeClaims

variable {K : Type} [LinearOrderedField K]

open FarmSimulator

/-- C12: recompute overwrites manual edits: in the state `t` after construction,
after a tick from any state `s`, or after `useBucket` from any state `s` on any
cell object, every land cell of the grid has the distance-based moisture, the
maximum over the current `waterCells` of `max(0, 1 - distance/5)` or 0 if there
are none, whatever moisture the shovel left in `s`. -/
theorem recompute_overwrites_manual_edits (sqrt : K → K) (rand : Nat → Nat → K)
    (gridSize : Nat) (s : FarmSimulator K) (clicked : Nat) (t : FarmSimulator K)
    (ht : t = FarmSimulator.new sqrt rand gridSize ∨ t = s.growthCycle sqrt ∨
      t = s.useBucket sqrt clicked) :
    ∀ cell ∈ t.cells, (t.heap cell).type = CellType.land →
      (t.heap cell).moisture = distanceMoisture sqrt (t.heap cell) (t.waterCells.map t.heap) := by
  intro cell hm hl
  rcases ht with rfl | rfl | rfl
  · exact updateMoistureLevels_recomputed sqrt _ cell hm hl
  · exact updateMoistureLevels_recomputed sqrt _ cell hm hl
  · exact updateMoistureLevels_recomputed sqrt _ cell hm hl

/-- Witness of C12: a land cell at distance 5/2 of the only water cell holds the
distance-based moisture 1/2; the shovel lowers it to 2/5 and the next tick puts
1/2 back. -/
theorem recompute_overwrites_manual_edits_witness :
    ((({ ((FarmSimulator.empty 2 : FarmSimulator ℝ).setCell 0
        { LandCell.new (5 / 2 : ℝ) 0 with moisture := 1 / 2 }).setCell 1 (WaterCell.new 0 0) with
      cells := [0, 1], waterCells := [1] } : FarmSimulator ℝ).useShovel 0).heap 0).moisture = 2 / 5 ∧
    0 ∈ ((({ ((FarmSimulator.empty 2 : FarmSimulator ℝ).setCell 0
        { LandCell.new (5 / 2 : ℝ) 0 with moisture := 1 / 2 }).setCell 1 (WaterCell.new 0 0) with
      cells := [0, 1], waterCells := [1] } : FarmSimulator ℝ).useShovel 0).growthCycle Real.sqrt).cells ∧
    (((({ ((FarmSimulator.empty 2 : FarmSimulator ℝ).setCell 0
        { LandCell.new (5 / 2 : ℝ) 0 with moisture := 1 / 2 }).setCell 1 (WaterCell.new 0 0) with
      cells := [0, 1], waterCells := [1] } : FarmSimulator ℝ).useShovel 0).growthCycle Real.sqrt).heap 0).type = CellType.land ∧
    (((({ ((FarmSimulator.empty 2 : FarmSimulator ℝ).setCell 0
        { LandCell.new (5 / 2 : ℝ) 0 with moisture := 1 / 2 }).setCell 1 (WaterCell.new 0 0) with
      cells := [0, 1], waterCells := [1] } : FarmSimulator ℝ).useShovel 0).growthCycle Real.sqrt).heap 0).moisture = 1 / 2 := by
  have h : Real.sqrt ((5 / 2 : ℝ) ^ 2) = 5 / 2 := Real.sqrt_sq (by norm_num)
  have hm : 0 ∈ ((({ ((FarmSimulator.empty 2 : FarmSimulator ℝ).setCell 0
        { LandCell.new (5 / 2 : ℝ) 0 with moisture := 1 / 2 }).setCell 1 (WaterCell.new 0 0) with
      cells := [0, 1], waterCells := [1] } : FarmSimulator ℝ).useShovel 0).growthCycle Real.sqrt).cells := by
    simp [growthCycle, growAll, growCell, updateMoistureLevels, updateMoistureCell, useShovel,
      setCell, LandCell.new, WaterCell.new, Cell.new, FarmSimulator.empty, Function.update,
      Cell.updateMoisture]
  have hl : (((({ ((FarmSimulator.empty 2 : FarmSimulator ℝ).setCell 0
        { LandCell.new (5 / 2 : ℝ) 0 with moisture := 1 / 2 }).setCell 1 (WaterCell.new 0 0) with
      cells := [0, 1], waterCells := [1] } : FarmSimulator ℝ).useShovel 0).growthCycle Real.sqrt).heap 0).type = CellType.land := by
    simp [growthCycle, growAll, growCell, updateMoistureLevels, updateMoistureCell, useShovel,
      setCell, LandCell.new, WaterCell.new, Cell.new, FarmSimulator.empty, Function.update,
      Cell.updateMoisture]
  refine ⟨?_, hm, hl, ?_⟩
  · simp [useShovel, setCell, LandCell.new, WaterCell.new, Cell.new, FarmSimulator.empty,
      Function.update]
    norm_num
  · rw [recompute_overwrites_manual_edits Real.sqrt (fun _ _ => 0) 2
      (({ ((FarmSimulator.empty 2 : FarmSimulator ℝ).setCell 0
        { LandCell.new (5 / 2 : ℝ) 0 with moisture := 1 / 2 }).setCell 1 (WaterCell.new 0 0) with
      cells := [0, 1], waterCells := [1] } : FarmSimulator ℝ).useShovel 0) 0 _ (Or.inr (Or.inl rfl)) 0 hm hl]
    simp [distanceMoisture, contribution, growthCycle, growAll, growCell, updateMoistureLevels,
      updateMoistureCell, useShovel, setCell, LandCell.new, WaterCell.new, Cell.new,
      FarmSimulator.empty, Function.update, Cell.updateMoisture, h]
    norm_num

end RecomputeClaims

section BucketAndDeadPlantClaims

variable {K : Type} [LinearOrderedField K]

open FarmSimulator

/-- C11: bucket on land.  In a state `s` reached from construction, let `cell`
be a land cell stored in the grid at index `i`.  After `useBucket` the grid
holds at index `i` a new water cell with the same coordinates, moisture 1 and no
occupant, which is the entry added to `waterCells`; every other index holds the
object it held, with its kind and occupant; and every land cell of the grid has
the distance-based moisture against the enlarged `waterCells`. -/
theorem useBucket_on_land (sqrt : K → K) (rand : Nat → Nat → K) (gridSize : Nat)
    (events : List Event) (s : FarmSimulator K) (i cell : Nat)
    (hs : s = run sqrt rand gridSize events) (hcell : s.cells[i]? = some cell)
    (hland : (s.heap cell).type = CellType.land) :
    (∃ d, (s.useBucket sqrt cell).cells[i]? = some d ∧
      (s.useBucket sqrt cell).heap d = WaterCell.new (s.heap cell).x (s.heap cell).y ∧
      (s.useBucket sqrt cell).waterCells = s.waterCells ++ [d]) ∧
    (s.useBucket sqrt cell).cells.length = s.cells.length ∧
    (∀ j c, j ≠ i → s.cells[j]? = some c →
      (s.useBucket sqrt cell).cells[j]? = some c ∧
      ((s.useBucket sqrt cell).heap c).type = (s.heap c).type ∧
      ((s.useBucket sqrt cell).heap c).plant = (s.heap c).plant) ∧
    (∀ c ∈ (s.useBucket sqrt cell).cells,
      ((s.useBucket sqrt cell).heap c).type = CellType.land →
      ((s.useBucket sqrt cell).heap c).moisture =
        distanceMoisture sqrt ((s.useBucket sqrt cell).heap c)
          ((s.useBucket sqrt cell).waterCells.map (s.useBucket sqrt cell).heap)) := by
  have hg : GridInv s := hs ▸ gridInv_run sqrt rand gridSize events
  have hidx : indexOf s.cells cell = some i := indexOf_of_getElem? _ _ _ hg.cells_nodup hcell
  obtain ⟨-, -, f3, -⟩ := useBucket_fields sqrt s cell
  rw [hidx] at f3
  simp only [assignAt] at f3
  obtain ⟨r1, r2⟩ := replaceCell_land s cell hland
  have hsb := sameButMoisture_updateMoistureLevels sqrt (s.replaceCell cell)
  have hsa := sameArrays_updateMoistureLevels sqrt (s.replaceCell cell)
  refine ⟨⟨s.next, ?_, ?_, ?_⟩, ?_, ?_, ?_⟩
  · rw [f3]
    exact List.getElem?_set_self (List.getElem?_eq_some.mp hcell).1
  · unfold FarmSimulator.useBucket
    rw [updateMoistureLevels_heap, if_neg, r1]
    rintro ⟨-, h⟩
    rw [r1] at h
    cases h
  · unfold FarmSimulator.useBucket
    rw [hsa.2.2.2.2.2.1, r2]
  · rw [f3, List.length_set]
  · intro j c hji hjc
    have hc : c ≠ s.next :=
      ne_of_lt (hg.cells_lt c (List.mem_iff_getElem?.mpr ⟨j, hjc⟩))
    refine ⟨?_, ?_, ?_⟩
    · rw [f3, List.getElem?_set_ne (Ne.symm hji)]
      exact hjc
    · unfold FarmSimulator.useBucket
      rw [(hsb c).1, replaceCell_heap_of_ne s cell c hc]
    · unfold FarmSimulator.useBucket
      rw [(hsb c).2.2.2, replaceCell_heap_of_ne s cell c hc]
  · intro c hc hl
    exact updateMoistureLevels_recomputed sqrt _ c hc hl

/-- Witness of C11: in the grid of side 2 whose cell (1,1) was drawn as water, the
bucket on the land cell stored at index 0. -/
theorem useBucket_on_land_witness :
    (run Real.sqrt (fun x y => if x = 1 ∧ y = 1 then (1 : ℝ) else 0) 2 []).cells[0]? = some 0 ∧
    ((run Real.sqrt (fun x y => if x = 1 ∧ y = 1 then (1 : ℝ) else 0) 2 []).heap 0).type =
      CellType.land ∧
    (∃ d, ((run Real.sqrt (fun x y => if x = 1 ∧ y = 1 then (1 : ℝ) else 0) 2 []).useBucket
        Real.sqrt 0).cells[0]? = some d ∧
      ((run Real.sqrt (fun x y => if x = 1 ∧ y = 1 then (1 : ℝ) else 0) 2 []).useBucket
        Real.sqrt 0).heap d =
        WaterCell.new
          ((run Real.sqrt (fun x y => if x = 1 ∧ y = 1 then (1 : ℝ) else 0) 2 []).heap 0).x
          ((run Real.sqrt (fun x y => if x = 1 ∧ y = 1 then (1 : ℝ) else 0) 2 []).heap 0).y ∧
      ((run Real.sqrt (fun x y => if x = 1 ∧ y = 1 then (1 : ℝ) else 0) 2 []).useBucket
        Real.sqrt 0).waterCells =
        (run Real.sqrt (fun x y => if x = 1 ∧ y = 1 then (1 : ℝ) else 0) 2 []).waterCells ++
          [d]) := by
  have h0 : (0 : ℝ) < 0.9 := by norm_num
  obtain ⟨n1, -, -, n4⟩ :=
    new_spec Real.sqrt (fun x y => if x = 1 ∧ y = 1 then (1 : ℝ) else 0) 2
  have hc : (run Real.sqrt (fun x y => if x = 1 ∧ y = 1 then (1 : ℝ) else 0) 2 []).cells[0]? =
      some 0 := by
    show (FarmSimulator.new Real.sqrt _ 2).cells[0]? = some 0
    rw [n1]
    exact List.getElem?_range (by norm_num)
  have hl : ((run Real.sqrt (fun x y => if x = 1 ∧ y = 1 then (1 : ℝ) else 0) 2 []).heap
      0).type = CellType.land := by
    show ((FarmSimulator.new Real.sqrt _ 2).heap 0).type = CellType.land
    rw [n4 0 (by norm_num)]
    simp [h0]
  exact ⟨hc, hl,
    (useBucket_on_land Real.sqrt (fun x y => if x = 1 ∧ y = 1 then (1 : ℝ) else 0) 2 [] _ 0 0
      rfl hc hl).1⟩

/-- C16: dead plants stay in the model.  In a state `s` reached from
construction, one tick leaves in every cell object the plant it held, advanced by
`updateGrowth` at the stored moisture when the object is in the grid: no occupant
is set to none or replaced.  A living plant of a grid cell whose stored moisture
is outside its band is that cell's occupant after the tick, with
`isAlive = false`, and is still so after any number of further ticks. -/
theorem dead_plants_stay (sqrt : K → K) (rand : Nat → Nat → K) (gridSize : Nat)
    (events : List Event) (s : FarmSimulator K) (hs : s = run sqrt rand gridSize events) :
    (∀ r, ((s.growthCycle sqrt).heap r).plant =
      if r ∈ s.cells then (s.heap r).plant.map (fun p => p.updateGrowth (s.heap r).moisture)
      else (s.heap r).plant) ∧
    (∀ r, ((s.growthCycle sqrt).heap r).plant = none ↔ (s.heap r).plant = none) ∧
    (∀ r ∈ s.cells, ∀ p, (s.heap r).plant = some p → p.isAlive = true →
      ¬ (p.minMoisture ≤ (s.heap r).moisture ∧ (s.heap r).moisture ≤ p.maxMoisture) →
      ∀ n : Nat, (((FarmSimulator.growthCycle sqrt)^[n] (s.growthCycle sqrt)).heap r).plant =
        some { p with isAlive := false }) := by
  have hg : GridInv s := hs ▸ gridInv_run sqrt rand gridSize events
  have h1 := growthCycle_plant_map sqrt s hg.cells_nodup
  refine ⟨h1, ?_, ?_⟩
  · intro r
    rw [h1 r]
    split
    · exact Option.map_eq_none'
    · exact Iff.rfl
  · intro r hr p hp ha hb n
    have hdead : ((s.growthCycle sqrt).heap r).plant = some { p with isAlive := false } := by
      rw [h1 r, if_pos hr, hp, Option.map_some', updateGrowth_out_of_band p _ ha hb]
    induction n with
    | zero => exact hdead
    | succ n ih =>
      rw [Function.iterate_succ_apply']
      exact growthCycle_dead_plant sqrt _ r _ ih rfl

/-- Witness of C16: the Marsh Plant of the scenario of the one-tick lag, planted
on a cell whose stored moisture is 0.6, is that cell's dead occupant after the
tick and after three further ticks. -/
theorem dead_plants_stay_witness :
    1 ∈ (run Real.sqrt (fun x y => if x = 1 ∧ y = 1 then (1 : ℝ) else 0) 2
      [Event.selectTool Tool.shovel, Event.click 1, Event.click 1,
       Event.selectTool Tool.marshSeeds, Event.click 1]).cells ∧
    ((run Real.sqrt (fun x y => if x = 1 ∧ y = 1 then (1 : ℝ) else 0) 2
      [Event.selectTool Tool.shovel, Event.click 1, Event.click 1,
       Event.selectTool Tool.marshSeeds, Event.click 1]).heap 1).plant =
      some MarshPlant.new ∧
    (((FarmSimulator.growthCycle Real.sqrt)^[3]
      ((run Real.sqrt (fun x y => if x = 1 ∧ y = 1 then (1 : ℝ) else 0) 2
        [Event.selectTool Tool.shovel, Event.click 1, Event.click 1,
         Event.selectTool Tool.marshSeeds, Event.click 1]).growthCycle Real.sqrt)).heap
        1).plant = some { (MarshPlant.new : Plant ℝ) with isAlive := false } := by
  have hheap := lag_scenario_heap
  have hp : ((run Real.sqrt (fun x y => if x = 1 ∧ y = 1 then (1 : ℝ) else 0) 2
      [Event.selectTool Tool.shovel, Event.click 1, Event.click 1,
       Event.selectTool Tool.marshSeeds, Event.click 1]).heap 1).plant =
      some MarshPlant.new := by
    rw [hheap]
  refine ⟨lag_scenario_cells, hp, ?_⟩
  apply (dead_plants_stay Real.sqrt (fun x y => if x = 1 ∧ y = 1 then (1 : ℝ) else 0) 2
    [Event.selectTool Tool.shovel, Event.click 1, Event.click 1,
     Event.selectTool Tool.marshSeeds, Event.click 1] _ rfl).2.2 1 lag_scenario_cells
    MarshPlant.new hp rfl
  rw [hheap]
  simp only [MarshPlant.new, Plant.new]
  norm_num

end BucketAndDeadPlantClaims

/-! ## Lemmas on rounding to binary64 -/

section Binary64Lemmas

open Binary64

theorem rne_floor_le (q : ℚ) : Int.floor q ≤ rne q := by
  unfold rne
  split
  · exact le_refl _
  · split
    · omega
    · split
      · exact le_refl _
      · omega

theorem rne_le_floor_succ (q : ℚ) : rne q ≤ Int.floor q + 1 := by
  unfold rne
  split
  · omega
  · split
    · exact le_refl _
    · split
      · omega
      · exact le_refl _

theorem rne_intCast (z : Int) : rne (z : ℚ) = z := by
  unfold rne
  rw [Int.floor_intCast]
  simp

theorem rne_mono {p q : ℚ} (h : p ≤ q) : rne p ≤ rne q := by
  have hf : Int.floor p ≤ Int.floor q := Int.floor_mono h
  rcases lt_or_eq_of_le hf with hlt | heq
  · exact le_trans (rne_le_floor_succ p) (le_trans (by omega) (rne_floor_le q))
  · unfold rne
    rw [heq]
    have hpq : p - (Int.floor q : ℚ) ≤ q - (Int.floor q : ℚ) := by linarith
    by_cases h1 : p - (Int.floor q : ℚ) < 1 / 2
    · rw [if_pos h1]
      split
      · exact le_refl _
      · split
        · omega
        · split
          · exact le_refl _
          · omega
    · rw [if_neg h1]
      have h1' : ¬ (q - (Int.floor q : ℚ) < 1 / 2) := by
        intro hq
        exact h1 (lt_of_le_of_lt hpq hq)
      rw [if_neg h1']
      by_cases h2 : 1 / 2 < p - (Int.floor q : ℚ)
      · rw [if_pos h2, if_pos (lt_of_lt_of_le h2 hpq)]
      · rw [if_neg h2]
        by_cases h3 : 1 / 2 < q - (Int.floor q : ℚ)
        · rw [if_pos h3]
          split <;> omega
        · rw [if_neg h3]

theorem rne_eval (q : ℚ) (z : Int) (h1 : (z : ℚ) - 1 / 2 < q) (h2 : q < (z : ℚ) + 1 / 2) :
    rne q = z := by
  unfold rne
  by_cases hq : (z : ℚ) ≤ q
  · have hf : Int.floor q = z := Int.floor_eq_iff.mpr ⟨hq, by linarith⟩
    rw [hf, if_pos (by linarith)]
  · have hf : Int.floor q = z - 1 :=
      Int.floor_eq_iff.mpr ⟨by push_cast; linarith, by push_cast; linarith⟩
    rw [hf, if_neg (by push_cast; linarith), if_pos (by push_cast; linarith)]
    omega

theorem rne_tie (q : ℚ) (f : Int) (h : q = (f : ℚ) + 1 / 2) :
    rne q = if f % 2 = 0 then f else f + 1 := by
  unfold rne
  have hf : Int.floor q = f := Int.floor_eq_iff.mpr ⟨by linarith, by linarith⟩
  rw [hf, if_neg (by linarith), if_neg (by linarith)]

theorem two_zpow_pos (e : Int) : (0 : ℚ) < 2 ^ e := zpow_pos (by norm_num) e

theorem log_bounds (x : ℚ) (hx : x ≠ 0) :
    (2 : ℚ) ^ Int.log 2 |x| ≤ |x| ∧ |x| < (2 : ℚ) ^ (Int.log 2 |x| + 1) := by
  have h1 := Int.zpow_log_le_self (b := 2) (by norm_num) (abs_pos.mpr hx)
  have h2 := Int.lt_zpow_succ_log_self (b := 2) (by norm_num) |x|
  simp only [Nat.cast_ofNat] at h1 h2
  exact ⟨h1, h2⟩

theorem log_eq_of_bounds (x : ℚ) (e : Int) (h1 : (2 : ℚ) ^ e ≤ |x|) (h2 : |x| < (2 : ℚ) ^ (e + 1)) :
    Int.log 2 |x| = e := by
  have hpos : 0 < |x| := lt_of_lt_of_le (two_zpow_pos e) h1
  have a1 := (Int.zpow_le_iff_le_log (b := 2) (by norm_num) (x := e) hpos).mp
    (by simpa only [Nat.cast_ofNat] using h1)
  have a2 := (Int.lt_zpow_iff_log_lt (b := 2) (by norm_num) (x := e + 1) hpos).mp
    (by simpa only [Nat.cast_ofNat] using h2)
  omega

theorem scale_mul (e : Int) : (2 : ℚ) ^ (52 : Int) * 2 ^ (e - 52) = 2 ^ e := by
  rw [← zpow_add₀ (by norm_num : (2 : ℚ) ≠ 0)]
  congr 1
  omega

theorem scale_mul_succ (e : Int) : (2 : ℚ) ^ (53 : Int) * 2 ^ (e - 52) = 2 ^ (e + 1) := by
  rw [← zpow_add₀ (by norm_num : (2 : ℚ) ≠ 0)]
  congr 1
  omega

/-- Evaluation of `nearest` at a concrete value: `k` scales the value into
`[2^52, 2^53)` and `z` is the rounded significand. -/
theorem nearest_eval (x : ℚ) (k : Nat) (z : Int) (h1 : (2 : ℚ) ^ 52 ≤ |x| * 2 ^ k)
    (h2 : |x| * 2 ^ k < (2 : ℚ) ^ 53) (hz : rne (x * 2 ^ k) = z) :
    nearest x = (z : ℚ) / 2 ^ k := by
  have hk : (0 : ℚ) < 2 ^ k := pow_pos (by norm_num) k
  have hx : x ≠ 0 := by
    rintro rfl
    simp at h1
    linarith [pow_pos (by norm_num : (0 : ℚ) < 2) 52]
  have hs : (2 : ℚ) ^ ((52 : Int) - k - 52) = (2 ^ k)⁻¹ := by
    have : (52 : Int) - k - 52 = -(k : Int) := by omega
    rw [this, zpow_neg, zpow_natCast]
  have he : Int.log 2 |x| = 52 - k := by
    apply log_eq_of_bounds
    · rw [← scale_mul (52 - k), hs]
      rw [← div_eq_mul_inv, div_le_iff₀ hk]
      exact_mod_cast h1
    · rw [← scale_mul_succ (52 - k), hs]
      rw [← div_eq_mul_inv, lt_div_iff₀ hk]
      exact_mod_cast h2
  unfold nearest
  rw [if_neg hx, he, hs, div_inv_eq_mul, hz, div_eq_mul_inv]

theorem nearest_zero : nearest 0 = 0 := by
  simp [nearest]

/-- A positive value rounds into the closed binade that holds it. -/
theorem nearest_pos_bounds (x : ℚ) (hx : 0 < x) :
    (2 : ℚ) ^ Int.log 2 |x| ≤ nearest x ∧ nearest x ≤ (2 : ℚ) ^ (Int.log 2 |x| + 1) := by
  obtain ⟨b1, b2⟩ := log_bounds x (ne_of_gt hx)
  rw [abs_of_pos hx] at b1 b2
  have hs := two_zpow_pos (Int.log 2 |x| - 52)
  unfold nearest
  rw [if_neg (ne_of_gt hx)]
  rw [abs_of_pos hx]
  constructor
  · have h : ((2 ^ 52 : Int) : ℚ) ≤ x / 2 ^ (Int.log 2 x - 52) := by
      rw [le_div_iff₀ (two_zpow_pos _)]
      push_cast
      have := scale_mul (Int.log 2 x)
      norm_num at this ⊢
      linarith
    have h' := rne_mono h
    rw [rne_intCast] at h'
    have h'' : ((2 ^ 52 : Int) : ℚ) ≤ (rne (x / 2 ^ (Int.log 2 x - 52)) : ℚ) := by exact_mod_cast h'
    calc (2 : ℚ) ^ Int.log 2 x = ((2 ^ 52 : Int) : ℚ) * 2 ^ (Int.log 2 x - 52) := by
          have := scale_mul (Int.log 2 x)
          push_cast
          norm_num at this ⊢
          linarith
      _ ≤ _ := mul_le_mul_of_nonneg_right h'' (le_of_lt (two_zpow_pos _))
  · have h : x / 2 ^ (Int.log 2 x - 52) ≤ ((2 ^ 53 : Int) : ℚ) := by
      rw [div_le_iff₀ (two_zpow_pos _)]
      push_cast
      have := scale_mul_succ (Int.log 2 x)
      norm_num at this ⊢
      linarith
    have h' := rne_mono h
    rw [rne_intCast] at h'
    have h'' : (rne (x / 2 ^ (Int.log 2 x - 52)) : ℚ) ≤ ((2 ^ 53 : Int) : ℚ) := by exact_mod_cast h'
    calc _ ≤ ((2 ^ 53 : Int) : ℚ) * 2 ^ (Int.log 2 x - 52) :=
          mul_le_mul_of_nonneg_right h'' (le_of_lt (two_zpow_pos _))
      _ = (2 : ℚ) ^ (Int.log 2 x + 1) := by
          have := scale_mul_succ (Int.log 2 x)
          push_cast
          norm_num at this ⊢
          linarith

/-- A negative value rounds into the closed binade that holds it. -/
theorem nearest_neg_bounds (x : ℚ) (hx : x < 0) :
    -(2 : ℚ) ^ (Int.log 2 |x| + 1) ≤ nearest x ∧ nearest x ≤ -(2 : ℚ) ^ Int.log 2 |x| := by
  obtain ⟨b1, b2⟩ := log_bounds x (ne_of_lt hx)
  have habs : |x| = -x := abs_of_neg hx
  have hs := two_zpow_pos (Int.log 2 |x| - 52)
  have e1 := scale_mul (Int.log 2 |x|)
  have e2 := scale_mul_succ (Int.log 2 |x|)
  unfold nearest
  rw [if_neg (ne_of_lt hx)]
  constructor
  · have h : ((-(2 ^ 53) : Int) : ℚ) ≤ x / 2 ^ (Int.log 2 |x| - 52) := by
      rw [le_div_iff₀ hs]
      push_cast
      norm_num at e2 ⊢
      linarith
    have h' := rne_mono h
    rw [rne_intCast] at h'
    have h'' : ((-(2 ^ 53) : Int) : ℚ) ≤ (rne (x / 2 ^ (Int.log 2 |x| - 52)) : ℚ) := by
      exact_mod_cast h'
    calc -(2 : ℚ) ^ (Int.log 2 |x| + 1) = ((-(2 ^ 53) : Int) : ℚ) * 2 ^ (Int.log 2 |x| - 52) := by
          push_cast
          norm_num at e2 ⊢
          linarith
      _ ≤ _ := mul_le_mul_of_nonneg_right h'' (le_of_lt hs)
  · have h : x / 2 ^ (Int.log 2 |x| - 52) ≤ ((-(2 ^ 52) : Int) : ℚ) := by
      rw [div_le_iff₀ hs]
      push_cast
      norm_num at e1 ⊢
      linarith
    have h' := rne_mono h
    rw [rne_intCast] at h'
    have h'' : (rne (x / 2 ^ (Int.log 2 |x| - 52)) : ℚ) ≤ ((-(2 ^ 52) : Int) : ℚ) := by
      exact_mod_cast h'
    calc _ ≤ ((-(2 ^ 52) : Int) : ℚ) * 2 ^ (Int.log 2 |x| - 52) :=
          mul_le_mul_of_nonneg_right h'' (le_of_lt hs)
      _ = -(2 : ℚ) ^ Int.log 2 |x| := by
          push_cast
          norm_num at e1 ⊢
          linarith

theorem nearest_nonneg (x : ℚ) (hx : 0 ≤ x) : 0 ≤ nearest x := by
  rcases eq_or_lt_of_le hx with h | h
  · rw [← h, nearest_zero]
  · exact le_trans (le_of_lt (two_zpow_pos _)) (nearest_pos_bounds x h).1

theorem nearest_nonpos (x : ℚ) (hx : x ≤ 0) : nearest x ≤ 0 := by
  rcases eq_or_lt_of_le hx with h | h
  · rw [h, nearest_zero]
  · exact le_trans (nearest_neg_bounds x h).2 (by linarith [two_zpow_pos (Int.log 2 |x|)])

theorem nearest_same_binade (x y : ℚ) (hx : x ≠ 0) (hy : y ≠ 0) (h : x ≤ y)
    (he : Int.log 2 |x| = Int.log 2 |y|) : nearest x ≤ nearest y := by
  unfold nearest
  rw [if_neg hx, if_neg hy, he]
  have hs := two_zpow_pos (Int.log 2 |y| - 52)
  apply mul_le_mul_of_nonneg_right _ (le_of_lt hs)
  exact_mod_cast rne_mono (div_le_div_of_nonneg_right h (le_of_lt hs))

/-- Rounding to binary64 is monotone. -/
theorem nearest_mono {x y : ℚ} (h : x ≤ y) : nearest x ≤ nearest y := by
  have h2 : (1 : ℚ) ≤ 2 := by norm_num
  by_cases hx : 0 < x
  · have hy : 0 < y := lt_of_lt_of_le hx h
    have hlog : Int.log 2 |x| ≤ Int.log 2 |y| :=
      Int.log_mono_right (abs_pos.mpr (ne_of_gt hx)) (by rw [abs_of_pos hx, abs_of_pos hy]; exact h)
    rcases eq_or_lt_of_le hlog with he | hlt
    · exact nearest_same_binade x y (ne_of_gt hx) (ne_of_gt hy) h he
    · exact le_trans (nearest_pos_bounds x hx).2
        (le_trans (zpow_le_zpow_right₀ h2 (by omega)) (nearest_pos_bounds y hy).1)
  · by_cases hy : y < 0
    · have hx' : x < 0 := lt_of_le_of_lt h hy
      have hlog : Int.log 2 |y| ≤ Int.log 2 |x| :=
        Int.log_mono_right (abs_pos.mpr (ne_of_lt hy))
          (by rw [abs_of_neg hx', abs_of_neg hy]; linarith)
      rcases eq_or_lt_of_le hlog with he | hlt
      · exact nearest_same_binade x y (ne_of_lt hx') (ne_of_lt hy) h he.symm
      · have hz : (2 : ℚ) ^ (Int.log 2 |y| + 1) ≤ 2 ^ Int.log 2 |x| :=
          zpow_le_zpow_right₀ h2 (by omega)
        exact le_trans (nearest_neg_bounds x hx').2
          (le_trans (by linarith) (nearest_neg_bounds y hy).1)
    · exact le_trans (nearest_nonpos x (not_lt.mp hx)) (nearest_nonneg y (not_lt.mp hy))

/-- Integers below `2^53` in absolute value are binary64 values. -/
theorem nearest_intCast (z : Int) (hz : |z| < 2 ^ 53) : nearest (z : ℚ) = z := by
  by_cases h0 : z = 0
  · rw [h0]
    simp [nearest_zero]
  · have hq : (z : ℚ) ≠ 0 := by exact_mod_cast h0
    have habs : |(z : ℚ)| < (2 : ℚ) ^ ((52 : Int) + 1) := by
      have : |(z : ℚ)| = ((|z| : Int) : ℚ) := by simp
      rw [this]
      have h53 : ((2 : ℚ) ^ ((52 : Int) + 1)) = (((2 : Int) ^ 53 : Int) : ℚ) := by norm_num
      rw [h53]
      exact_mod_cast hz
    have hlog : Int.log 2 |(z : ℚ)| < 52 + 1 :=
      (Int.lt_zpow_iff_log_lt (b := 2) (by norm_num) (abs_pos.mpr hq)).mp
        (by simpa only [Nat.cast_ofNat] using habs)
    obtain ⟨k, hk⟩ := Int.exists_eq_neg_ofNat (a := Int.log 2 |(z : ℚ)| - 52) (by omega)
    unfold nearest
    rw [if_neg hq, hk, zpow_neg, zpow_natCast, div_inv_eq_mul]
    have hcast : (z : ℚ) * 2 ^ k = ((z * 2 ^ k : Int) : ℚ) := by push_cast; rfl
    rw [hcast, rne_intCast]
    push_cast
    rw [mul_assoc, mul_inv_cancel₀ (pow_ne_zero k (by norm_num : (2 : ℚ) ≠ 0)), mul_one]

theorem nearest_eval_pos (x : ℚ) (k : Nat) (z : Int) (h1 : (2 : ℚ) ^ 52 ≤ x * 2 ^ k)
    (h2 : x * 2 ^ k < (2 : ℚ) ^ 53) (hz : rne (x * 2 ^ k) = z) :
    nearest x = (z : ℚ) / 2 ^ k := by
  have hk : (0 : ℚ) < 2 ^ k := pow_pos (by norm_num) k
  have hx : 0 < x := by
    by_contra hn
    have : x * 2 ^ k ≤ 0 := mul_nonpos_of_nonpos_of_nonneg (not_lt.mp hn) hk.le
    linarith [pow_pos (by norm_num : (0 : ℚ) < 2) 52]
  have habs : |x| = x := abs_of_pos hx
  exact nearest_eval x k z (by rw [habs]; exact h1) (by rw [habs]; exact h2) hz

theorem nearest_eval_neg (x : ℚ) (k : Nat) (z : Int) (h1 : (2 : ℚ) ^ 52 ≤ -x * 2 ^ k)
    (h2 : -x * 2 ^ k < (2 : ℚ) ^ 53) (hz : rne (x * 2 ^ k) = z) :
    nearest x = (z : ℚ) / 2 ^ k := by
  have hk : (0 : ℚ) < 2 ^ k := pow_pos (by norm_num) k
  have hx : x < 0 := by
    by_contra hn
    have : -x * 2 ^ k ≤ 0 :=
      mul_nonpos_of_nonpos_of_nonneg (neg_nonpos.mpr (not_lt.mp hn)) hk.le
    linarith [pow_pos (by norm_num : (0 : ℚ) < 2) 52]
  have habs : |x| = -x := abs_of_neg hx
  exact nearest_eval x k z (by rw [habs]; exact h1) (by rw [habs]; exact h2) hz

theorem rne_tie_even (q : ℚ) (f : Int) (h : q = (f : ℚ) + 1 / 2) (he : f % 2 = 0) :
    rne q = f := by
  rw [rne_tie q f h, if_pos he]

theorem rne_tie_odd (q : ℚ) (f z : Int) (h : q = (f : ℚ) + 1 / 2) (ho : f % 2 = 1)
    (hz : z = f + 1) : rne q = z := by
  rw [rne_tie q f h, if_neg (by omega), hz]

theorem rne_abs_sub_le (q : ℚ) : |(rne q : ℚ) - q| ≤ 1 / 2 := by
  have h1 := Int.floor_le q
  have h2 := Int.lt_floor_add_one q
  unfold rne
  rw [abs_le]
  split_ifs with a b c <;> simp only [not_lt] at * <;> constructor <;> push_cast <;> linarith

/-- Relative error of one rounding: at most `2^-53` of the exact value. -/
theorem nearest_abs_error (x : ℚ) : |nearest x - x| ≤ |x| / 2 ^ 53 := by
  by_cases hx : x = 0
  · rw [hx, nearest_zero]
    simp
  · obtain ⟨b1, -⟩ := log_bounds x hx
    have hs := two_zpow_pos (Int.log 2 |x| - 52)
    have e1 := scale_mul (Int.log 2 |x|)
    have hq := rne_abs_sub_le (x / 2 ^ (Int.log 2 |x| - 52))
    unfold nearest
    rw [if_neg hx]
    have e2 : (rne (x / 2 ^ (Int.log 2 |x| - 52)) : ℚ) * 2 ^ (Int.log 2 |x| - 52) - x =
        ((rne (x / 2 ^ (Int.log 2 |x| - 52)) : ℚ) - x / 2 ^ (Int.log 2 |x| - 52)) *
          2 ^ (Int.log 2 |x| - 52) := by
      field_simp
    rw [e2, abs_mul, abs_of_pos hs]
    have h3 : (2 : ℚ) ^ (52 : Int) * 2 ^ (Int.log 2 |x| - 52) ≤ |x| := by
      rw [e1]
      exact b1
    have h4 : (2 : ℚ) ^ (52 : Int) = 2 ^ 52 := by norm_cast
    rw [h4] at h3
    rw [le_div_iff₀ (by positivity)]
    have h5 : |(rne (x / 2 ^ (Int.log 2 |x| - 52)) : ℚ) - x / 2 ^ (Int.log 2 |x| - 52)| *
        2 ^ (Int.log 2 |x| - 52) ≤ 1 / 2 * 2 ^ (Int.log 2 |x| - 52) :=
      mul_le_mul_of_nonneg_right hq hs.le
    have h6 : (2 : ℚ) ^ 53 = 2 * 2 ^ 52 := by norm_num
    rw [h6]
    nlinarith

end Binary64Lemmas


/-! ## Roundings at concrete values -/

section Binary64Values

open Binary64

/-- The literal `0.05` as a JavaScript number. -/
theorem nearest_twentieth :
    nearest ((0.05 : ℚ)) = 3602879701896397 / 72057594037927936 := by
  rw [nearest_eval_pos ((0.05 : ℚ)) 57 (7205759403792794) (by norm_num) (by norm_num)
    (rne_eval _ (7205759403792794) (by norm_num) (by norm_num))]
  norm_num

theorem growth_step_0 :
    min 1 (nearest ((0 : ℚ) + 3602879701896397 / 72057594037927936)) = 3602879701896397 / 72057594037927936 := by
  rw [nearest_eval_pos ((0 : ℚ) + 3602879701896397 / 72057594037927936) 57 (7205759403792794) (by norm_num) (by norm_num)
    (rne_eval _ (7205759403792794) (by norm_num) (by norm_num))]
  rw [min_eq_right (by norm_num)]
  norm_num

theorem growth_step_1 :
    min 1 (nearest (((3602879701896397 / 72057594037927936) : ℚ) + 3602879701896397 / 72057594037927936)) = 3602879701896397 / 36028797018963968 := by
  rw [nearest_eval_pos (((3602879701896397 / 72057594037927936) : ℚ) + 3602879701896397 / 72057594037927936) 56 (7205759403792794) (by norm_num) (by norm_num)
    (rne_eval _ (7205759403792794) (by norm_num) (by norm_num))]
  rw [min_eq_right (by norm_num)]
  norm_num

theorem growth_step_2 :
    min 1 (nearest (((3602879701896397 / 36028797018963968) : ℚ) + 3602879701896397 / 72057594037927936)) = 1351079888211149 / 9007199254740992 := by
  rw [nearest_eval_pos (((3602879701896397 / 36028797018963968) : ℚ) + 3602879701896397 / 72057594037927936) 55 (5404319552844596) (by norm_num) (by norm_num)
    (rne_tie_odd _ (5404319552844595) (5404319552844596) (by norm_num) (by norm_num) (by norm_num))]
  rw [min_eq_right (by norm_num)]
  norm_num

theorem growth_step_3 :
    min 1 (nearest (((1351079888211149 / 9007199254740992) : ℚ) + 3602879701896397 / 72057594037927936)) = 3602879701896397 / 18014398509481984 := by
  rw [nearest_eval_pos (((1351079888211149 / 9007199254740992) : ℚ) + 3602879701896397 / 72057594037927936) 55 (7205759403792794) (by norm_num) (by norm_num)
    (rne_tie_even _ (7205759403792794) (by norm_num) (by norm_num))]
  rw [min_eq_right (by norm_num)]
  norm_num

theorem growth_step_4 :
    min 1 (nearest (((3602879701896397 / 18014398509481984) : ℚ) + 3602879701896397 / 72057594037927936)) = 1 / 4 := by
  rw [nearest_eval_pos (((3602879701896397 / 18014398509481984) : ℚ) + 3602879701896397 / 72057594037927936) 54 (4503599627370496) (by norm_num) (by norm_num)
    (rne_eval _ (4503599627370496) (by norm_num) (by norm_num))]
  rw [min_eq_right (by norm_num)]
  norm_num

theorem growth_step_5 :
    min 1 (nearest (((1 / 4) : ℚ) + 3602879701896397 / 72057594037927936)) = 5404319552844595 / 18014398509481984 := by
  rw [nearest_eval_pos (((1 / 4) : ℚ) + 3602879701896397 / 72057594037927936) 54 (5404319552844595) (by norm_num) (by norm_num)
    (rne_eval _ (5404319552844595) (by norm_num) (by norm_num))]
  rw [min_eq_right (by norm_num)]
  norm_num

theorem growth_step_6 :
    min 1 (nearest (((5404319552844595 / 18014398509481984) : ℚ) + 3602879701896397 / 72057594037927936)) = 3152519739159347 / 9007199254740992 := by
  rw [nearest_eval_pos (((5404319552844595 / 18014398509481984) : ℚ) + 3602879701896397 / 72057594037927936) 54 (6305039478318694) (by norm_num) (by norm_num)
    (rne_eval _ (6305039478318694) (by norm_num) (by norm_num))]
  rw [min_eq_right (by norm_num)]
  norm_num

theorem growth_step_7 :
    min 1 (nearest (((3152519739159347 / 9007199254740992) : ℚ) + 3602879701896397 / 72057594037927936)) = 7205759403792793 / 18014398509481984 := by
  rw [nearest_eval_pos (((3152519739159347 / 9007199254740992) : ℚ) + 3602879701896397 / 72057594037927936) 54 (7205759403792793) (by norm_num) (by norm_num)
    (rne_eval _ (7205759403792793) (by norm_num) (by norm_num))]
  rw [min_eq_right (by norm_num)]
  norm_num

theorem growth_step_8 :
    min 1 (nearest (((7205759403792793 / 18014398509481984) : ℚ) + 3602879701896397 / 72057594037927936)) = 2026619832316723 / 4503599627370496 := by
  rw [nearest_eval_pos (((7205759403792793 / 18014398509481984) : ℚ) + 3602879701896397 / 72057594037927936) 54 (8106479329266892) (by norm_num) (by norm_num)
    (rne_eval _ (8106479329266892) (by norm_num) (by norm_num))]
  rw [min_eq_right (by norm_num)]
  norm_num

theorem growth_step_9 :
    min 1 (nearest (((2026619832316723 / 4503599627370496) : ℚ) + 3602879701896397 / 72057594037927936)) = 9007199254740991 / 18014398509481984 := by
  rw [nearest_eval_pos (((2026619832316723 / 4503599627370496) : ℚ) + 3602879701896397 / 72057594037927936) 54 (9007199254740991) (by norm_num) (by norm_num)
    (rne_eval _ (9007199254740991) (by norm_num) (by norm_num))]
  rw [min_eq_right (by norm_num)]
  norm_num

theorem growth_step_10 :
    min 1 (nearest (((9007199254740991 / 18014398509481984) : ℚ) + 3602879701896397 / 72057594037927936)) = 4953959590107545 / 9007199254740992 := by
  rw [nearest_eval_pos (((9007199254740991 / 18014398509481984) : ℚ) + 3602879701896397 / 72057594037927936) 53 (4953959590107545) (by norm_num) (by norm_num)
    (rne_eval _ (4953959590107545) (by norm_num) (by norm_num))]
  rw [min_eq_right (by norm_num)]
  norm_num

theorem growth_step_11 :
    min 1 (nearest (((4953959590107545 / 9007199254740992) : ℚ) + 3602879701896397 / 72057594037927936)) = 5404319552844595 / 9007199254740992 := by
  rw [nearest_eval_pos (((4953959590107545 / 9007199254740992) : ℚ) + 3602879701896397 / 72057594037927936) 53 (5404319552844595) (by norm_num) (by norm_num)
    (rne_eval _ (5404319552844595) (by norm_num) (by norm_num))]
  rw [min_eq_right (by norm_num)]
  norm_num

theorem growth_step_12 :
    min 1 (nearest (((5404319552844595 / 9007199254740992) : ℚ) + 3602879701896397 / 72057594037927936)) = 5854679515581645 / 9007199254740992 := by
  rw [nearest_eval_pos (((5404319552844595 / 9007199254740992) : ℚ) + 3602879701896397 / 72057594037927936) 53 (5854679515581645) (by norm_num) (by norm_num)
    (rne_eval _ (5854679515581645) (by norm_num) (by norm_num))]
  rw [min_eq_right (by norm_num)]
  norm_num

theorem growth_step_13 :
    min 1 (nearest (((5854679515581645 / 9007199254740992) : ℚ) + 3602879701896397 / 72057594037927936)) = 6305039478318695 / 9007199254740992 := by
  rw [nearest_eval_pos (((5854679515581645 / 9007199254740992) : ℚ) + 3602879701896397 / 72057594037927936) 53 (6305039478318695) (by norm_num) (by norm_num)
    (rne_eval _ (6305039478318695) (by norm_num) (by norm_num))]
  rw [min_eq_right (by norm_num)]
  norm_num

theorem growth_step_14 :
    min 1 (nearest (((6305039478318695 / 9007199254740992) : ℚ) + 3602879701896397 / 72057594037927936)) = 6755399441055745 / 9007199254740992 := by
  rw [nearest_eval_pos (((6305039478318695 / 9007199254740992) : ℚ) + 3602879701896397 / 72057594037927936) 53 (6755399441055745) (by norm_num) (by norm_num)
    (rne_eval _ (6755399441055745) (by norm_num) (by norm_num))]
  rw [min_eq_right (by norm_num)]
  norm_num

theorem growth_step_15 :
    min 1 (nearest (((6755399441055745 / 9007199254740992) : ℚ) + 3602879701896397 / 72057594037927936)) = 7205759403792795 / 9007199254740992 := by
  rw [nearest_eval_pos (((6755399441055745 / 9007199254740992) : ℚ) + 3602879701896397 / 72057594037927936) 53 (7205759403792795) (by norm_num) (by norm_num)
    (rne_eval _ (7205759403792795) (by norm_num) (by norm_num))]
  rw [min_eq_right (by norm_num)]
  norm_num

theorem growth_step_16 :
    min 1 (nearest (((7205759403792795 / 9007199254740992) : ℚ) + 3602879701896397 / 72057594037927936)) = 7656119366529845 / 9007199254740992 := by
  rw [nearest_eval_pos (((7205759403792795 / 9007199254740992) : ℚ) + 3602879701896397 / 72057594037927936) 53 (7656119366529845) (by norm_num) (by norm_num)
    (rne_eval _ (7656119366529845) (by norm_num) (by norm_num))]
  rw [min_eq_right (by norm_num)]
  norm_num

theorem growth_step_17 :
    min 1 (nearest (((7656119366529845 / 9007199254740992) : ℚ) + 3602879701896397 / 72057594037927936)) = 8106479329266895 / 9007199254740992 := by
  rw [nearest_eval_pos (((7656119366529845 / 9007199254740992) : ℚ) + 3602879701896397 / 72057594037927936) 53 (8106479329266895) (by norm_num) (by norm_num)
    (rne_eval _ (8106479329266895) (by norm_num) (by norm_num))]
  rw [min_eq_right (by norm_num)]
  norm_num

theorem growth_step_18 :
    min 1 (nearest (((8106479329266895 / 9007199254740992) : ℚ) + 3602879701896397 / 72057594037927936)) = 8556839292003945 / 9007199254740992 := by
  rw [nearest_eval_pos (((8106479329266895 / 9007199254740992) : ℚ) + 3602879701896397 / 72057594037927936) 53 (8556839292003945) (by norm_num) (by norm_num)
    (rne_eval _ (8556839292003945) (by norm_num) (by norm_num))]
  rw [min_eq_right (by norm_num)]
  norm_num

theorem growth_step_19 :
    min 1 (nearest (((8556839292003945 / 9007199254740992) : ℚ) + 3602879701896397 / 72057594037927936)) = 1 := by
  rw [nearest_eval_pos (((8556839292003945 / 9007199254740992) : ℚ) + 3602879701896397 / 72057594037927936) 52 (4503599627370497) (by norm_num) (by norm_num)
    (rne_eval _ (4503599627370497) (by norm_num) (by norm_num))]
  rw [min_eq_left (by norm_num)]

theorem growth_step_full :
    min 1 (nearest ((1 : ℚ) + 3602879701896397 / 72057594037927936)) = 1 := by
  rw [nearest_eval_pos ((1 : ℚ) + 3602879701896397 / 72057594037927936) 52 (4728779608739021) (by norm_num) (by norm_num)
    (rne_eval _ (4728779608739021) (by norm_num) (by norm_num))]
  rw [min_eq_left (by norm_num)]

theorem colour_diff_r :
    nearest ((60 : ℚ) - 245) = -185 := by
  rw [nearest_eval_neg ((60 : ℚ) - 245) 45 (-6509108836433920) (by norm_num) (by norm_num)
    (rne_eval _ (-6509108836433920) (by norm_num) (by norm_num))]
  norm_num

theorem colour_product_r :
    nearest ((-185 : ℚ) * (4503599627370497 / 9007199254740992)) = -6509108836433921 / 70368744177664 := by
  rw [nearest_eval_neg ((-185 : ℚ) * (4503599627370497 / 9007199254740992)) 46 (-6509108836433921) (by norm_num) (by norm_num)
    (rne_eval _ (-6509108836433921) (by norm_num) (by norm_num))]
  norm_num

theorem colour_sum_r :
    nearest ((245 : ℚ) + -6509108836433921 / 70368744177664) = 305 / 2 := by
  rw [nearest_eval_pos ((245 : ℚ) + -6509108836433921 / 70368744177664) 45 (5365616743546880) (by norm_num) (by norm_num)
    (rne_tie_odd _ (5365616743546879) (5365616743546880) (by norm_num) (by norm_num) (by norm_num))]
  norm_num

theorem colour_diff_g :
    nearest ((30 : ℚ) - 222) = -192 := by
  rw [nearest_eval_neg ((30 : ℚ) - 222) 45 (-6755399441055744) (by norm_num) (by norm_num)
    (rne_eval _ (-6755399441055744) (by norm_num) (by norm_num))]
  norm_num

theorem colour_product_g :
    nearest ((-192 : ℚ) * (4503599627370497 / 9007199254740992)) = -3377699720527873 / 35184372088832 := by
  rw [nearest_eval_neg ((-192 : ℚ) * (4503599627370497 / 9007199254740992)) 46 (-6755399441055746) (by norm_num) (by norm_num)
    (rne_tie_even _ (-6755399441055746) (by norm_num) (by norm_num))]
  norm_num

theorem colour_sum_g :
    nearest ((222 : ℚ) + -3377699720527873 / 35184372088832) = 4433230883192831 / 35184372088832 := by
  rw [nearest_eval_pos ((222 : ℚ) + -3377699720527873 / 35184372088832) 46 (8866461766385662) (by norm_num) (by norm_num)
    (rne_eval _ (8866461766385662) (by norm_num) (by norm_num))]
  norm_num

theorem colour_diff_b :
    nearest ((10 : ℚ) - 179) = -169 := by
  rw [nearest_eval_neg ((10 : ℚ) - 179) 45 (-5946158883012608) (by norm_num) (by norm_num)
    (rne_eval _ (-5946158883012608) (by norm_num) (by norm_num))]
  norm_num

theorem colour_product_b :
    nearest ((-169 : ℚ) * (4503599627370497 / 9007199254740992)) = -5946158883012609 / 70368744177664 := by
  rw [nearest_eval_neg ((-169 : ℚ) * (4503599627370497 / 9007199254740992)) 46 (-5946158883012609) (by norm_num) (by norm_num)
    (rne_eval _ (-5946158883012609) (by norm_num) (by norm_num))]
  norm_num

theorem colour_sum_b :
    nearest ((179 : ℚ) + -5946158883012609 / 70368744177664) = 6649846324789247 / 70368744177664 := by
  rw [nearest_eval_pos ((179 : ℚ) + -5946158883012609 / 70368744177664) 46 (6649846324789247) (by norm_num) (by norm_num)
    (rne_eval _ (6649846324789247) (by norm_num) (by norm_num))]
  norm_num

theorem nearest_fifth :
    nearest ((1 : ℚ) / 5) = 3602879701896397 / 18014398509481984 := by
  rw [nearest_eval_pos ((1 : ℚ) / 5) 55 (7205759403792794) (by norm_num) (by norm_num)
    (rne_eval _ (7205759403792794) (by norm_num) (by norm_num))]
  norm_num

theorem moisture_next_to_water :
    nearest ((1 : ℚ) - 3602879701896397 / 18014398509481984) = 3602879701896397 / 4503599627370496 := by
  rw [nearest_eval_pos ((1 : ℚ) - 3602879701896397 / 18014398509481984) 53 (7205759403792794) (by norm_num) (by norm_num)
    (rne_tie_odd _ (7205759403792793) (7205759403792794) (by norm_num) (by norm_num) (by norm_num))]
  norm_num

theorem nearest_tenth :
    nearest ((0.1 : ℚ)) = 3602879701896397 / 36028797018963968 := by
  rw [nearest_eval_pos ((0.1 : ℚ)) 56 (7205759403792794) (by norm_num) (by norm_num)
    (rne_eval _ (7205759403792794) (by norm_num) (by norm_num))]
  norm_num

theorem shovel_step_1 :
    nearest ((3602879701896397 / 4503599627370496 : ℚ) - 3602879701896397 / 36028797018963968) = 6305039478318695 / 9007199254740992 := by
  rw [nearest_eval_pos ((3602879701896397 / 4503599627370496 : ℚ) - 3602879701896397 / 36028797018963968) 53 (6305039478318695) (by norm_num) (by norm_num)
    (rne_eval _ (6305039478318695) (by norm_num) (by norm_num))]
  norm_num

theorem shovel_step_2 :
    nearest ((6305039478318695 / 9007199254740992 : ℚ) - 3602879701896397 / 36028797018963968) = 1351079888211149 / 2251799813685248 := by
  rw [nearest_eval_pos ((6305039478318695 / 9007199254740992 : ℚ) - 3602879701896397 / 36028797018963968) 53 (5404319552844596) (by norm_num) (by norm_num)
    (rne_eval _ (5404319552844596) (by norm_num) (by norm_num))]
  norm_num

theorem shovel_step_3 :
    nearest ((1351079888211149 / 2251799813685248 : ℚ) - 3602879701896397 / 36028797018963968) = 4503599627370497 / 9007199254740992 := by
  rw [nearest_eval_pos ((1351079888211149 / 2251799813685248 : ℚ) - 3602879701896397 / 36028797018963968) 53 (4503599627370497) (by norm_num) (by norm_num)
    (rne_eval _ (4503599627370497) (by norm_num) (by norm_num))]
  norm_num

end Binary64Values

/-! ## Claims about the colour of a cell, in binary64 -/

section ColourClaims

open Binary64

theorem binary64_getColor_land (c : Cell ℚ) (hl : c.type = CellType.land) :
    Binary64.Cell.getColor c = Color.rgb
      (Math.round (nearest (245 + nearest (nearest (60 - 245) * c.moisture))))
      (Math.round (nearest (222 + nearest (nearest (30 - 222) * c.moisture))))
      (Math.round (nearest (179 + nearest (nearest (10 - 179) * c.moisture)))) := by
  have hnw : ¬ c.type = CellType.water := by
    rw [hl]
    exact fun e => by cases e
  simp only [Binary64.Cell.getColor, hnw, if_false]

/-- One channel of the interpolation between integer end points: the rounded
value stays between the end points and is within `2^-44` of the exact one. -/
theorem channel_bounds (dry wet m : ℚ) (hw0 : 0 ≤ wet) (hwd : wet ≤ dry) (hd : dry ≤ 256)
    (hdiff : nearest (wet - dry) = wet - dry) (hwet : nearest wet = wet)
    (hdry : nearest dry = dry) (h0 : 0 ≤ m) (h1 : m ≤ 1) :
    wet ≤ nearest (dry + nearest (nearest (wet - dry) * m)) ∧
    nearest (dry + nearest (nearest (wet - dry) * m)) ≤ dry ∧
    |nearest (dry + nearest (nearest (wet - dry) * m)) - (dry + (wet - dry) * m)| ≤
      1 / 2 ^ 44 := by
  rw [hdiff]
  have hp1 : wet - dry ≤ nearest ((wet - dry) * m) := by
    have h := nearest_mono (show wet - dry ≤ (wet - dry) * m by nlinarith)
    rwa [hdiff] at h
  have hp2 : nearest ((wet - dry) * m) ≤ 0 := nearest_nonpos _ (by nlinarith)
  have hpe := nearest_abs_error ((wet - dry) * m)
  have hse := nearest_abs_error (dry + nearest ((wet - dry) * m))
  have hs1 : wet ≤ nearest (dry + nearest ((wet - dry) * m)) := by
    have h := nearest_mono (show wet ≤ dry + nearest ((wet - dry) * m) by linarith)
    rwa [hwet] at h
  have hs2 : nearest (dry + nearest ((wet - dry) * m)) ≤ dry := by
    have h := nearest_mono (show dry + nearest ((wet - dry) * m) ≤ dry by linarith)
    rwa [hdry] at h
  refine ⟨hs1, hs2, ?_⟩
  have a1 : |(wet - dry) * m| ≤ 256 := by
    rw [abs_le]
    constructor <;> nlinarith
  have a2 : |dry + nearest ((wet - dry) * m)| ≤ 256 := by
    rw [abs_le]
    constructor <;> linarith
  have e1 : |nearest ((wet - dry) * m) - (wet - dry) * m| ≤ 256 / 2 ^ 53 :=
    le_trans hpe (div_le_div_of_nonneg_right a1 (by positivity))
  have e2 : |nearest (dry + nearest ((wet - dry) * m)) - (dry + nearest ((wet - dry) * m))| ≤
      256 / 2 ^ 53 :=
    le_trans hse (div_le_div_of_nonneg_right a2 (by positivity))
  rw [abs_le] at e1 e2 ⊢
  norm_num at e1 e2 ⊢
  constructor <;> linarith

/-- `Math.round` of a value close to `y` is within one half plus the distance of `y`. -/
theorem mathRound_close (v y e : ℚ) (h : |v - y| ≤ e) :
    |((Math.round v : Int) : ℚ) - y| ≤ 1 / 2 + e := by
  obtain ⟨n1, n2⟩ := mathRound_near v
  rw [abs_le] at h ⊢
  constructor <;> linarith

theorem nearest_small_int (z : Int) (h1 : -256 ≤ z) (h2 : z ≤ 256) :
    nearest (z : ℚ) = z := by
  apply nearest_intCast
  rw [abs_lt]
  constructor <;> norm_num <;> omega

/-- The three channels of a land cell with moisture in [0,1]. -/
theorem binary64_channels (m : ℚ) (h0 : 0 ≤ m) (h1 : m ≤ 1) :
    ((60 : ℚ) ≤ nearest (245 + nearest (nearest (60 - 245) * m)) ∧
      nearest (245 + nearest (nearest (60 - 245) * m)) ≤ 245 ∧
      |nearest (245 + nearest (nearest (60 - 245) * m)) - (245 + (60 - 245) * m)| ≤
        1 / 2 ^ 44) ∧
    ((30 : ℚ) ≤ nearest (222 + nearest (nearest (30 - 222) * m)) ∧
      nearest (222 + nearest (nearest (30 - 222) * m)) ≤ 222 ∧
      |nearest (222 + nearest (nearest (30 - 222) * m)) - (222 + (30 - 222) * m)| ≤
        1 / 2 ^ 44) ∧
    ((10 : ℚ) ≤ nearest (179 + nearest (nearest (10 - 179) * m)) ∧
      nearest (179 + nearest (nearest (10 - 179) * m)) ≤ 179 ∧
      |nearest (179 + nearest (nearest (10 - 179) * m)) - (179 + (10 - 179) * m)| ≤
        1 / 2 ^ 44) := by
  have i (z : Int) (h1 : -256 ≤ z) (h2 : z ≤ 256) (q : ℚ) (hq : q = (z : ℚ)) :
      nearest q = q := by
    rw [hq]
    exact nearest_small_int z h1 h2
  refine ⟨channel_bounds 245 60 m (by norm_num) (by norm_num) (by norm_num)
      (i (-185) (by norm_num) (by norm_num) _ (by norm_num))
      (i 60 (by norm_num) (by norm_num) _ (by norm_num))
      (i 245 (by norm_num) (by norm_num) _ (by norm_num)) h0 h1,
    channel_bounds 222 30 m (by norm_num) (by norm_num) (by norm_num)
      (i (-192) (by norm_num) (by norm_num) _ (by norm_num))
      (i 30 (by norm_num) (by norm_num) _ (by norm_num))
      (i 222 (by norm_num) (by norm_num) _ (by norm_num)) h0 h1,
    channel_bounds 179 10 m (by norm_num) (by norm_num) (by norm_num)
      (i (-169) (by norm_num) (by norm_num) _ (by norm_num))
      (i 10 (by norm_num) (by norm_num) _ (by norm_num))
      (i 179 (by norm_num) (by norm_num) _ (by norm_num)) h0 h1⟩

/-- Colour of the land cell whose moisture is the number next above one half. -/
theorem binary64_getColor_above_half :
    Binary64.Cell.getColor { LandCell.new (0 : ℚ) 0 with moisture := 4503599627370497 / 9007199254740992 } =
      Color.rgb 153 126 94 := by
  rw [binary64_getColor_land _ rfl]
  simp only [LandCell.new, Cell.new]
  rw [colour_diff_r, colour_diff_g, colour_diff_b, colour_product_r, colour_product_g,
    colour_product_b, colour_sum_r, colour_sum_g, colour_sum_b]
  have r1 := mathRound_bounds (305 / 2 : ℚ) 153 153 (by norm_num) (by norm_num)
  have r2 := mathRound_bounds (4433230883192831 / 35184372088832 : ℚ) 126 126
    (by norm_num) (by norm_num)
  have r3 := mathRound_bounds (6649846324789247 / 70368744177664 : ℚ) 94 94
    (by norm_num) (by norm_num)
  have e1 : Math.round (305 / 2 : ℚ) = 153 := by omega
  have e2 : Math.round (4433230883192831 / 35184372088832 : ℚ) = 126 := by omega
  have e3 : Math.round (6649846324789247 / 70368744177664 : ℚ) = 94 := by omega
  rw [e1, e2, e3]

/-- Counterexample to C18 as worded: the moisture `0.5000000000000001`, which a
land cell next to water has after three uses of the shovel, lies in [0,1]; the
code returns red channel 153 there, while `round(245 - 185 m)` is 152, so the
returned colour is not the one of the formula. -/
theorem getColor_exact_formula_counterexample :
    nearest (nearest (nearest (nearest (1 - nearest ((1 : ℚ) / 5)) - nearest 0.1) - nearest 0.1) -
      nearest 0.1) = 4503599627370497 / 9007199254740992 ∧
    (0 : ℚ) ≤ 4503599627370497 / 9007199254740992 ∧ (4503599627370497 / 9007199254740992 : ℚ) ≤ 1 ∧
    Binary64.Cell.getColor { LandCell.new (0 : ℚ) 0 with moisture := 4503599627370497 / 9007199254740992 } =
      Color.rgb 153 126 94 ∧
    Math.round (245 - 185 * (4503599627370497 / 9007199254740992) : ℚ) = 152 ∧
    Binary64.Cell.getColor { LandCell.new (0 : ℚ) 0 with moisture := 4503599627370497 / 9007199254740992 } ≠
      Color.rgb (Math.round (245 - 185 * (4503599627370497 / 9007199254740992) : ℚ))
        (Math.round (222 - 192 * (4503599627370497 / 9007199254740992) : ℚ))
        (Math.round (179 - 169 * (4503599627370497 / 9007199254740992) : ℚ)) := by
  have r1 := mathRound_bounds (245 - 185 * (4503599627370497 / 9007199254740992) : ℚ) 152 152
    (by norm_num) (by norm_num)
  have e1 : Math.round (245 - 185 * (4503599627370497 / 9007199254740992) : ℚ) = 152 := by omega
  refine ⟨?_, by norm_num, by norm_num, binary64_getColor_above_half, e1, ?_⟩
  · rw [nearest_fifth, moisture_next_to_water, nearest_tenth, shovel_step_1, shovel_step_2,
      shovel_step_3]
  · rw [binary64_getColor_above_half, e1]
    intro h
    injection h with h1 h2 h3
    omega

/-- C18 (amended): `getColor` returns the fixed colour '#1e90ff' for a water
cell whatever its moisture; for a land cell with moisture `m` each channel is
`Math.round` of the interpolation evaluated in binary64, where `Math.round` is
within 1/2 of its argument; `m = 0` gives (245, 222, 179), `m = 1` gives
(60, 30, 10); for `m` in [0,1] the channels lie in [60,245], [30,222] and
[10,179], the evaluated interpolation is within `2^-44` of `245 - 185 m`,
`222 - 192 m`, `179 - 169 m`, and each channel is within `1/2 + 2^-44` of
these. -/
theorem getColor_binary64_spec (c : Cell ℚ) :
    (c.type = CellType.water → Binary64.Cell.getColor c = Color.css "#1e90ff") ∧
    (c.type = CellType.land →
      Binary64.Cell.getColor c = Color.rgb
        (Math.round (nearest (245 + nearest (nearest (60 - 245) * c.moisture))))
        (Math.round (nearest (222 + nearest (nearest (30 - 222) * c.moisture))))
        (Math.round (nearest (179 + nearest (nearest (10 - 179) * c.moisture))))) ∧
    (∀ x : ℚ, x - 1 / 2 < ((Math.round x : Int) : ℚ) ∧ ((Math.round x : Int) : ℚ) ≤ x + 1 / 2) ∧
    (c.type = CellType.land → c.moisture = 0 →
      Binary64.Cell.getColor c = Color.rgb 245 222 179) ∧
    (c.type = CellType.land → c.moisture = 1 →
      Binary64.Cell.getColor c = Color.rgb 60 30 10) ∧
    (c.type = CellType.land → 0 ≤ c.moisture → c.moisture ≤ 1 →
      |nearest (245 + nearest (nearest (60 - 245) * c.moisture)) - (245 - 185 * c.moisture)| ≤
        1 / 2 ^ 44 ∧
      |nearest (222 + nearest (nearest (30 - 222) * c.moisture)) - (222 - 192 * c.moisture)| ≤
        1 / 2 ^ 44 ∧
      |nearest (179 + nearest (nearest (10 - 179) * c.moisture)) - (179 - 169 * c.moisture)| ≤
        1 / 2 ^ 44 ∧
      ∃ r g b : Int, Binary64.Cell.getColor c = Color.rgb r g b ∧
        60 ≤ r ∧ r ≤ 245 ∧ 30 ≤ g ∧ g ≤ 222 ∧ 10 ≤ b ∧ b ≤ 179 ∧
        |(r : ℚ) - (245 - 185 * c.moisture)| ≤ 1 / 2 + 1 / 2 ^ 44 ∧
        |(g : ℚ) - (222 - 192 * c.moisture)| ≤ 1 / 2 + 1 / 2 ^ 44 ∧
        |(b : ℚ) - (179 - 169 * c.moisture)| ≤ 1 / 2 + 1 / 2 ^ 44) := by
  refine ⟨?_, binary64_getColor_land c, mathRound_near, ?_, ?_, ?_⟩
  · intro hw
    simp only [Binary64.Cell.getColor, hw, if_true]
  · intro hl hm
    obtain ⟨⟨r1, r2, -⟩, ⟨g1, g2, -⟩, ⟨b1, b2, -⟩⟩ := binary64_channels 1 (by norm_num) le_rfl
    rw [binary64_getColor_land c hl, hm]
    rw [colour_diff_r, colour_diff_g, colour_diff_b]
    simp only [mul_zero, nearest_zero, add_zero]
    have e1 : nearest (245 : ℚ) = ((245 : Int) : ℚ) := nearest_small_int 245 (by omega) (by omega)
    have e2 : nearest (222 : ℚ) = ((222 : Int) : ℚ) := nearest_small_int 222 (by omega) (by omega)
    have e3 : nearest (179 : ℚ) = ((179 : Int) : ℚ) := nearest_small_int 179 (by omega) (by omega)
    rw [e1, e2, e3, mathRound_intCast, mathRound_intCast, mathRound_intCast]
  · intro hl hm
    rw [binary64_getColor_land c hl, hm]
    rw [colour_diff_r, colour_diff_g, colour_diff_b]
    simp only [mul_one]
    have d1 : nearest (-185 : ℚ) = -185 := nearest_small_int (-185) (by omega) (by omega)
    have d2 : nearest (-192 : ℚ) = -192 := nearest_small_int (-192) (by omega) (by omega)
    have d3 : nearest (-169 : ℚ) = -169 := nearest_small_int (-169) (by omega) (by omega)
    rw [d1, d2, d3]
    have s1 : (245 : ℚ) + -185 = ((60 : Int) : ℚ) := by norm_num
    have s2 : (222 : ℚ) + -192 = ((30 : Int) : ℚ) := by norm_num
    have s3 : (179 : ℚ) + -169 = ((10 : Int) : ℚ) := by norm_num
    rw [s1, s2, s3, nearest_small_int 60 (by omega) (by omega),
      nearest_small_int 30 (by omega) (by omega), nearest_small_int 10 (by omega) (by omega),
      mathRound_intCast, mathRound_intCast, mathRound_intCast]
  · intro hl h0 h1
    obtain ⟨⟨r1, r2, r3⟩, ⟨g1, g2, g3⟩, ⟨b1, b2, b3⟩⟩ := binary64_channels c.moisture h0 h1
    have x1 : (245 : ℚ) + (60 - 245) * c.moisture = 245 - 185 * c.moisture := by ring
    have x2 : (222 : ℚ) + (30 - 222) * c.moisture = 222 - 192 * c.moisture := by ring
    have x3 : (179 : ℚ) + (10 - 179) * c.moisture = 179 - 169 * c.moisture := by ring
    rw [x1] at r3
    rw [x2] at g3
    rw [x3] at b3
    refine ⟨r3, g3, b3, _, _, _, binary64_getColor_land c hl, ?_⟩
    obtain ⟨ra, rb⟩ := mathRound_bounds
      (nearest (245 + nearest (nearest (60 - 245) * c.moisture))) 60 245
      (le_trans (by push_cast; exact r1) (le_add_of_nonneg_right (by norm_num)))
      (lt_of_le_of_lt (add_le_add_right r2 _) (by norm_num))
    obtain ⟨ga, gb⟩ := mathRound_bounds
      (nearest (222 + nearest (nearest (30 - 222) * c.moisture))) 30 222
      (le_trans (by push_cast; exact g1) (le_add_of_nonneg_right (by norm_num)))
      (lt_of_le_of_lt (add_le_add_right g2 _) (by norm_num))
    obtain ⟨ba, bb⟩ := mathRound_bounds
      (nearest (179 + nearest (nearest (10 - 179) * c.moisture))) 10 179
      (le_trans (by push_cast; exact b1) (le_add_of_nonneg_right (by norm_num)))
      (lt_of_le_of_lt (add_le_add_right b2 _) (by norm_num))
    exact ⟨ra, rb, ga, gb, ba, bb, mathRound_close _ _ _ r3, mathRound_close _ _ _ g3,
      mathRound_close _ _ _ b3⟩

/-- Witness of C18 (amended): a water cell, the land cells with moisture 0 and 1,
and the channel bounds at moisture 1/2. -/
theorem getColor_binary64_spec_witness :
    Binary64.Cell.getColor (WaterCell.new (0 : ℚ) 0) = Color.css "#1e90ff" ∧
    (Binary64.Cell.getColor { LandCell.new (0 : ℚ) 0 with moisture := 0 } =
      Color.rgb 245 222 179) ∧
    (Binary64.Cell.getColor { LandCell.new (0 : ℚ) 0 with moisture := 1 } =
      Color.rgb 60 30 10) ∧
    (∃ r g b : Int,
      Binary64.Cell.getColor { LandCell.new (0 : ℚ) 0 with moisture := 1 / 2 } =
        Color.rgb r g b ∧
      60 ≤ r ∧ r ≤ 245 ∧ 30 ≤ g ∧ g ≤ 222 ∧ 10 ≤ b ∧ b ≤ 179 ∧
      |(r : ℚ) - (245 - 185 * (1 / 2))| ≤ 1 / 2 + 1 / 2 ^ 44 ∧
      |(g : ℚ) - (222 - 192 * (1 / 2))| ≤ 1 / 2 + 1 / 2 ^ 44 ∧
      |(b : ℚ) - (179 - 169 * (1 / 2))| ≤ 1 / 2 + 1 / 2 ^ 44) :=
  ⟨(getColor_binary64_spec (WaterCell.new (0 : ℚ) 0)).1 rfl,
    (getColor_binary64_spec { LandCell.new (0 : ℚ) 0 with moisture := 0 }).2.2.2.1 rfl rfl,
    (getColor_binary64_spec { LandCell.new (0 : ℚ) 0 with moisture := 1 }).2.2.2.2.1 rfl rfl,
    ((getColor_binary64_spec { LandCell.new (0 : ℚ) 0 with moisture := 1 / 2 }).2.2.2.2.2 rfl
      (by norm_num [LandCell.new, Cell.new]) (by norm_num [LandCell.new, Cell.new])).2.2.2⟩

end ColourClaims

/-! ## Claims about the iterated growth, in binary64 -/

section GrowthClaims

open Binary64

theorem growthAfter_of_le (n : Nat) (h : 20 ≤ n) : growthAfter n = 1 :=
  List.getD_eq_default _ _ (by simpa [growthTable] using h)

/-- One more in-band call moves along the table. -/
theorem growthAfter_succ (n : Nat) :
    min 1 (nearest (growthAfter n + nearest 0.05)) = growthAfter (n + 1) := by
  rw [nearest_twentieth]
  match n with
  | 0 => exact growth_step_0
  | 1 => exact growth_step_1
  | 2 => exact growth_step_2
  | 3 => exact growth_step_3
  | 4 => exact growth_step_4
  | 5 => exact growth_step_5
  | 6 => exact growth_step_6
  | 7 => exact growth_step_7
  | 8 => exact growth_step_8
  | 9 => exact growth_step_9
  | 10 => exact growth_step_10
  | 11 => exact growth_step_11
  | 12 => exact growth_step_12
  | 13 => exact growth_step_13
  | 14 => exact growth_step_14
  | 15 => exact growth_step_15
  | 16 => exact growth_step_16
  | 17 => exact growth_step_17
  | 18 => exact growth_step_18
  | 19 => exact growth_step_19
  | k + 20 =>
    rw [growthAfter_of_le (k + 20) (by omega), growthAfter_of_le (k + 20 + 1) (by omega)]
    exact growth_step_full

theorem growthAfter_props (n : Nat) :
    |growthAfter n - min 1 ((n : ℚ) * 0.05)| ≤ 1 / 2 ^ 51 ∧ (growthAfter n = 1 ↔ 20 ≤ n) ∧
      0 ≤ growthAfter n ∧ growthAfter n ≤ 1 := by
  by_cases h : 20 ≤ n
  · rw [growthAfter_of_le n h]
    have hn : (20 : ℚ) ≤ (n : ℚ) := by exact_mod_cast h
    rw [min_eq_left (by linarith)]
    simp [h]
  · have h20 : n < 20 := not_le.mp h
    have hn : (n : ℚ) * 0.05 ≤ 1 := by
      have : (n : ℚ) ≤ 20 := by exact_mod_cast h20.le
      linarith
    rw [min_eq_right hn, abs_le]
    interval_cases n <;>
      simp only [growthAfter, growthTable, List.getD_cons_succ, List.getD_cons_zero] <;>
      norm_num

theorem binary64_updateGrowth_in_band (p : Plant ℚ) (m : ℚ) (h : p.isAlive = true)
    (hb : p.minMoisture ≤ m ∧ m ≤ p.maxMoisture) :
    Binary64.Plant.updateGrowth p m =
      { p with growthStage := min 1 (nearest (p.growthStage + nearest 0.05)) } := by
  simp [Binary64.Plant.updateGrowth, h, hb.1, hb.2]

/-- State of a live plant with growth stage 0 after in-band calls of `updateGrowth`. -/
theorem foldl_binary64_updateGrowth_in_band (p : Plant ℚ) (ms : List ℚ)
    (halive : p.isAlive = true) (hzero : p.growthStage = 0)
    (hband : ∀ m ∈ ms, p.minMoisture ≤ m ∧ m ≤ p.maxMoisture) :
    ms.foldl Binary64.Plant.updateGrowth p =
      { p with growthStage := growthAfter ms.length } := by
  induction ms using List.reverseRecOn with
  | nil =>
    cases p
    simp only [List.foldl_nil, List.length_nil] at *
    rw [hzero]
    rfl
  | append_singleton l m ih =>
    rw [List.foldl_append, List.foldl_cons, List.foldl_nil,
      ih (fun a ha => hband a (List.mem_append_left _ ha))]
    rw [binary64_updateGrowth_in_band { p with growthStage := growthAfter l.length } m halive
      (hband m (List.mem_append_right _ (List.mem_singleton.mpr rfl)))]
    simp only [List.length_append, List.length_singleton]
    rw [growthAfter_succ]

theorem replicate_half_in_potato_band (n : Nat) :
    ∀ m ∈ List.replicate n (0.5 : ℚ),
      (Potato.new : Plant ℚ).minMoisture ≤ m ∧ m ≤ (Potato.new : Plant ℚ).maxMoisture := by
  intro m hm
  rw [List.eq_of_mem_replicate hm]
  norm_num [Potato.new, Plant.new]

/-- Counterexample to C20 as worded: a new Potato after 8 calls at moisture 0.5,
inside its band, has growth stage `0.39999999999999997`, which is neither the
exact `min(1, 8 * 0.05)` nor that product evaluated in binary64. -/
theorem growth_exact_closed_form_counterexample :
    (∀ m ∈ List.replicate 8 (0.5 : ℚ),
      (Potato.new : Plant ℚ).minMoisture ≤ m ∧ m ≤ (Potato.new : Plant ℚ).maxMoisture) ∧
    ((List.replicate 8 (0.5 : ℚ)).foldl Binary64.Plant.updateGrowth Potato.new).growthStage =
      7205759403792793 / 18014398509481984 ∧
    ((List.replicate 8 (0.5 : ℚ)).foldl Binary64.Plant.updateGrowth Potato.new).growthStage ≠
      min 1 (((8 : Nat) : ℚ) * 0.05) ∧
    ((List.replicate 8 (0.5 : ℚ)).foldl Binary64.Plant.updateGrowth Potato.new).growthStage ≠
      min 1 (nearest (((8 : Nat) : ℚ) * nearest 0.05)) := by
  have hf := foldl_binary64_updateGrowth_in_band Potato.new (List.replicate 8 (0.5 : ℚ)) rfl rfl
    (replicate_half_in_potato_band 8)
  have hg : ((List.replicate 8 (0.5 : ℚ)).foldl Binary64.Plant.updateGrowth
      Potato.new).growthStage = 7205759403792793 / 18014398509481984 := by
    rw [hf]
    rfl
  have hp : nearest (((8 : Nat) : ℚ) * nearest 0.05) = 3602879701896397 / 9007199254740992 := by
    rw [nearest_twentieth]
    rw [nearest_eval_pos _ 54 7205759403792794 (by norm_num) (by norm_num)
      (rne_eval _ 7205759403792794 (by norm_num) (by norm_num))]
    norm_num
  refine ⟨replicate_half_in_potato_band 8, hg, ?_, ?_⟩
  · rw [hg, min_eq_right (by norm_num)]
    norm_num
  · rw [hg, hp, min_eq_right (by norm_num)]
    norm_num

/-- C20 (amended): after `n` consecutive calls of `updateGrowth`, in the
arithmetic of JavaScript numbers, on a new plant with moistures inside its
tolerance band the plant is alive and its growth stage is the `n`-th entry of
`Binary64.growthAfter`, which is within `2^-51` of `min(1, n * 0.05)`; the
growth stage is 1 exactly from the 20th call on, and it lies in [0,1] at every
step. -/
theorem growth_binary64_closed_form (name emoji : String) (lo hi : ℚ) (ms : List ℚ)
    (hband : ∀ m ∈ ms, lo ≤ m ∧ m ≤ hi) :
    (ms.foldl Binary64.Plant.updateGrowth (Plant.new name lo hi emoji)).isAlive = true ∧
    (ms.foldl Binary64.Plant.updateGrowth (Plant.new name lo hi emoji)).growthStage =
      Binary64.growthAfter ms.length ∧
    |(ms.foldl Binary64.Plant.updateGrowth (Plant.new name lo hi emoji)).growthStage -
      min 1 ((ms.length : ℚ) * 0.05)| ≤ 1 / 2 ^ 51 ∧
    ((ms.foldl Binary64.Plant.updateGrowth (Plant.new name lo hi emoji)).growthStage = 1 ↔
      20 ≤ ms.length) ∧
    0 ≤ (ms.foldl Binary64.Plant.updateGrowth (Plant.new name lo hi emoji)).growthStage ∧
    (ms.foldl Binary64.Plant.updateGrowth (Plant.new name lo hi emoji)).growthStage ≤ 1 := by
  rw [foldl_binary64_updateGrowth_in_band (Plant.new name lo hi emoji) ms rfl rfl hband]
  obtain ⟨h1, h2, h3, h4⟩ := growthAfter_props ms.length
  exact ⟨rfl, rfl, h1, h2, h3, h4⟩

/-- Witness of C20 (amended): a new Potato after 19 and after 20 calls at
moisture 0.5; the 19th stage is `0.9500000000000003`. -/
theorem growth_binary64_closed_form_witness :
    (∀ m ∈ List.replicate 19 (0.5 : ℚ), (0.3 : ℚ) ≤ m ∧ m ≤ 0.8) ∧
    ((List.replicate 19 (0.5 : ℚ)).foldl Binary64.Plant.updateGrowth
      (Plant.new "potato" 0.3 0.8 "p")).growthStage = 8556839292003945 / 9007199254740992 ∧
    ((List.replicate 20 (0.5 : ℚ)).foldl Binary64.Plant.updateGrowth
      (Plant.new "potato" 0.3 0.8 "p")).growthStage = 1 ∧
    ((List.replicate 20 (0.5 : ℚ)).foldl Binary64.Plant.updateGrowth
      (Plant.new "potato" 0.3 0.8 "p")).isAlive = true := by
  have hb : ∀ n, ∀ m ∈ List.replicate n (0.5 : ℚ), (0.3 : ℚ) ≤ m ∧ m ≤ 0.8 := by
    intro n m hm
    rw [List.eq_of_mem_replicate hm]
    norm_num
  have h19 := growth_binary64_closed_form "potato" "p" (0.3 : ℚ) 0.8 (List.replicate 19 0.5)
    (hb 19)
  have h20 := growth_binary64_closed_form "potato" "p" (0.3 : ℚ) 0.8 (List.replicate 20 0.5)
    (hb 20)
  refine ⟨hb 19, ?_, h20.2.2.2.1.mpr (by simp), h20.1⟩
  rw [h19.2.1]
  rfl

end GrowthClaims

end FarmSim
